import Mathlib

/-!
# MobiusBLE protocol engine: embedding and verification

Shallow embedding of the protocol core of the ESP32 MobiusBLE library
(`MobiusCRC.cpp`, `MobiusDevice.cpp`, `MobiusDevice.h`).

Conventions of the embedding.

* A `uint8_t*` buffer is the `List Nat` of the bytes of its allocation; the
  separate size argument the C++ functions take is kept as a separate argument.
* Machine integers are `Nat` (or `Int` for signed ones); every conversion the
  source performs (`(uint8_t)`, `(uint16_t)`, `lowByte`, `highByte`, storing
  into a `uint16_t`) is an explicit `%`.
* An access outside an allocation is undefined behaviour in C++; it is modelled
  as the result `none`.
-/

/-! ## Constants of `namespace Mobius` (MobiusDevice.h) -/

namespace Mobius

/-- C2CI_Request. -/
def OP_GROUP_REQUEST : Nat := 0xde
/-- C2CI_Confirm. -/
def OP_GROUP_CONFIRM : Nat := 0xdf
/-- GetC2AttrFsciRequest. -/
def OP_CODE_GET : Nat := 0x17
/-- SetC2AttrFsciRequest. -/
def OP_CODE_SET : Nat := 0x18
def ATTRIBUTE_CURRENT_SCENE : List Nat := [0x91, 0x01, 0x00, 0x01]
def ATTRIBUTE_OPERATION_STATE : List Nat := [0x68, 0x00, 0x00, 0x01, 0x01, 0xFF]
def RESPONSE_DATA_SUCCESSFUL : List Nat := [0xFF, 0xFF]
def OPERATION_STATE_SCHEDULE : Nat := 0x03
end Mobius

/-! ## Arduino helpers (`#define lowByte`, `#define highByte`) -/

/-- Arduino `lowByte(w)`, that is `((uint8_t) ((w) & 0xff))`. -/
def lowByte (w : Nat) : Nat := (w &&& 0xff) % 256

/-- Arduino `highByte(w)`, that is `((uint8_t) ((w) >> 8))`. -/
def highByte (w : Nat) : Nat := (w >>> 8) % 256

/-! ## Checksum engine (MobiusCRC.cpp)

`Mobius::CRC16_TABLE` is declared in a header that is not part of the sources
at hand, so the table is a parameter `table : List Nat` of every function that
uses it; a lookup outside the table is a fault like any other access outside
an allocation. -/

namespace MobiusCRC

/-- The table index of one iteration of `crc16`, for the byte `b = data[i]`:
`uint8_t dex = (data[i] ^ ((uint8_t)(crc16 >> 8))) & 0xff`. -/
def dex (crc16 b : Nat) : Nat := ((b ^^^ ((crc16 >>> 8) % 256)) &&& 0xff) % 256

/-- One iteration of the `for` loop of `crc16`, given the byte `b = data[i]`:
`crc16 = (uint16_t)((crc16 << 8) ^ Mobius::CRC16_TABLE[dex])`. -/
def crc16Step (table : List Nat) (crc16 b : Nat) : Option Nat :=
  match table[dex crc16 b]? with
  | none => none
  | some t => some (((crc16 <<< 8) ^^^ t) % 65536)

/-- The loop `for (int i = ...; i < length; i++)` of `crc16` with `n` iterations
left, the loop counter at `i` and the accumulator at `crc16`. -/
def crc16Loop (table data : List Nat) : Nat → Nat → Nat → Option Nat
  | 0, _, crc16 => some crc16
  | n + 1, i, crc16 =>
    match data[i]? with
    | none => none
    | some b =>
      match crc16Step table crc16 b with
      | none => none
      | some c => crc16Loop table data n (i + 1) c

/-- Embedding of `MobiusCRC::crc16(uint8_t* data, int length)`; the accumulator
starts at `(uint16_t)-1`. -/
def crc16 (table data : List Nat) (length : Int) : Option Nat :=
  crc16Loop table data length.toNat 0 0xFFFF

/-- The spec's table index `(byte XOR high_byte(accumulator)) & 0xFF`
(written from the specification, section 4.1). -/
def checksum16Index (acc b : Nat) : Nat := (b ^^^ (acc / 256)) &&& 0xFF

/-- The spec's step `acc, b -> ((acc << 8) mod 2^16) XOR table[index]`
(written from the specification, section 4.1). -/
def checksum16Step (table : List Nat) (acc b : Nat) : Nat :=
  ((acc * 256) % 65536) ^^^ table.getD (checksum16Index acc b) 0

/-- The spec's `checksum16`: the left fold of `checksum16Step` from `0xFFFF`
(written from the specification, section 4.1). -/
def checksum16 (table bytes : List Nat) : Nat :=
  bytes.foldl (checksum16Step table) 0xFFFF

/-- A 256-entry table of 16-bit values, used where a concrete table is needed:
entry `i` is `257 * i`. It stands in for `Mobius::CRC16_TABLE`, whose entries
are not part of the sources at hand. -/
def sampleTable : List Nat := (List.range 256).map (fun i => i * 257)

end MobiusCRC

/-! ## Observable executions

Code that talks to the listener, the mutexes and the transport, or that reads
received data, runs in `Ran`: the list of observable actions it performed, in
order, and its value, `none` once an access fell outside its allocation. -/

/-- Embedding of `enum class MobiusDeviceEvent` (MobiusDeviceEventListener.h). -/
inductive MobiusDeviceEvent where
  | scanning_begin
  | scanning_end
  | connection_begin
  | connection_failure
  | connection_successful
  | notification_received
  | request_successful
  | request_failure
  | response_successful
  | response_failure
  deriving DecidableEq, Repr

/-- The buffers whose element reads are recorded. -/
inductive Buf where
  | request
  | response
  | body
  | pData
  | responseData
  deriving DecidableEq, Repr

/-- One observable effect of an execution. -/
inductive Effect where
  /-- `MobiusDevice::_listener->onEvent(e)`. -/
  | event (e : MobiusDeviceEvent)
  /-- `_callMutex.lock()`. -/
  | callMutexLock
  /-- `_callMutex.unlock()`. -/
  | callMutexUnlock
  /-- A call of `buildRequest`, which embeds the message id `messageId`. -/
  | buildRequest (messageId : Nat)
  /-- `_requestCharacteristic->writeValue(toSend, length)`. -/
  | writeValue (toSend : List Nat)
  /-- One test of `_responseUnread` in the wait loop of `sendRequest`. -/
  | poll
  /-- A read of element `i` of a buffer. -/
  | read (buf : Buf) (i : Nat)
  deriving DecidableEq, Repr

/-- The outcome of a run: the actions performed and the value, if no access
went outside an allocation. -/
structure Ran (α : Type) where
  trace : List Effect
  val : Option α

namespace Ran

/-- Finish with a value and no action. -/
def ret {α : Type} (a : α) : Ran α := ⟨[], some a⟩

/-- Sequence two runs; a fault in the first stops the execution. -/
def andThen {α β : Type} (x : Ran α) (f : α → Ran β) : Ran β :=
  match x.val with
  | none => ⟨x.trace, none⟩
  | some a => ⟨x.trace ++ (f a).trace, (f a).val⟩

instance : Monad Ran where
  pure := ret
  bind := andThen

/-- Perform one action. -/
def act (a : Effect) : Ran Unit := ⟨[a], some ()⟩

/-- The call `MobiusDevice::_listener->onEvent(e)`. -/
def emit (e : MobiusDeviceEvent) : Ran Unit := act (Effect.event e)

/-- Lift a computation that can only fault. -/
def ofOption {α : Type} (o : Option α) : Ran α := ⟨[], o⟩

/-- The element read `mem[i]` of the buffer `buf` whose allocation is `mem`. -/
def readAt (buf : Buf) (mem : List Nat) (i : Nat) : Ran Nat :=
  ⟨[Effect.read buf i], mem[i]?⟩

/-- The source side of `memcpy(dst, &mem[offset], n)`: reads the `n` elements
from `offset` on; copying no byte reads nothing. -/
def memcpy (buf : Buf) (mem : List Nat) (offset n : Nat) : Ran (List Nat) :=
  ⟨(List.range n).map (fun k => Effect.read buf (offset + k)),
   if n = 0 ∨ offset + n ≤ mem.length then some ((mem.drop offset).take n) else none⟩

/-- The C++ `b && rhs` on an already computed `b`: `rhs` is evaluated only
when `b` holds. -/
def andAlso (b : Bool) (rhs : Ran Bool) : Ran Bool :=
  if b then rhs else ret false

/-- The events sent to the listener, in order. -/
def events {α : Type} (x : Ran α) : List MobiusDeviceEvent :=
  x.trace.filterMap (fun a => match a with
    | Effect.event e => some e
    | _ => none)

/-- The indices read from buffer `buf`, in order. -/
def reads {α : Type} (x : Ran α) (buf : Buf) : List Nat :=
  x.trace.filterMap (fun a => match a with
    | Effect.read b i => if b = buf then some i else none
    | _ => none)

/-- Whether an effect is a step of the exchange protocol: a mutex operation, a
frame build, a transmit or a poll (not a listener event, not a buffer read). -/
def isStep : Effect → Bool
  | Effect.callMutexLock => true
  | Effect.callMutexUnlock => true
  | Effect.buildRequest _ => true
  | Effect.writeValue _ => true
  | Effect.poll => true
  | Effect.event _ => false
  | Effect.read _ _ => false

/-- The steps of the exchange protocol performed, in order. -/
def steps {α : Type} (x : Ran α) : List Effect := x.trace.filter isStep

end Ran

/-! ## Device and shared state (MobiusDevice.h) -/

/-- The identifiers of `namespace Mobius` a `BLEUUID` is compared with; any
other identifier is `other`. -/
inductive BLEUUID where
  | GENERAL_SERVICE
  | REQUEST_CHARACTERISTIC
  | RESPONSE_CHARACTERISTIC_2
  | RESPONSE_CHARACTERISTIC_1
  | other (n : Nat)
  deriving DecidableEq, Repr

/-- The instance fields of `class MobiusDevice` the protocol engine depends on:
`_messageId` (a `uint16_t`) and whether `_client` is not null. -/
structure MobiusDevice where
  messageId : Nat
  connected : Bool
  deriving DecidableEq, Repr

/-- The static inbound slot `_responseData`, `_responseDataSize`,
`_responseUnread` of `class MobiusDevice`. -/
structure Slot where
  responseData : List Nat
  responseDataSize : Nat
  responseUnread : Bool
  deriving DecidableEq, Repr

/-- One inbound notification as the BLE stack hands it to `notifyCallback`: the
characteristic it arrived on and its payload (the `length` argument is the
payload's size). -/
structure Notification where
  uuid : BLEUUID
  pData : List Nat
  deriving DecidableEq, Repr

/-- What the transport does during one `sendRequest`: the result of
`writeValue`, the notifications handled after the unread flag was cleared and
before `writeValue` returned, and, for each iteration of the wait loop the
clock allows, the notifications handled before that iteration tests the flag. -/
structure Transport where
  writeOk : Bool
  duringWrite : List Notification
  polls : List (List Notification)

/-- What the BLE stack answers during `connect`: whether the general service is
found, and for each characteristic whether it exists with the needed property. -/
structure ConnectOutcome where
  hasService : Bool
  hasRequestChar : Bool
  hasResponseChar1 : Bool
  hasResponseChar2 : Bool

/-! ## Frame builder, parser and validator (MobiusDevice.cpp)

`crc16` and `buildRequest` touch only the caller's payload and the frame under
construction; they are embedded in `Option` (fault or value) and their accesses
are checked but not recorded. The functions that handle received data and the
exchange run in `Ran`. -/

namespace MobiusDevice

/-- The assignment `buffer[i] = v`; a store outside the allocation is a fault. -/
def store (buffer : List Nat) (i v : Nat) : Option (List Nat) :=
  if i < buffer.length then some (buffer.set i v) else none

/-- Conversion of a `uint16_t` value to `short`, as in `short crc = crc16(...)`. -/
def toShort (v : Nat) : Int :=
  if v % 65536 < 32768 then ((v % 65536 : Nat) : Int) else ((v % 65536 : Nat) : Int) - 65536

/-- The loop `for (uint16_t i = ...; i < length; i++) request[9 + i] = data[i]`
of `buildRequest`, with `n` iterations left and the counter at `i`. -/
def copyData (data : List Nat) : Nat → Nat → List Nat → Option (List Nat)
  | 0, _, request => some request
  | n + 1, i, request =>
    match data[i]? with
    | none => none
    | some b =>
      match store request (9 + i) b with
      | none => none
      | some r => copyData data n (i + 1) r

/-- What `buildRequest` leaves behind: the frame (`none` when a store or read
went outside an allocation), the value written through `requestSize`, and the
device's `_messageId` afterwards. -/
structure Built where
  request : Option (List Nat)
  requestSize : Nat
  messageId : Nat

/-- Embedding of `MobiusDevice::buildRequest(data, length, opCode, reserved, requestSize)`
on a device whose `_messageId` is `messageId`. `requestSize` and `_messageId`
are `uint16_t`. The fresh allocation `new uint8_t[requestSize]` is taken to be
zero-filled; every cell is overwritten before it is read. The indices
`requestSize - 2` and `requestSize - 1` are natural-number differences: they
could only differ from the C++ `int` differences when `requestSize < 2`, and
then the store to `request[0]` or `request[1]` has already faulted. -/
def buildRequest (table : List Nat) (messageId : Nat) (data : List Nat)
    (length opCode reserved : Nat) : Built :=
  let requestSize := (length + 11) % 65536
  { requestSize := requestSize
    messageId := (messageId + 1) % 65536
    request := do
      let request := List.replicate requestSize 0
      let request ← store request 0 0x02
      let request ← store request 1 Mobius.OP_GROUP_REQUEST
      let request ← store request 2 opCode
      let request ← store request 3 (lowByte messageId)
      let request ← store request 4 (highByte messageId)
      let request ← store request 5 (highByte reserved)
      let request ← store request 6 (lowByte reserved)
      let request ← store request 7 (lowByte length)
      let request ← store request 8 (highByte length)
      let request ← copyData data length 0 request
      let crc ← MobiusCRC.crc16 table (request.drop 1) ((requestSize : Int) - 3)
      let crc := toShort crc
      let request ← store request (requestSize - 2) (crc % 256).toNat
      store request (requestSize - 1) ((crc >>> (8 : Nat)) % 256).toNat }

/-- Embedding of `MobiusDevice::parseResponseData(response, length, dataSize)`:
the value is the pair of the returned `data` and the value left in `dataSize`
(a `uint16_t`). -/
def parseResponseData (response : List Nat) (length : Nat) : Ran (List Nat × Nat) := do
  let isValid := decide (length > 11)
  let isValid ← Ran.andAlso isValid (do
    let r0 ← Ran.readAt Buf.response response 0
    pure (0x02 == r0))
  let isValid ← Ran.andAlso isValid (do
    let r1 ← Ran.readAt Buf.response response 1
    pure (Mobius.OP_GROUP_CONFIRM == r1))
  if isValid then do
    let r8 ← Ran.readAt Buf.response response 8
    let r7 ← Ran.readAt Buf.response response 7
    let dataSize := ((r8 <<< 8) + r7) % 65536
    let data ← Ran.memcpy Buf.response response 9 dataSize
    pure (data, dataSize)
  else
    pure ([], 0)

/-- The loop `for (int i = ...; dataSuccess && i < dataSize - 1; i++)` of
`responseSuccessful`, with at most `n` iterations left and the counter at `i`. -/
def successLoop (response : List Nat) : Nat → Nat → Bool → Ran Bool
  | 0, _, dataSuccess => pure dataSuccess
  | n + 1, i, dataSuccess =>
    if dataSuccess then do
      let _ ← Ran.readAt Buf.response response (10 + i)
      let dataSuccess ← Ran.andAlso dataSuccess (do
        let r ← Ran.readAt Buf.response response (10 + i)
        let expected ← Ran.ofOption Mobius.RESPONSE_DATA_SUCCESSFUL[i]?
        pure (r == expected))
      successLoop response n (i + 1) dataSuccess
    else
      pure dataSuccess

/-- Embedding of `MobiusDevice::responseSuccessful(request, reqSize, response, resSize)`. -/
def responseSuccessful (request : List Nat) (reqSize : Nat) (response : List Nat)
    (resSize : Nat) : Ran Bool := do
  let lengthsValid := decide (reqSize > 11) && decide (resSize > 11)
  let (idValid, dataSuccess) ←
    if lengthsValid then do
      let q0 ← Ran.readAt Buf.request request 0
      let r0 ← Ran.readAt Buf.response response 0
      let idValid := q0 == r0
      let idValid ← Ran.andAlso idValid (do
        let r1 ← Ran.readAt Buf.response response 1
        pure (r1 == Mobius.OP_GROUP_CONFIRM))
      let idValid ← Ran.andAlso idValid (do
        let q2 ← Ran.readAt Buf.request request 2
        let r2 ← Ran.readAt Buf.response response 2
        pure (q2 == r2))
      let idValid ← Ran.andAlso idValid (do
        let q3 ← Ran.readAt Buf.request request 3
        let r3 ← Ran.readAt Buf.response response 3
        pure (q3 == r3))
      let idValid ← Ran.andAlso idValid (do
        let q4 ← Ran.readAt Buf.request request 4
        let r4 ← Ran.readAt Buf.response response 4
        pure (q4 == r4))
      let r8 ← Ran.readAt Buf.response response 8
      let r7 ← Ran.readAt Buf.response response 7
      let dataSize : Int := (((r8 <<< 8) + r7 : Nat) : Int)
      let dataSuccess := decide (3 = dataSize)
      let dataSuccess ← Ran.andAlso dataSuccess (do
        let r9 ← Ran.readAt Buf.response response 9
        pure (0x00 == r9))
      let dataSuccess ← successLoop response (dataSize - 1).toNat 0 dataSuccess
      pure (idValid, dataSuccess)
    else
      pure (false, false)
  let responseSuccessful := lengthsValid && idValid && dataSuccess
  if responseSuccessful then
    Ran.emit MobiusDeviceEvent.response_successful
  else
    Ran.emit MobiusDeviceEvent.response_failure
  pure responseSuccessful

/-! ### Connection, notification intake and the exchange -/

/-- The result of `connectToCharacteristics`:
`hasRequestChar && hasResponseChar1 && hasResponseChar2`. -/
def connectToCharacteristics (o : ConnectOutcome) : Bool :=
  o.hasRequestChar && o.hasResponseChar1 && o.hasResponseChar2

/-- Embedding of `MobiusDevice::connect()`; the value is the returned
`(nullptr != _client)` and the device afterwards. -/
def connect (o : ConnectOutcome) (self : MobiusDevice) : Ran (Bool × MobiusDevice) := do
  let self := { self with messageId := 2 }
  Ran.emit MobiusDeviceEvent.connection_begin
  if !o.hasService then do
    Ran.emit MobiusDeviceEvent.connection_failure
    pure (self.connected, self)
  else if connectToCharacteristics o then do
    let self := { self with connected := true }
    Ran.emit MobiusDeviceEvent.connection_successful
    pure (self.connected, self)
  else do
    Ran.emit MobiusDeviceEvent.connection_failure
    pure (self.connected, self)

/-- Embedding of `MobiusDevice::notifyCallback(responseCharacteristic, pData, length, isNotify)`
acting on the static slot; `uuid` is `responseCharacteristic->getUUID()`. -/
def notifyCallback (uuid : BLEUUID) (pData : List Nat) (length : Nat) (slot : Slot) :
    Ran Slot := do
  Ran.emit MobiusDeviceEvent.notification_received
  if uuid = BLEUUID.RESPONSE_CHARACTERISTIC_2 then do
    let copied ← Ran.memcpy Buf.pData pData 0 length
    pure { responseData := copied, responseDataSize := length, responseUnread := true }
  else
    pure slot

/-- The BLE stack handling a run of notifications, one `notifyCallback` each. -/
def deliver : List Notification → Slot → Ran Slot
  | [], slot => pure slot
  | n :: rest, slot => do
    let slot ← notifyCallback n.uuid n.pData n.pData.length slot
    deliver rest slot

/-- No notification handled during the exchange arrives on
`RESPONSE_CHARACTERISTIC_2`, the only characteristic `notifyCallback` feeds the
slot from: nothing is deposited before the wait ends (the time-out case). -/
def silent (env : Transport) : Bool :=
  env.duringWrite.all (fun n => decide (n.uuid ≠ BLEUUID.RESPONSE_CHARACTERISTIC_2))
    && env.polls.all (fun arrivals =>
        arrivals.all (fun n => decide (n.uuid ≠ BLEUUID.RESPONSE_CHARACTERISTIC_2)))

/-- What `sendRequest` leaves behind: the returned `response`, the value
written through `responseSize` (a `uint16_t`) and the static slot. -/
structure Sent where
  response : List Nat
  responseSize : Nat
  slot : Slot
  deriving DecidableEq, Repr

/-- The wait loop `while (!received && oneSecond > elapsed)` of `sendRequest`:
one list entry per iteration the clock allows. -/
def waitLoop : List (List Notification) → Slot → Ran Sent
  | [], slot => pure { response := [], responseSize := 0, slot := slot }
  | arrivals :: rest, slot => do
    let slot ← deliver arrivals slot
    Ran.act Effect.poll
    if slot.responseUnread then do
      let responseSize := slot.responseDataSize % 65536
      let response ← Ran.memcpy Buf.responseData slot.responseData 0 responseSize
      pure { response := response, responseSize := responseSize,
             slot := { slot with responseUnread := false } }
    else
      waitLoop rest slot

/-- Embedding of `MobiusDevice::sendRequest(request, length, responseSize)`. -/
def sendRequest (env : Transport) (slot : Slot) (request : List Nat) (length : Nat) :
    Ran Sent := do
  let toSend ← Ran.memcpy Buf.request request 0 length
  let slot := { slot with responseUnread := false }
  let slot ← deliver env.duringWrite slot
  Ran.act (Effect.writeValue toSend)
  if env.writeOk then do
    Ran.emit MobiusDeviceEvent.request_successful
    waitLoop env.polls slot
  else do
    Ran.emit MobiusDeviceEvent.request_failure
    pure { response := [], responseSize := 0, slot := slot }

/-- What `setData` leaves behind: the returned flag, the device and the slot. -/
structure SetResult where
  result : Bool
  self : MobiusDevice
  slot : Slot
  deriving DecidableEq, Repr

/-- Embedding of `MobiusDevice::setData(data, length, doVerification)`. -/
def setData (table : List Nat) (env : Transport) (self : MobiusDevice) (slot : Slot)
    (data : List Nat) (length : Nat) (doVerification : Bool) : Ran SetResult := do
  let built := buildRequest table self.messageId data length Mobius.OP_CODE_SET 0x0800
  Ran.act (Effect.buildRequest self.messageId)
  let req ← Ran.ofOption built.request
  let reqSize := built.requestSize
  Ran.act Effect.callMutexLock
  let sent ← sendRequest env slot req reqSize
  let verified ←
    if decide (0 < sent.responseSize) && doVerification then
      responseSuccessful req reqSize sent.response sent.responseSize
    else
      pure false
  Ran.act Effect.callMutexUnlock
  pure { result := verified || !doVerification,
         self := { self with messageId := built.messageId }, slot := sent.slot }

/-- What `getData` leaves behind: the returned `responseData`, the value
written through `dataSize`, the device and the slot. -/
structure GetResult where
  data : List Nat
  dataSize : Nat
  self : MobiusDevice
  slot : Slot
  deriving DecidableEq, Repr

/-- Embedding of `MobiusDevice::getData(data, length, dataSize)`. -/
def getData (table : List Nat) (env : Transport) (self : MobiusDevice) (slot : Slot)
    (data : List Nat) (length : Nat) : Ran GetResult := do
  let built := buildRequest table self.messageId data length Mobius.OP_CODE_GET 0x0000
  Ran.act (Effect.buildRequest self.messageId)
  let req ← Ran.ofOption built.request
  let reqSize := built.requestSize
  Ran.act Effect.callMutexLock
  let sent ← sendRequest env slot req reqSize
  let parsed ← parseResponseData sent.response sent.responseSize
  Ran.act Effect.callMutexUnlock
  pure { data := parsed.1, dataSize := parsed.2,
         self := { self with messageId := built.messageId }, slot := sent.slot }

/-- What `getCurrentScene` leaves behind: the returned scene (a `uint16_t`),
the device and the slot. -/
structure SceneResult where
  scene : Nat
  self : MobiusDevice
  slot : Slot
  deriving DecidableEq, Repr

/-- Embedding of `MobiusDevice::getCurrentScene()`; `scene` starts at
`(uint16_t)-1`. -/
def getCurrentScene (table : List Nat) (env : Transport) (self : MobiusDevice) (slot : Slot) :
    Ran SceneResult := do
  let scene := 65535
  let attSize := Mobius.ATTRIBUTE_CURRENT_SCENE.length
  let attributes := Mobius.ATTRIBUTE_CURRENT_SCENE
  let got ← getData table env self slot attributes attSize
  let scene ←
    if 0 < got.dataSize then do
      let b7 ← Ran.readAt Buf.body got.data 7
      let scene := b7 % 65536
      let b6 ← Ran.readAt Buf.body got.data 6
      pure (((scene <<< 8) + b6) % 65536)
    else
      pure scene
  pure { scene := scene, self := got.self, slot := got.slot }

/-- The characteristics `connectToCharacteristics` registers `notifyCallback`
on (`registerForNotify`): each response characteristic that exists and can
notify. -/
def registeredFor (o : ConnectOutcome) : List BLEUUID :=
  (if o.hasResponseChar1 then [BLEUUID.RESPONSE_CHARACTERISTIC_1] else [])
    ++ (if o.hasResponseChar2 then [BLEUUID.RESPONSE_CHARACTERISTIC_2] else [])

/-- The slot after the notifications `ns` have been handled in order, as a pure
function: each one on `RESPONSE_CHARACTERISTIC_2` replaces the payload and sets
the unread flag, any other leaves the slot alone. -/
def deposit : List Notification → Slot → Slot
  | [], slot => slot
  | n :: rest, slot =>
    deposit rest
      (if n.uuid = BLEUUID.RESPONSE_CHARACTERISTIC_2 then
        { responseData := n.pData, responseDataSize := n.pData.length, responseUnread := true }
      else slot)

/-- The slot as the `k`-th test of the unread flag (counting from 0) in the
wait loop of `sendRequest` finds it, provided no earlier test found the flag
set: the flag was cleared, then everything handled during the write and up to
that test was deposited. -/
def slotAtPoll (env : Transport) (slot : Slot) (k : Nat) : Slot :=
  deposit (env.duringWrite ++ (env.polls.take (k + 1)).flatten)
    { slot with responseUnread := false }

/-! ### Discovery scanner -/

/-- What the scanner needs of a `BLEAdvertisedDevice`: its address, whether it
carries a service UUID, and whether it advertises `Mobius::GENERAL_SERVICE`. -/
structure BLEAdvertisedDevice where
  address : Nat
  haveServiceUUID : Bool
  isAdvertisingGeneralService : Bool
  deriving DecidableEq, Repr

/-- The test both `onResult` and `scanForMobiusDevices` apply:
`haveServiceUUID() && isAdvertisingService(Mobius::GENERAL_SERVICE)`. -/
def isMobius (advertisedDevice : BLEAdvertisedDevice) : Bool :=
  advertisedDevice.haveServiceUUID && advertisedDevice.isAdvertisingGeneralService

/-- The static counters `_expectedDevices` and `_foundDevices` (both `uint8_t`)
of `MobiusDeviceScanCallbacks`. -/
structure MobiusDeviceScanCallbacks where
  expectedDevices : Nat
  foundDevices : Nat
  deriving DecidableEq, Repr

/-- Embedding of `MobiusDeviceScanCallbacks::onResult(advertisedDevice)`: the
counters afterwards and whether `BLEDevice::getScan()->stop()` was called. -/
def onResult (advertisedDevice : BLEAdvertisedDevice) (cb : MobiusDeviceScanCallbacks) :
    MobiusDeviceScanCallbacks × Bool :=
  if isMobius advertisedDevice then
    let found := (cb.foundDevices + 1) % 256
    ({ cb with foundDevices := found }, decide (found ≥ cb.expectedDevices))
  else
    (cb, false)

/-- The transport's `scanner->start(scanDuration, false)`: the advertisements
the time budget allows arrive in order; each is handed to `onResult` and kept
in the results; the scan ends when `onResult` stopped it or when the
advertisements are exhausted. The value is the results and the counters. -/
def scanStart : List BLEAdvertisedDevice → MobiusDeviceScanCallbacks →
    List BLEAdvertisedDevice × MobiusDeviceScanCallbacks
  | [], cb => ([], cb)
  | advertisedDevice :: rest, cb =>
    if (onResult advertisedDevice cb).2 then
      ([advertisedDevice], (onResult advertisedDevice cb).1)
    else
      (advertisedDevice :: (scanStart rest (onResult advertisedDevice cb).1).1,
        (scanStart rest (onResult advertisedDevice cb).1).2)

/-- The assignment `deviceBuffer[count] = device` on the caller's buffer, of
which the cells written so far are kept. -/
def putDevice (deviceBuffer : List BLEAdvertisedDevice) (count : Nat)
    (device : BLEAdvertisedDevice) : List BLEAdvertisedDevice :=
  if count < deviceBuffer.length then deviceBuffer.set count device
  else deviceBuffer ++ [device]

/-- The loop `for (int i = ...; i < deviceCount; i++)` of `scanForMobiusDevices`
over the scan results, with `count` a `uint8_t`. -/
def collectDevices : List BLEAdvertisedDevice → List BLEAdvertisedDevice → Nat →
    List BLEAdvertisedDevice × Nat
  | [], deviceBuffer, count => (deviceBuffer, count)
  | advertisedDevice :: rest, deviceBuffer, count =>
    if isMobius advertisedDevice then
      collectDevices rest (putDevice deviceBuffer count advertisedDevice) ((count + 1) % 256)
    else
      collectDevices rest deviceBuffer count

/-- What `scanForMobiusDevices` leaves behind: the returned count, the cells of
`deviceBuffer` it wrote, the scan results it went through and the counters. -/
structure ScanResult where
  count : Nat
  deviceBuffer : List BLEAdvertisedDevice
  results : List BLEAdvertisedDevice
  callbacks : MobiusDeviceScanCallbacks
  deriving DecidableEq, Repr

/-- Embedding of `MobiusDevice::scanForMobiusDevices(scanDuration, deviceBuffer, expectedCount)`;
`advertisements` is what the transport delivers within `scanDuration` if the
scan is not stopped. -/
def scanForMobiusDevices (advertisements : List BLEAdvertisedDevice) (expectedCount : Nat) :
    Ran ScanResult := do
  Ran.emit MobiusDeviceEvent.scanning_begin
  let cb : MobiusDeviceScanCallbacks := { expectedDevices := expectedCount, foundDevices := 0 }
  let count := 0
  let scanned := scanStart advertisements cb
  let collected := collectDevices scanned.1 [] count
  Ran.emit MobiusDeviceEvent.scanning_end
  pure { count := collected.2, deviceBuffer := collected.1, results := scanned.1,
         callbacks := scanned.2 }

/-- The arguments of one call of `buildRequest`. -/
structure BuildArgs where
  data : List Nat
  length : Nat
  opCode : Nat
  reserved : Nat

/-- Consecutive calls of `buildRequest` on one device whose `_messageId` starts
at `messageId`: the results in call order. -/
def buildRequests (table : List Nat) : Nat → List BuildArgs → List Built
  | _, [] => []
  | messageId, a :: rest =>
    (buildRequest table messageId a.data a.length a.opCode a.reserved)
      :: buildRequests table
          (buildRequest table messageId a.data a.length a.opCode a.reserved).messageId rest

end MobiusDevice

/-! ## Checksum engine: proofs -/

namespace MobiusCRC

theorem xor_mod_65536 (a t : Nat) (ht : t < 65536) :
    (a ^^^ t) % 65536 = (a % 65536) ^^^ t := by
  apply Nat.eq_of_testBit_eq
  intro i
  have h16 : (65536 : Nat) = 2 ^ 16 := by norm_num
  rw [h16] at ht ⊢
  simp only [Nat.testBit_mod_two_pow, Nat.testBit_xor]
  by_cases hi : i < 16
  · simp [hi]
  · have : t.testBit i = false := by
      apply Nat.testBit_lt_two_pow
      calc t < 2 ^ 16 := ht
        _ ≤ 2 ^ i := Nat.pow_le_pow_right (by norm_num) (by omega)
    simp [hi, this]

theorem checksum16Index_lt (acc b : Nat) : checksum16Index acc b < 256 := by
  unfold checksum16Index
  have : (b ^^^ (acc / 256)) &&& 0xFF ≤ 0xFF := Nat.and_le_right
  omega

theorem dex_lt (crc16 b : Nat) : dex crc16 b < 256 := by
  unfold dex
  exact Nat.mod_lt _ (by norm_num)

theorem dex_eq (acc b : Nat) (hacc : acc < 65536) : dex acc b = checksum16Index acc b := by
  have hidx := checksum16Index_lt acc b
  have hhi : (acc >>> 8) % 256 = acc / 256 := by
    rw [Nat.shiftRight_eq_div_pow]
    norm_num
    omega
  unfold dex
  rw [hhi]
  exact Nat.mod_eq_of_lt hidx

theorem checksum16Step_lt (table : List Nat) (ht : ∀ t ∈ table, t < 65536) (acc b : Nat) :
    checksum16Step table acc b < 65536 := by
  unfold checksum16Step
  have h16 : (65536 : Nat) = 2 ^ 16 := by norm_num
  rw [h16]
  apply Nat.xor_lt_two_pow
  · exact Nat.mod_lt _ (by norm_num)
  · rw [← h16]
    rw [List.getD_eq_getElem?_getD]
    cases h : table[checksum16Index acc b]? with
    | none => simp
    | some t =>
      simp only [Option.getD_some]
      exact ht t (List.getElem?_mem h)

theorem crc16Step_eq (table : List Nat) (hlen : table.length = 256)
    (ht : ∀ t ∈ table, t < 65536) (acc b : Nat) (hacc : acc < 65536) :
    crc16Step table acc b = some (checksum16Step table acc b) := by
  have hidx := checksum16Index_lt acc b
  have hin : checksum16Index acc b < table.length := by omega
  unfold crc16Step checksum16Step
  rw [dex_eq acc b hacc]
  rw [List.getElem?_eq_getElem hin, List.getD_eq_getElem?_getD, List.getElem?_eq_getElem hin]
  simp only [Option.getD_some]
  have hlt : table[checksum16Index acc b] < 65536 := ht _ (List.getElem_mem _)
  rw [xor_mod_65536 _ _ hlt, Nat.shiftLeft_eq]

theorem crc16Loop_eq (table : List Nat) (hlen : table.length = 256)
    (ht : ∀ t ∈ table, t < 65536) (rest : List Nat) :
    ∀ (pre : List Nat) (acc : Nat), acc < 65536 →
      crc16Loop table (pre ++ rest) rest.length pre.length acc
        = some (rest.foldl (checksum16Step table) acc) := by
  induction rest with
  | nil => intro pre acc _; simp [crc16Loop]
  | cons b rest ih =>
    intro pre acc hacc
    have hget : (pre ++ b :: rest)[pre.length]? = some b := by
      rw [List.getElem?_append_right (Nat.le_refl _)]
      simp
    simp only [List.length_cons, crc16Loop, hget, crc16Step_eq table hlen ht acc b hacc,
      List.foldl_cons]
    have h := ih (pre ++ [b]) (checksum16Step table acc b) (checksum16Step_lt table ht acc b)
    simpa using h

/-- C4. For a 256-entry table of 16-bit values and any byte sequence, `crc16`
run over the whole sequence returns the left fold, from `0xFFFF`, of the step
`acc, b -> ((acc * 256) mod 65536) XOR table[(b XOR (acc div 256)) AND 0xFF]`;
the checksum of the empty sequence is `0xFFFF`; the table index the code
computes is below 256 for every accumulator and byte. -/
theorem crc16_eq_fold (table data : List Nat) (hlen : table.length = 256)
    (ht : ∀ t ∈ table, t < 65536) :
    crc16 table data data.length
        = some (data.foldl
            (fun acc b => ((acc * 256) % 65536) ^^^ table.getD ((b ^^^ (acc / 256)) &&& 0xFF) 0)
            0xFFFF)
      ∧ crc16 table [] 0 = some 0xFFFF
      ∧ ∀ acc b, dex acc b < 256 := by
  refine ⟨?_, rfl, dex_lt⟩
  have h := crc16Loop_eq table hlen ht data [] 0xFFFF (by norm_num)
  have hf : checksum16Step table
      = fun acc b => ((acc * 256) % 65536) ^^^ table.getD ((b ^^^ (acc / 256)) &&& 0xFF) 0 := rfl
  rw [← hf]
  simpa [crc16] using h

end MobiusCRC

/-! ## The run monad: projections -/

namespace Ran

@[simp] theorem val_ret {α : Type} (a : α) : (ret a).val = some a := rfl
@[simp] theorem trace_ret {α : Type} (a : α) : (ret a).trace = [] := rfl
@[simp] theorem val_pure {α : Type} (a : α) : (pure a : Ran α).val = some a := rfl
@[simp] theorem trace_pure {α : Type} (a : α) : (pure a : Ran α).trace = [] := rfl

@[simp] theorem val_bind {α β : Type} (x : Ran α) (f : α → Ran β) :
    (x >>= f).val = x.val.bind (fun a => (f a).val) := by
  show (andThen x f).val = _
  unfold andThen
  cases h : x.val <;> simp

theorem trace_bind_some {α β : Type} (x : Ran α) (f : α → Ran β) (a : α) (h : x.val = some a) :
    (x >>= f).trace = x.trace ++ (f a).trace := by
  show (andThen x f).trace = _
  unfold andThen
  simp [h]

theorem trace_bind_none {α β : Type} (x : Ran α) (f : α → Ran β) (h : x.val = none) :
    (x >>= f).trace = x.trace := by
  show (andThen x f).trace = _
  unfold andThen
  simp [h]

@[simp] theorem val_act (a : Effect) : (act a).val = some () := rfl
@[simp] theorem trace_act (a : Effect) : (act a).trace = [a] := rfl
@[simp] theorem val_emit (e : MobiusDeviceEvent) : (emit e).val = some () := rfl
@[simp] theorem trace_emit (e : MobiusDeviceEvent) : (emit e).trace = [Effect.event e] := rfl
@[simp] theorem val_ofOption {α : Type} (o : Option α) : (ofOption o).val = o := rfl
@[simp] theorem trace_ofOption {α : Type} (o : Option α) : (ofOption o).trace = [] := rfl
@[simp] theorem val_readAt (buf : Buf) (mem : List Nat) (i : Nat) :
    (readAt buf mem i).val = mem[i]? := rfl
@[simp] theorem trace_readAt (buf : Buf) (mem : List Nat) (i : Nat) :
    (readAt buf mem i).trace = [Effect.read buf i] := rfl
@[simp] theorem val_andAlso (b : Bool) (rhs : Ran Bool) :
    (andAlso b rhs).val = if b then rhs.val else some false := by
  cases b <;> rfl

@[simp] theorem val_ite {α : Type} (c : Prop) [Decidable c] (x y : Ran α) :
    (if c then x else y).val = if c then x.val else y.val := by
  split <;> rfl

end Ran

/-! ## Response validator: proofs -/

namespace MobiusDevice

theorem successLoop_false (response : List Nat) (n i : Nat) :
    (successLoop response n i false).val = some false := by
  cases n <;> simp [successLoop]

theorem successLoop_two (response : List Nat) (r10 r11 : Nat)
    (h10 : response[10]? = some r10) (h11 : response[11]? = some r11) :
    (successLoop response 2 0 true).val = some (decide (r10 = 0xFF ∧ r11 = 0xFF)) := by
  by_cases h : r10 = 0xFF <;> by_cases h2 : r11 = 0xFF <;>
    simp [successLoop, h10, h11, h, h2, Mobius.RESPONSE_DATA_SUCCESSFUL]

theorem responseSuccessful_closed (request response : List Nat) (reqSize resSize : Nat)
    (q0 q2 q3 q4 r0 r1 r2 r3 r4 r7 r8 r9 r10 r11 : Nat)
    (hq : reqSize > 11) (hr : resSize > 11)
    (hq0 : request[0]? = some q0) (hq2 : request[2]? = some q2) (hq3 : request[3]? = some q3)
    (hq4 : request[4]? = some q4) (hr0 : response[0]? = some r0) (hr1 : response[1]? = some r1)
    (hr2 : response[2]? = some r2) (hr3 : response[3]? = some r3) (hr4 : response[4]? = some r4)
    (hr7 : response[7]? = some r7) (hr8 : response[8]? = some r8) (hr9 : response[9]? = some r9)
    (hr10 : response[10]? = some r10) (hr11 : response[11]? = some r11) :
    (responseSuccessful request reqSize response resSize).val
      = some (decide (q0 = r0 ∧ r1 = 0xDF ∧ q2 = r2 ∧ q3 = r3 ∧ q4 = r4
          ∧ r8 * 256 + r7 = 3 ∧ r9 = 0 ∧ r10 = 0xFF ∧ r11 = 0xFF)) := by
  have hsh : r8 <<< 8 = r8 * 256 := by rw [Nat.shiftLeft_eq]
  have h09 : decide (0 = r9) = decide (r9 = 0) := by
    rw [Bool.eq_iff_iff, decide_eq_true_iff, decide_eq_true_iff]
    exact eq_comm
  simp only [responseSuccessful, hq, hr, decide_True, Bool.and_self, if_true, Ran.val_bind,
    Ran.val_readAt, hq0, hq2, hq3, hq4, hr0, hr1, hr2, hr3, hr4, hr7,
    hr8, hr9, Option.some_bind, Ran.val_andAlso, Ran.val_pure, hsh, Ran.val_ite, Ran.val_emit,
    Mobius.OP_GROUP_CONFIRM, Bool.true_and, ite_self, Bool.beq_eq_decide_eq, h09]
  by_cases hd : r8 * 256 + r7 = 3
  · have hN : (((3 : Nat) : Int) - 1).toNat = 2 := by decide
    have hD : decide ((3 : Int) = ((3 : Nat) : Int)) = true := by decide
    simp only [hd, hN, hD, decide_True, Bool.true_and, if_true]
    by_cases h0 : q0 = r0 <;> by_cases h1 : r1 = 223 <;>
    by_cases h2 : q2 = r2 <;> by_cases h3 : q3 = r3 <;> by_cases h4 : q4 = r4 <;>
    by_cases h9 : r9 = 0 <;>
    simp [successLoop_two response r10 r11 hr10 hr11, successLoop_false, h0, h1, h2, h3, h4, h9]
  · have hD : decide ((3 : Int) = ((r8 * 256 + r7 : Nat) : Int)) = false := by
      rw [decide_eq_false_iff_not]; omega
    simp only [hD, hd]
    by_cases h0 : q0 = r0 <;> by_cases h1 : r1 = 223 <;>
    by_cases h2 : q2 = r2 <;> by_cases h3 : q3 = r3 <;> by_cases h4 : q4 = r4 <;>
    simp [successLoop_false, h0, h1, h2, h3, h4]

theorem responseSuccessful_spec (request response : List Nat) (reqSize resSize : Nat)
    (hreq : request.length = reqSize) (hres : response.length = resSize) :
    ∃ b, (responseSuccessful request reqSize response resSize).val = some b ∧
      (b = true ↔
        reqSize > 11 ∧ resSize > 11 ∧ response[0]? = request[0]? ∧ response[1]? = some 0xDF
        ∧ response[2]? = request[2]? ∧ response[3]? = request[3]? ∧ response[4]? = request[4]?
        ∧ (∃ r7 r8, response[7]? = some r7 ∧ response[8]? = some r8 ∧ r7 + 256 * r8 = 3)
        ∧ response[9]? = some 0x00 ∧ response[10]? = some 0xFF ∧ response[11]? = some 0xFF) := by
  by_cases hq : reqSize > 11
  swap
  · refine ⟨false, ?_, by simp [hq]⟩
    simp [responseSuccessful, hq]
  by_cases hr : resSize > 11
  swap
  · refine ⟨false, ?_, by simp [hr]⟩
    simp [responseSuccessful, hr]
  subst hreq hres
  have getq : ∀ i, i < 12 → ∃ v, request[i]? = some v := fun i hi =>
    ⟨_, List.getElem?_eq_getElem (by omega)⟩
  have getr : ∀ i, i < 12 → ∃ v, response[i]? = some v := fun i hi =>
    ⟨_, List.getElem?_eq_getElem (by omega)⟩
  obtain ⟨q0, hq0⟩ := getq 0 (by omega)
  obtain ⟨q2, hq2⟩ := getq 2 (by omega)
  obtain ⟨q3, hq3⟩ := getq 3 (by omega)
  obtain ⟨q4, hq4⟩ := getq 4 (by omega)
  obtain ⟨r0, hr0⟩ := getr 0 (by omega)
  obtain ⟨r1, hr1⟩ := getr 1 (by omega)
  obtain ⟨r2, hr2⟩ := getr 2 (by omega)
  obtain ⟨r3, hr3⟩ := getr 3 (by omega)
  obtain ⟨r4, hr4⟩ := getr 4 (by omega)
  obtain ⟨r7, hr7⟩ := getr 7 (by omega)
  obtain ⟨r8, hr8⟩ := getr 8 (by omega)
  obtain ⟨r9, hr9⟩ := getr 9 (by omega)
  obtain ⟨r10, hr10⟩ := getr 10 (by omega)
  obtain ⟨r11, hr11⟩ := getr 11 (by omega)
  refine ⟨_, responseSuccessful_closed request response _ _ q0 q2 q3 q4 r0 r1 r2 r3 r4 r7 r8 r9
    r10 r11 hq hr hq0 hq2 hq3 hq4 hr0 hr1 hr2 hr3 hr4 hr7 hr8 hr9 hr10 hr11, ?_⟩
  simp only [decide_eq_true_iff, hq, hr, hq0, hq2, hq3, hq4, hr0, hr1, hr2, hr3, hr4, hr7, hr8,
    hr9, hr10, hr11, Option.some.injEq, true_and]
  constructor
  · rintro ⟨h0, h1, h2, h3, h4, h78, h9, h10, h11⟩
    exact ⟨h0.symm, h1, h2.symm, h3.symm, h4.symm, ⟨r7, r8, rfl, rfl, by omega⟩, h9, h10, h11⟩
  · rintro ⟨h0, h1, h2, h3, h4, ⟨a, b, rfl, rfl, h78⟩, h9, h10, h11⟩
    exact ⟨h0.symm, h1, h2.symm, h3.symm, h4.symm, by omega, h9, h10, h11⟩

/-- C1. For a request of size `reqSize` and a response of size `resSize`,
`responseSuccessful` returns a value, and that value is true exactly when both
sizes exceed 11, `response[0] = request[0]`, `response[1] = 0xDF`, bytes 2, 3
and 4 agree, the length field `response[7] + 256 * response[8]` is 3,
`response[9] = 0x00`, `response[10] = 0xFF` and `response[11] = 0xFF`; so
whenever one of these facts fails the result is false. -/
theorem responseSuccessful_iff (request response : List Nat) (reqSize resSize : Nat)
    (hreq : request.length = reqSize) (hres : response.length = resSize) :
    ∃ b, (responseSuccessful request reqSize response resSize).val = some b ∧
      (b = true ↔
        reqSize > 11 ∧ resSize > 11 ∧ response[0]? = request[0]? ∧ response[1]? = some 0xDF
        ∧ response[2]? = request[2]? ∧ response[3]? = request[3]? ∧ response[4]? = request[4]?
        ∧ (∃ r7 r8, response[7]? = some r7 ∧ response[8]? = some r8 ∧ r7 + 256 * r8 = 3)
        ∧ response[9]? = some 0x00 ∧ response[10]? = some 0xFF ∧ response[11]? = some 0xFF) :=
  responseSuccessful_spec request response reqSize resSize hreq hres

end MobiusDevice

/-! ## Frame builder: proofs -/

namespace MobiusCRC

theorem crc16Step_some (table : List Nat) (hlen : table.length = 256) (acc b : Nat) :
    ∃ c, crc16Step table acc b = some c ∧ c < 65536 := by
  have hin : dex acc b < table.length := by rw [hlen]; exact dex_lt acc b
  refine ⟨((acc <<< 8) ^^^ table[dex acc b]) % 65536, ?_, Nat.mod_lt _ (by norm_num)⟩
  unfold crc16Step
  rw [List.getElem?_eq_getElem hin]

theorem crc16Loop_window (table rest : List Nat) :
    ∀ (pre suf : List Nat) (acc : Nat),
      crc16Loop table (pre ++ rest ++ suf) rest.length pre.length acc
        = crc16Loop table rest rest.length 0 acc := by
  induction rest with
  | nil => intro pre suf acc; simp [crc16Loop]
  | cons b rest ih =>
    intro pre suf acc
    have hl : (pre ++ b :: rest ++ suf)[pre.length]? = some b := by
      rw [List.append_assoc, List.getElem?_append_right (Nat.le_refl _)]
      simp
    have hr : (b :: rest)[0]? = some b := by simp
    simp only [List.length_cons, crc16Loop, hl, hr]
    cases hstep : crc16Step table acc b with
    | none => rfl
    | some c =>
      have h1 := ih (pre ++ [b]) suf c
      have h2 := ih [b] [] c
      simp only [List.append_assoc, List.singleton_append, List.length_append,
        List.length_singleton, List.append_nil, List.length_nil, Nat.zero_add,
        List.cons_append, List.nil_append] at h1 h2
      simp only [List.append_assoc, List.cons_append, Nat.zero_add]
      rw [h1, ← h2]

theorem crc16Loop_some (table : List Nat) (hlen : table.length = 256) (rest : List Nat) :
    ∀ acc, acc < 65536 → ∃ c, crc16Loop table rest rest.length 0 acc = some c ∧ c < 65536 := by
  induction rest with
  | nil => intro acc h; exact ⟨acc, rfl, h⟩
  | cons b rest ih =>
    intro acc _
    obtain ⟨c, hc, hlt⟩ := crc16Step_some table hlen acc b
    obtain ⟨c2, hc2, hlt2⟩ := ih c hlt
    refine ⟨c2, ?_, hlt2⟩
    have hr : (b :: rest)[0]? = some b := by simp
    simp only [List.length_cons, crc16Loop, hr, hc]
    have h2 := crc16Loop_window table rest [b] [] c
    simp only [List.singleton_append, List.append_nil, List.length_singleton] at h2
    rw [h2, hc2]

/-- With a 256-entry table, `crc16` over a whole byte sequence returns a
16-bit value. -/
theorem crc16_some (table : List Nat) (hlen : table.length = 256) (bytes : List Nat) :
    ∃ c, crc16 table bytes bytes.length = some c ∧ c < 65536 := by
  have h := crc16Loop_some table hlen bytes 0xFFFF (by norm_num)
  simpa [crc16] using h

/-- The value of `crc16` depends on the first `length` bytes only. -/
theorem crc16_prefix (table bytes suf : List Nat) :
    crc16 table (bytes ++ suf) bytes.length = crc16 table bytes bytes.length := by
  have h := crc16Loop_window table bytes [] suf 0xFFFF
  simpa [crc16] using h

end MobiusCRC

namespace MobiusDevice

theorem store_eq (buffer : List Nat) (i v : Nat) (h : i < buffer.length) :
    store buffer i v = some (buffer.set i v) := by
  simp [store, h]

theorem copyData_eq (hdr tail : List Nat) (hh : hdr.length = 9) (rest : List Nat) :
    ∀ (pre junk : List Nat), junk.length = rest.length →
      copyData (pre ++ rest) rest.length pre.length (hdr ++ (pre ++ (junk ++ tail)))
        = some (hdr ++ (pre ++ (rest ++ tail))) := by
  induction rest with
  | nil =>
    intro pre junk hj
    have : junk = [] := List.eq_nil_of_length_eq_zero hj
    simp [copyData, this]
  | cons b rest ih =>
    intro pre junk hj
    cases junk with
    | nil => simp at hj
    | cons j junk =>
      have hget : (pre ++ b :: rest)[pre.length]? = some b := by
        rw [List.getElem?_append_right (Nat.le_refl _)]
        simp
      have hst : store (hdr ++ (pre ++ (j :: junk ++ tail))) (9 + pre.length) b
          = some (hdr ++ (pre ++ (b :: junk ++ tail))) := by
        rw [store_eq _ _ _ (by simp; omega)]
        rw [List.set_append_right _ _ (by omega)]
        rw [List.set_append_right _ _ (by omega)]
        have : 9 + pre.length - hdr.length - pre.length = 0 := by omega
        rw [this]
        simp
      simp only [List.length_cons, copyData, hget, hst]
      have h := ih (pre ++ [b]) junk (by simpa using hj)
      simpa using h

theorem toShort_low (c : Nat) : (toShort c % 256).toNat = c % 256 := by
  unfold toShort
  split <;> omega

theorem toShort_high (c : Nat) (hc : c < 65536) :
    ((toShort c >>> (8 : Nat)) % 256).toNat = c / 256 := by
  rw [Int.shiftRight_eq_div_pow]
  unfold toShort
  split <;> norm_num <;> omega

theorem lowByte_eq (w : Nat) : lowByte w = w % 256 := by
  unfold lowByte
  have h : (0xff : Nat) = 2 ^ 8 - 1 := by norm_num
  rw [h, Nat.and_pow_two_sub_one_eq_mod]
  norm_num

theorem highByte_eq (w : Nat) (hw : w < 65536) : highByte w = w / 256 := by
  unfold highByte
  rw [Nat.shiftRight_eq_div_pow]
  norm_num
  omega

/-- Closed form of the frame `buildRequest` returns for a payload of at most
65524 bytes: marker, eight header bytes, payload, checksum low and high byte. -/
theorem buildRequest_closed (table : List Nat) (hlen : table.length = 256)
    (messageId : Nat) (data : List Nat) (length opCode reserved : Nat)
    (hdata : data.length = length) (hmax : length ≤ 65524) :
    ∃ c, MobiusCRC.crc16 table
            ([Mobius.OP_GROUP_REQUEST, opCode, lowByte messageId, highByte messageId,
              highByte reserved, lowByte reserved, lowByte length, highByte length] ++ data)
            (length + 8) = some c
      ∧ c < 65536
      ∧ (buildRequest table messageId data length opCode reserved).request
        = some ([0x02, Mobius.OP_GROUP_REQUEST, opCode, lowByte messageId, highByte messageId,
              highByte reserved, lowByte reserved, lowByte length, highByte length]
              ++ (data ++ [c % 256, c / 256])) := by
  subst hdata
  obtain ⟨c, hc, hlt⟩ := MobiusCRC.crc16_some table hlen
    ([Mobius.OP_GROUP_REQUEST, opCode, lowByte messageId, highByte messageId,
      highByte reserved, lowByte reserved, lowByte data.length, highByte data.length] ++ data)
  have hl8 : ([Mobius.OP_GROUP_REQUEST, opCode, lowByte messageId, highByte messageId,
      highByte reserved, lowByte reserved, lowByte data.length, highByte data.length]
        ++ data).length = data.length + 8 := by simp
  rw [hl8] at hc
  refine ⟨c, hc, hlt, ?_⟩
  have hsize : (data.length + 11) % 65536 = data.length + 11 := Nat.mod_eq_of_lt (by omega)
  have hrep : List.replicate (data.length + 11) 0
      = [0, 0, 0, 0, 0, 0, 0, 0, 0] ++ ([] ++ (List.replicate data.length 0 ++ [0, 0])) := by
    rw [show data.length + 11 = 9 + (data.length + 2) from by omega, List.replicate_add,
      List.replicate_add]
    rfl
  have hdrop : ∀ (a : Nat) (l : List Nat), List.drop 1 (a :: l) = l := fun _ _ => rfl
  have hcrc : MobiusCRC.crc16 table
      ([Mobius.OP_GROUP_REQUEST, opCode, lowByte messageId, highByte messageId,
        highByte reserved, lowByte reserved, lowByte data.length, highByte data.length]
        ++ data ++ [0, 0]) (((data.length + 11 : Nat) : Int) - 3) = some c := by
    have h := MobiusCRC.crc16_prefix table
      ([Mobius.OP_GROUP_REQUEST, opCode, lowByte messageId, highByte messageId,
        highByte reserved, lowByte reserved, lowByte data.length, highByte data.length] ++ data)
      [0, 0]
    rw [hl8] at h
    have hi : (((data.length + 11 : Nat) : Int) - 3) = ((data.length + 8 : Nat) : Int) := by
      omega
    rw [hi]
    simp only [MobiusCRC.crc16, Int.toNat_ofNat] at h hc ⊢
    rw [h]
    exact hc
  have hcopy := copyData_eq
    [0x02, Mobius.OP_GROUP_REQUEST, opCode, lowByte messageId, highByte messageId,
      highByte reserved, lowByte reserved, lowByte data.length, highByte data.length] [0, 0] rfl
    data [] (List.replicate data.length 0) (by simp)
  simp only [List.nil_append, List.length_nil] at hcopy
  unfold buildRequest
  simp only [hsize, hrep]
  simp only [List.cons_append, List.nil_append] at hcopy hcrc
  simp [store] at hcopy hcrc ⊢
  simp [hcopy, hcrc, toShort_low, toShort_high c hlt]

theorem buildRequest_requestSize (table : List Nat) (messageId : Nat) (data : List Nat)
    (length opCode reserved : Nat) :
    (buildRequest table messageId data length opCode reserved).requestSize
      = (length + 11) % 65536 := rfl

theorem buildRequest_messageId (table : List Nat) (messageId : Nat) (data : List Nat)
    (length opCode reserved : Nat) :
    (buildRequest table messageId data length opCode reserved).messageId
      = (messageId + 1) % 65536 := rfl

theorem store_length (buffer : List Nat) (i v : Nat) (r : List Nat)
    (h : store buffer i v = some r) : r.length = buffer.length := by
  unfold store at h
  split at h
  · simp only [Option.some.injEq] at h
    subst h
    simp
  · simp at h

theorem copyData_length (data : List Nat) :
    ∀ (n i : Nat) (request r : List Nat), copyData data n i request = some r →
      r.length = request.length := by
  intro n
  induction n with
  | zero =>
    intro i request r h
    simp only [copyData, Option.some.injEq] at h
    subst h
    rfl
  | succ n ih =>
    intro i request r h
    simp only [copyData] at h
    cases hd : data[i]? with
    | none => simp [hd] at h
    | some b =>
      cases hs : store request (9 + i) b with
      | none => simp [hd, hs] at h
      | some r1 =>
        simp only [hd, hs] at h
        rw [ih (i + 1) r1 r h, store_length _ _ _ _ hs]

theorem buildRequest_length (table : List Nat) (messageId : Nat) (data : List Nat)
    (length opCode reserved : Nat) (req : List Nat)
    (h : (buildRequest table messageId data length opCode reserved).request = some req) :
    req.length = (buildRequest table messageId data length opCode reserved).requestSize := by
  rw [buildRequest_requestSize]
  simp only [buildRequest, Option.bind_eq_bind, Option.bind_eq_some] at h
  obtain ⟨r0, h0, r1, h1, r2, h2, r3, h3, r4, h4, r5, h5, r6, h6, r7, h7, r8, h8, r9, h9, c, _,
    r10, h10, h11⟩ := h
  rw [store_length _ _ _ _ h11, store_length _ _ _ _ h10, copyData_length _ _ _ _ _ h9,
    store_length _ _ _ _ h8, store_length _ _ _ _ h7, store_length _ _ _ _ h6,
    store_length _ _ _ _ h5, store_length _ _ _ _ h4, store_length _ _ _ _ h3,
    store_length _ _ _ _ h2, store_length _ _ _ _ h1, store_length _ _ _ _ h0,
    List.length_replicate]

/-- C2. For a payload of `n <= 65524` bytes, any opCode, a 16-bit `reserved`
and a 16-bit message-id counter `m`, `buildRequest` returns a frame with
`frame[0] = 0x02`, `frame[1] = 0xDE`, `frame[2] = opCode`, the message id
little-endian in bytes 3-4, `reserved` big-endian in bytes 5-6, the payload
length little-endian in bytes 7-8 and the payload from byte 9 on. -/
theorem buildRequest_layout (table : List Nat) (hlen : table.length = 256)
    (m : Nat) (payload : List Nat) (opCode r : Nat)
    (hn : payload.length ≤ 65524) (hm : m < 65536) (hr : r < 65536) :
    ∃ frame, (buildRequest table m payload payload.length opCode r).request = some frame
      ∧ frame[0]? = some 0x02 ∧ frame[1]? = some 0xDE ∧ frame[2]? = some opCode
      ∧ frame[3]? = some (m % 256) ∧ frame[4]? = some (m / 256)
      ∧ frame[5]? = some (r / 256) ∧ frame[6]? = some (r % 256)
      ∧ frame[7]? = some (payload.length % 256) ∧ frame[8]? = some (payload.length / 256)
      ∧ ∀ i, i < payload.length → frame[9 + i]? = payload[i]? := by
  obtain ⟨c, _, _, hb⟩ := buildRequest_closed table hlen m payload payload.length opCode r rfl hn
  refine ⟨_, hb, ?_⟩
  rw [lowByte_eq, lowByte_eq, lowByte_eq, highByte_eq m hm, highByte_eq r hr,
    highByte_eq payload.length (by omega)]
  refine ⟨by simp, by simp [Mobius.OP_GROUP_REQUEST], by simp, by simp, by simp, by simp,
    by simp, by simp, by simp, ?_⟩
  intro i hi
  rw [List.getElem?_append_right (by simp)]
  simp only [List.length_cons, List.length_nil]
  rw [show 9 + i - (0 + 1 + 1 + 1 + 1 + 1 + 1 + 1 + 1 + 1) = i from by omega]
  exact List.getElem?_append_left hi

/-- C3. For a payload of `n <= 65524` bytes the frame `buildRequest` returns has
size `s = n + 11`, and its last two bytes are the low byte (index `s - 2`) and
the high byte (index `s - 1`) of `crc16` run over exactly the `s - 3` frame
bytes at indices `1 .. s - 3`; the checksum is a 16-bit value and the bytes are
right whether or not it is `>= 0x8000`. -/
theorem buildRequest_checksum (table : List Nat) (hlen : table.length = 256)
    (m : Nat) (payload : List Nat) (opCode r : Nat) (hn : payload.length ≤ 65524) :
    ∃ frame c, (buildRequest table m payload payload.length opCode r).request = some frame
      ∧ frame.length = payload.length + 11
      ∧ MobiusCRC.crc16 table ((frame.drop 1).take (payload.length + 11 - 3))
          ((payload.length + 11 - 3 : Nat) : Int) = some c
      ∧ c < 65536
      ∧ frame[payload.length + 11 - 2]? = some (c % 256)
      ∧ frame[payload.length + 11 - 1]? = some (c / 256) := by
  obtain ⟨c, hc, hlt, hb⟩ :=
    buildRequest_closed table hlen m payload payload.length opCode r rfl hn
  refine ⟨_, c, hb, by simp, ?_, hlt, ?_, ?_⟩
  · have e : payload.length + 11 - 3 = payload.length + 8 := by omega
    rw [e]
    have ht : List.take (payload.length + 8)
        (List.drop 1 ([0x02, Mobius.OP_GROUP_REQUEST, opCode, lowByte m, highByte m, highByte r,
          lowByte r, lowByte payload.length, highByte payload.length]
          ++ (payload ++ [c % 256, c / 256])))
        = [Mobius.OP_GROUP_REQUEST, opCode, lowByte m, highByte m, highByte r,
          lowByte r, lowByte payload.length, highByte payload.length] ++ payload := by
      have : List.drop 1 ([0x02, Mobius.OP_GROUP_REQUEST, opCode, lowByte m, highByte m,
          highByte r, lowByte r, lowByte payload.length, highByte payload.length]
          ++ (payload ++ [c % 256, c / 256]))
          = ([Mobius.OP_GROUP_REQUEST, opCode, lowByte m, highByte m, highByte r,
          lowByte r, lowByte payload.length, highByte payload.length] ++ payload)
            ++ [c % 256, c / 256] := by simp
      rw [this]
      exact List.take_left' (by simp)
    rw [ht]
    exact hc
  · rw [List.getElem?_append_right (by simp)]
    rw [List.getElem?_append_right (by simp)]
    have : payload.length + 11 - 2
        - [0x02, Mobius.OP_GROUP_REQUEST, opCode, lowByte m, highByte m, highByte r,
          lowByte r, lowByte payload.length, highByte payload.length].length
        - payload.length = 0 := by simp
    rw [this]
    rfl
  · rw [List.getElem?_append_right (by simp)]
    rw [List.getElem?_append_right (by simp)]
    have : payload.length + 11 - 1
        - [0x02, Mobius.OP_GROUP_REQUEST, opCode, lowByte m, highByte m, highByte r,
          lowByte r, lowByte payload.length, highByte payload.length].length
        - payload.length = 1 := by simp
    rw [this]
    rfl

end MobiusDevice

namespace MobiusDevice

/-- C5 (counterexample). A payload of 65525 bytes has a length that fits in 16
bits, yet the size `buildRequest` reports for it is 0, not 65525 + 11: the
reported size is a `uint16_t` and the sum wraps. -/
theorem buildRequest_requestSize_wraps :
    (List.replicate 65525 0).length = 65525 ∧ 65525 ≤ 65535
      ∧ (buildRequest (List.replicate 256 0) 2 (List.replicate 65525 0) 65525
          Mobius.OP_CODE_SET 0x0800).requestSize = 0
      ∧ (buildRequest (List.replicate 256 0) 2 (List.replicate 65525 0) 65525
          Mobius.OP_CODE_SET 0x0800).requestSize ≠ 65525 + 11 := by
  refine ⟨List.length_replicate _ _, by decide, ?_, ?_⟩
  · rw [buildRequest_requestSize]
  · rw [buildRequest_requestSize]
    decide

/-- C5 (amended). For a payload of at most 65524 bytes, the size `buildRequest`
reports equals the payload length plus 11, and it is the size of the frame
built; for any length the reported size is `(length + 11) mod 65536`. -/
theorem buildRequest_size (table : List Nat) (hlen : table.length = 256)
    (m : Nat) (payload : List Nat) (opCode r : Nat) (hn : payload.length ≤ 65524) :
    (buildRequest table m payload payload.length opCode r).requestSize = payload.length + 11
      ∧ (∃ frame, (buildRequest table m payload payload.length opCode r).request = some frame
          ∧ frame.length = payload.length + 11)
      ∧ ∀ length, (buildRequest table m payload length opCode r).requestSize
          = (length + 11) % 65536 := by
  obtain ⟨c, _, _, hb⟩ :=
    buildRequest_closed table hlen m payload payload.length opCode r rfl hn
  refine ⟨?_, ⟨_, hb, by simp⟩, fun _ => rfl⟩
  rw [buildRequest_requestSize]
  exact Nat.mod_eq_of_lt (by omega)

theorem connect_val (o : ConnectOutcome) (self : MobiusDevice) :
    ∃ r self1, (connect o self).val = some (r, self1) ∧ self1.messageId = 2 := by
  have h : ∃ c, (connect o self).val = some (c, { messageId := 2, connected := c }) := by
    unfold connect
    cases hs : o.hasService <;> cases hc : connectToCharacteristics o
    · exact ⟨self.connected, by simp⟩
    · exact ⟨self.connected, by simp⟩
    · exact ⟨self.connected, by simp⟩
    · exact ⟨true, by simp⟩
  obtain ⟨c, hc⟩ := h
  exact ⟨c, _, hc, rfl⟩

theorem buildRequests_getElem (table : List Nat) (calls : List BuildArgs) :
    ∀ (m k : Nat) (a : BuildArgs), m < 65536 → calls[k]? = some a →
      (buildRequests table m calls)[k]?
        = some (buildRequest table ((m + k) % 65536) a.data a.length a.opCode a.reserved) := by
  induction calls with
  | nil => intro m k a _ h; simp at h
  | cons x rest ih =>
    intro m k a hm h
    cases k with
    | zero =>
      simp only [List.getElem?_cons_zero, Option.some.injEq] at h
      subst h
      simp [buildRequests, Nat.mod_eq_of_lt hm]
    | succ k =>
      simp only [List.getElem?_cons_succ] at h
      simp only [buildRequests, List.getElem?_cons_succ, buildRequest_messageId]
      rw [ih ((m + 1) % 65536) k a (Nat.mod_lt _ (by norm_num)) h]
      congr 2
      omega

/-- C6. After `connect`, whatever its outcome, the counter is 2, and the
`(k+1)`-th frame built afterwards by consecutive `buildRequest` calls on the
device carries in bytes 3-4 the little-endian message id `(2 + k) mod 65536`;
that call leaves the counter at `((2 + k) mod 65536 + 1) mod 65536`, which is
one more, wrapping from 65535 to 0. -/
theorem messageId_after_connect (table : List Nat) (hlen : table.length = 256)
    (o : ConnectOutcome) (self : MobiusDevice) (calls : List BuildArgs) (k : Nat)
    (a : BuildArgs) (hk : calls[k]? = some a) (ha : a.data.length = a.length)
    (hmax : a.length ≤ 65524) :
    ∃ r self1, (connect o self).val = some (r, self1) ∧ self1.messageId = 2
      ∧ ∃ b frame, (buildRequests table self1.messageId calls)[k]? = some b
        ∧ b.request = some frame
        ∧ frame[3]? = some (((2 + k) % 65536) % 256)
        ∧ frame[4]? = some (((2 + k) % 65536) / 256)
        ∧ b.messageId = ((2 + k) % 65536 + 1) % 65536 := by
  obtain ⟨r, self1, hv, hid⟩ := connect_val o self
  refine ⟨r, self1, hv, hid, ?_⟩
  rw [hid]
  obtain ⟨c, _, _, hb⟩ := buildRequest_closed table hlen ((2 + k) % 65536) a.data a.length
    a.opCode a.reserved ha hmax
  refine ⟨_, _, buildRequests_getElem table calls 2 k a (by norm_num) hk, hb, ?_, ?_, rfl⟩
  · rw [lowByte_eq]
    simp
  · rw [highByte_eq _ (Nat.mod_lt _ (by norm_num))]
    simp

end MobiusDevice

/-! ## Response parser: proofs -/

namespace Ran

@[simp] theorem val_memcpy (buf : Buf) (mem : List Nat) (offset n : Nat) :
    (memcpy buf mem offset n).val
      = if n = 0 ∨ offset + n ≤ mem.length then some ((mem.drop offset).take n) else none := rfl

theorem bind_eq_andThen {α β : Type} (x : Ran α) (f : α → Ran β) : x >>= f = andThen x f := rfl

theorem pure_eq_ret {α : Type} (a : α) : (pure a : Ran α) = ret a := rfl

end Ran

namespace MobiusDevice

theorem parseResponseData_invalid (response : List Nat) (length : Nat)
    (hlen : response.length = length)
    (h : length < 12 ∨ response[0]? ≠ some 0x02 ∨ response[1]? ≠ some 0xDF) :
    (parseResponseData response length).val = some ([], 0) := by
  by_cases hl : length > 11
  swap
  · simp [parseResponseData, hl]
  obtain ⟨r0, h0⟩ : ∃ v, response[0]? = some v := ⟨_, List.getElem?_eq_getElem (by omega)⟩
  obtain ⟨r1, h1⟩ : ∃ v, response[1]? = some v := ⟨_, List.getElem?_eq_getElem (by omega)⟩
  rw [h0, h1] at h
  by_cases e0 : r0 = 2
  · by_cases e1 : r1 = 0xDF
    · exfalso
      subst e0 e1
      rcases h with h | h | h
      · omega
      · exact h rfl
      · exact h rfl
    · have e1' : ¬ (223 = r1) := fun e => e1 e.symm
      simp [parseResponseData, hl, h0, h1, e0, e1', Mobius.OP_GROUP_CONFIRM]
  · have e0' : ¬ (2 = r0) := fun e => e0 e.symm
    simp [parseResponseData, hl, h0, e0']

theorem parseResponseData_short_trace (response : List Nat) (length : Nat) (h : length < 12) :
    (parseResponseData response length).trace = []
      ∧ (parseResponseData response length).val = some ([], 0) := by
  have hl : ¬ length > 11 := by omega
  constructor
  · simp [parseResponseData, hl, Ran.bind_eq_andThen, Ran.andThen, Ran.andAlso, Ran.pure_eq_ret,
      Ran.ret]
  · simp [parseResponseData, hl]

/-- C8. For a response buffer whose size is below 12, or whose byte 0 is not
`0x02`, or whose byte 1 is not `0xDF`, `parseResponseData` returns a zero-length
result with `dataSize = 0`; when the size is below 12 it performs no read of
the buffer (nor any other effect). -/
theorem parseResponseData_rejects (response : List Nat) (length : Nat)
    (hlen : response.length = length)
    (h : length < 12 ∨ response[0]? ≠ some 0x02 ∨ response[1]? ≠ some 0xDF) :
    (parseResponseData response length).val = some ([], 0)
      ∧ (length < 12 → (parseResponseData response length).trace = []
          ∧ (parseResponseData response length).reads Buf.response = []) := by
  refine ⟨parseResponseData_invalid response length hlen h, fun hs => ?_⟩
  have ht := (parseResponseData_short_trace response length hs).1
  exact ⟨ht, by simp [Ran.reads, ht]⟩

theorem parseResponseData_valid (response : List Nat) (len r7 r8 : Nat)
    (hl : len > 11)
    (h0 : response[0]? = some 0x02) (h1 : response[1]? = some 0xDF)
    (h7 : response[7]? = some r7) (h8 : response[8]? = some r8)
    (hfit : 9 + (r7 + 256 * r8) ≤ response.length) (h16 : r7 + 256 * r8 < 65536) :
    (parseResponseData response len).val
      = some ((response.drop 9).take (r7 + 256 * r8), r7 + 256 * r8) := by
  have hsz : (r8 <<< 8 + r7) % 65536 = r7 + 256 * r8 := by
    rw [Nat.shiftLeft_eq]
    omega
  simp [parseResponseData, hl, h0, h1, h7, h8, hsz, Mobius.OP_GROUP_CONFIRM, hfit]

/-- C7. For a response of size `len > 11` (a 16-bit size) with
`response[0] = 0x02`, `response[1] = 0xDF` and a declared payload length
`n = response[7] + 256 * response[8]` with `9 + n <= len`, `parseResponseData`
sets `dataSize` to `n` and returns exactly the `n` bytes
`response[9], ..., response[9 + n - 1]` in order. -/
theorem parseResponseData_payload (response : List Nat) (len r7 r8 : Nat)
    (hlen : response.length = len) (hl : len > 11) (h16 : len < 65536)
    (h0 : response[0]? = some 0x02) (h1 : response[1]? = some 0xDF)
    (h7 : response[7]? = some r7) (h8 : response[8]? = some r8)
    (hfit : 9 + (r7 + 256 * r8) ≤ len) :
    ∃ data, (parseResponseData response len).val = some (data, r7 + 256 * r8)
      ∧ data.length = r7 + 256 * r8
      ∧ ∀ i, i < r7 + 256 * r8 → data[i]? = response[9 + i]? := by
  refine ⟨_, parseResponseData_valid response len r7 r8 hl h0 h1 h7 h8 (by omega) (by omega),
    ?_, ?_⟩
  · simp
    omega
  · intro i hi
    rw [List.getElem?_take_of_lt hi, List.getElem?_drop]

end MobiusDevice

/-! ## The exchange: proofs -/

namespace MobiusDevice

theorem notifyCallback_val (uuid : BLEUUID) (pData : List Nat) (slot : Slot) :
    (notifyCallback uuid pData pData.length slot).val
      = some (if uuid = BLEUUID.RESPONSE_CHARACTERISTIC_2
          then { responseData := pData, responseDataSize := pData.length, responseUnread := true }
          else slot) := by
  by_cases h : uuid = BLEUUID.RESPONSE_CHARACTERISTIC_2 <;> simp [notifyCallback, h]

theorem deliver_val (ns : List Notification) :
    ∀ slot : Slot, (slot.responseUnread = true → slot.responseData.length = slot.responseDataSize) →
      ∃ slot1, (deliver ns slot).val = some slot1
        ∧ (slot1.responseUnread = true → slot1.responseData.length = slot1.responseDataSize) := by
  induction ns with
  | nil => intro slot h; exact ⟨slot, rfl, h⟩
  | cons n rest ih =>
    intro slot h
    simp only [deliver, Ran.val_bind, notifyCallback_val, Option.some_bind]
    apply ih
    split
    · intro _; rfl
    · exact h

theorem deliver_silent (ns : List Notification)
    (hs : ns.all (fun n => decide (n.uuid ≠ BLEUUID.RESPONSE_CHARACTERISTIC_2)) = true) :
    ∀ slot : Slot, (deliver ns slot).val = some slot := by
  induction ns with
  | nil => intro slot; rfl
  | cons n rest ih =>
    intro slot
    simp only [List.all_cons, Bool.and_eq_true, decide_eq_true_eq] at hs
    simp only [deliver, Ran.val_bind, notifyCallback_val, Option.some_bind, if_neg hs.1]
    exact ih hs.2 slot

theorem waitLoop_val (polls : List (List Notification)) :
    ∀ slot : Slot, (slot.responseUnread = true → slot.responseData.length = slot.responseDataSize) →
      ∃ sent, (waitLoop polls slot).val = some sent
        ∧ sent.response.length = sent.responseSize := by
  induction polls with
  | nil => intro slot _; exact ⟨_, rfl, rfl⟩
  | cons arrivals rest ih =>
    intro slot h
    obtain ⟨slot1, hd, h1⟩ := deliver_val arrivals slot h
    simp only [waitLoop, Ran.val_bind, hd, Option.some_bind, Ran.val_act, Ran.val_ite]
    by_cases hu : slot1.responseUnread = true
    · have hle : slot1.responseDataSize % 65536 ≤ slot1.responseData.length := by
        rw [h1 hu]
        exact Nat.mod_le _ _
      have hm : (Ran.memcpy Buf.responseData slot1.responseData 0
          (slot1.responseDataSize % 65536)).val
            = some (slot1.responseData.take (slot1.responseDataSize % 65536)) := by
        simp [hle]
      simp only [hu, if_true, Ran.val_bind, hm, Option.some_bind, Ran.val_pure]
      exact ⟨_, rfl, by simp; omega⟩
    · simp only [hu, if_false]
      exact ih slot1 (fun h => absurd h hu)

theorem waitLoop_silent (polls : List (List Notification))
    (hs : polls.all (fun arrivals =>
        arrivals.all (fun n => decide (n.uuid ≠ BLEUUID.RESPONSE_CHARACTERISTIC_2))) = true) :
    ∀ slot : Slot, slot.responseUnread = false →
      (waitLoop polls slot).val = some { response := [], responseSize := 0, slot := slot } := by
  induction polls with
  | nil => intro slot _; rfl
  | cons arrivals rest ih =>
    intro slot hu
    simp only [List.all_cons, Bool.and_eq_true] at hs
    simp only [waitLoop, Ran.val_bind, deliver_silent arrivals hs.1 slot, Option.some_bind,
      Ran.val_act, Ran.val_ite, hu]
    exact ih hs.2 slot hu

theorem sendRequest_val (env : Transport) (slot : Slot) (request : List Nat) (length : Nat)
    (hlen : request.length = length) :
    ∃ sent, (sendRequest env slot request length).val = some sent
      ∧ sent.response.length = sent.responseSize
      ∧ (env.writeOk = false → sent.responseSize = 0)
      ∧ (silent env = true → sent.responseSize = 0) := by
  subst hlen
  obtain ⟨slot1, hd, h1⟩ := deliver_val env.duringWrite { slot with responseUnread := false }
    (by intro h; simp at h)
  cases hw : env.writeOk
  · refine ⟨{ response := [], responseSize := 0, slot := slot1 }, ?_, rfl, fun _ => rfl,
      fun _ => rfl⟩
    simp [sendRequest, hd, hw]
  · obtain ⟨sent, hs, hl⟩ := waitLoop_val env.polls slot1 h1
    refine ⟨sent, ?_, hl, fun h => by simp at h, fun hq => ?_⟩
    · simp [sendRequest, hd, hw, hs]
    · simp only [silent, Bool.and_eq_true] at hq
      rw [deliver_silent env.duringWrite hq.1] at hd
      simp only [Option.some.injEq] at hd
      subst hd
      rw [waitLoop_silent env.polls hq.2 _ rfl] at hs
      simp only [Option.some.injEq] at hs
      subst hs
      rfl

end MobiusDevice

namespace MobiusDevice

/-- C10 (counterexample). A "get" for payload `91 01 00 01` with message id 2
sends a frame starting `02 DE 17 02 00`; the 14-byte response
`02 DF 18 09 00 00 00 01 00 AA BB CC DD EE` has a different opcode and message
id, and declares a payload of 1 byte where its size leaves room for 3; `getData`
nevertheless returns the 1-byte payload `AA`, not a zero-length one. -/
theorem getData_accepts_mismatch :
    ((buildRequest (List.replicate 256 0) 2 [0x91, 0x01, 0x00, 0x01] 4
          Mobius.OP_CODE_GET 0x0000).request.map (fun req => req.take 5))
        = some [0x02, 0xDE, 0x17, 0x02, 0x00]
      ∧ ((getData (List.replicate 256 0)
            { writeOk := true, duringWrite := [],
              polls := [[{ uuid := BLEUUID.RESPONSE_CHARACTERISTIC_2,
                           pData := [0x02, 0xDF, 0x18, 0x09, 0x00, 0x00, 0x00, 0x01, 0x00,
                                     0xAA, 0xBB, 0xCC, 0xDD, 0xEE] }]] }
            { messageId := 2, connected := true }
            { responseData := [], responseDataSize := 0, responseUnread := false }
            [0x91, 0x01, 0x00, 0x01] 4).val.map (fun r => (r.data, r.dataSize)))
          = some ([0xAA], 1) := by
  constructor
  · set_option maxRecDepth 100000 in decide
  · set_option maxRecDepth 100000 in decide

/-- C10 (amended). For every "get" exchange: once the request frame is built,
`getData` returns a value, and it is a zero-length payload (`dataSize = 0`)
when the write fails, when nothing is deposited in the slot before the wait
ends, and when the response received has fewer than 12 bytes, a wrong marker
byte or a wrong group byte. The frame is built for every payload of at most
65524 bytes (with a 256-entry checksum table). -/
theorem getData_empty_on_failure (table : List Nat) (env : Transport) (self : MobiusDevice)
    (slot : Slot) (data : List Nat) (length : Nat) :
    (∀ req,
      (buildRequest table self.messageId data length Mobius.OP_CODE_GET 0x0000).request
          = some req →
      ∃ sent,
        (sendRequest env slot req
          (buildRequest table self.messageId data length Mobius.OP_CODE_GET
            0x0000).requestSize).val = some sent
        ∧ ((env.writeOk = false ∨ silent env = true ∨ sent.responseSize < 12
              ∨ sent.response[0]? ≠ some 0x02 ∨ sent.response[1]? ≠ some 0xDF) →
            ∃ res, (getData table env self slot data length).val = some res
              ∧ res.data = [] ∧ res.dataSize = 0))
      ∧ (table.length = 256 → data.length = length → length ≤ 65524 →
          ∃ req,
            (buildRequest table self.messageId data length Mobius.OP_CODE_GET 0x0000).request
              = some req) := by
  constructor
  swap
  · intro hlen hdata hmax
    obtain ⟨c, _, _, hb⟩ := buildRequest_closed table hlen self.messageId data length
      Mobius.OP_CODE_GET 0x0000 hdata hmax
    exact ⟨_, hb⟩
  intro req hb
  have hrl := buildRequest_length table self.messageId data length Mobius.OP_CODE_GET 0x0000
    req hb
  obtain ⟨sent, hs, hl, hw, hq⟩ := sendRequest_val env slot req _ hrl
  refine ⟨sent, hs, fun h => ?_⟩
  have hbad : sent.responseSize < 12 ∨ sent.response[0]? ≠ some 0x02
      ∨ sent.response[1]? ≠ some 0xDF := by
    rcases h with h | h | h | h | h
    · left; rw [hw h]; norm_num
    · left; rw [hq h]; norm_num
    · exact Or.inl h
    · exact Or.inr (Or.inl h)
    · exact Or.inr (Or.inr h)
  have hp := parseResponseData_invalid sent.response sent.responseSize hl hbad
  refine ⟨⟨[], 0, { self with messageId := (self.messageId + 1) % 65536 }, sent.slot⟩, ?_,
    rfl, rfl⟩
  simp only [getData, hb, Ran.val_bind, Ran.val_act, Ran.val_ofOption,
    Option.some_bind, hs, hp, Ran.val_pure, buildRequest_messageId]

end MobiusDevice

/-! ## The theorems at concrete inputs -/

namespace MobiusCRC

theorem sampleTable_length : sampleTable.length = 256 := by
  simp [sampleTable]

theorem sampleTable_lt : ∀ t ∈ sampleTable, t < 65536 := by
  intro t ht
  simp only [sampleTable, List.mem_map, List.mem_range] at ht
  obtain ⟨i, hi, rfl⟩ := ht
  omega

/-- C4 at the table `sampleTable` and the bytes `01 02 03`. -/
theorem crc16_eq_fold_witness :
    sampleTable.length = 256 ∧ (∀ t ∈ sampleTable, t < 65536)
      ∧ (crc16 sampleTable [1, 2, 3] ([1, 2, 3] : List Nat).length
          = some (([1, 2, 3] : List Nat).foldl
              (fun acc b =>
                ((acc * 256) % 65536) ^^^ sampleTable.getD ((b ^^^ (acc / 256)) &&& 0xFF) 0)
              0xFFFF)
        ∧ crc16 sampleTable [] 0 = some 0xFFFF
        ∧ ∀ acc b, dex acc b < 256) :=
  ⟨sampleTable_length, sampleTable_lt,
    crc16_eq_fold sampleTable [1, 2, 3] sampleTable_length sampleTable_lt⟩

end MobiusCRC

namespace MobiusDevice

/-- C1 at a "set" request with message id 2 and the matching success response. -/
theorem responseSuccessful_iff_witness :
    ([0x02, 0xDE, 0x18, 0x02, 0x00, 0x08, 0x00, 0x01, 0x00, 0xAA, 0x12, 0x34] : List Nat).length
        = 12
      ∧ ([0x02, 0xDF, 0x18, 0x02, 0x00, 0x00, 0x00, 0x03, 0x00, 0x00, 0xFF, 0xFF]
          : List Nat).length = 12
      ∧ (responseSuccessful
          [0x02, 0xDE, 0x18, 0x02, 0x00, 0x08, 0x00, 0x01, 0x00, 0xAA, 0x12, 0x34] 12
          [0x02, 0xDF, 0x18, 0x02, 0x00, 0x00, 0x00, 0x03, 0x00, 0x00, 0xFF, 0xFF] 12).val
        = some true := by
  obtain ⟨b, hb, hiff⟩ := responseSuccessful_iff
    [0x02, 0xDE, 0x18, 0x02, 0x00, 0x08, 0x00, 0x01, 0x00, 0xAA, 0x12, 0x34]
    [0x02, 0xDF, 0x18, 0x02, 0x00, 0x00, 0x00, 0x03, 0x00, 0x00, 0xFF, 0xFF] 12 12 rfl rfl
  have hb1 : b = true :=
    hiff.mpr ⟨by decide, by decide, by decide, by decide, by decide, by decide, by decide,
      ⟨3, 0, by decide, by decide, by decide⟩, by decide, by decide, by decide⟩
  rw [hb1] at hb
  exact ⟨rfl, rfl, hb⟩

/-- C2 at the payload `91 01 00 01`, opCode `0x17`, reserved `0x0800` and
message id `0x1234`. -/
theorem buildRequest_layout_witness :
    MobiusCRC.sampleTable.length = 256
      ∧ ([0x91, 0x01, 0x00, 0x01] : List Nat).length ≤ 65524
      ∧ 0x1234 < 65536 ∧ 0x0800 < 65536
      ∧ ∃ frame, (buildRequest MobiusCRC.sampleTable 0x1234 [0x91, 0x01, 0x00, 0x01]
            ([0x91, 0x01, 0x00, 0x01] : List Nat).length 0x17 0x0800).request = some frame
          ∧ frame[0]? = some 0x02 ∧ frame[1]? = some 0xDE ∧ frame[2]? = some 0x17
          ∧ frame[3]? = some (0x1234 % 256) ∧ frame[4]? = some (0x1234 / 256)
          ∧ frame[5]? = some (0x0800 / 256) ∧ frame[6]? = some (0x0800 % 256)
          ∧ frame[7]? = some (([0x91, 0x01, 0x00, 0x01] : List Nat).length % 256)
          ∧ frame[8]? = some (([0x91, 0x01, 0x00, 0x01] : List Nat).length / 256)
          ∧ ∀ i, i < ([0x91, 0x01, 0x00, 0x01] : List Nat).length →
              frame[9 + i]? = ([0x91, 0x01, 0x00, 0x01] : List Nat)[i]? :=
  ⟨MobiusCRC.sampleTable_length, by decide, by decide, by decide,
    buildRequest_layout MobiusCRC.sampleTable MobiusCRC.sampleTable_length 0x1234
      [0x91, 0x01, 0x00, 0x01] 0x17 0x0800 (by decide) (by decide) (by decide)⟩

/-- C3 at the payload `91 01 00 01`, opCode `0x17`, reserved `0` and message id
2; with `sampleTable` the checksum of this frame is `0xB67A`, which is
`>= 0x8000`, and the frame ends `7A B6`. -/
theorem buildRequest_checksum_witness :
    MobiusCRC.sampleTable.length = 256
      ∧ ([0x91, 0x01, 0x00, 0x01] : List Nat).length ≤ 65524
      ∧ (∃ frame c, (buildRequest MobiusCRC.sampleTable 2 [0x91, 0x01, 0x00, 0x01]
            ([0x91, 0x01, 0x00, 0x01] : List Nat).length 0x17 0).request = some frame
          ∧ frame.length = ([0x91, 0x01, 0x00, 0x01] : List Nat).length + 11
          ∧ MobiusCRC.crc16 MobiusCRC.sampleTable
              ((frame.drop 1).take (([0x91, 0x01, 0x00, 0x01] : List Nat).length + 11 - 3))
              ((([0x91, 0x01, 0x00, 0x01] : List Nat).length + 11 - 3 : Nat) : Int) = some c
          ∧ c < 65536
          ∧ frame[([0x91, 0x01, 0x00, 0x01] : List Nat).length + 11 - 2]? = some (c % 256)
          ∧ frame[([0x91, 0x01, 0x00, 0x01] : List Nat).length + 11 - 1]? = some (c / 256))
      ∧ (buildRequest MobiusCRC.sampleTable 2 [0x91, 0x01, 0x00, 0x01] 4 0x17 0).request
          = some [0x02, 0xDE, 0x17, 0x02, 0x00, 0x00, 0x00, 0x04, 0x00, 0x91, 0x01, 0x00, 0x01,
              0x7A, 0xB6]
      ∧ MobiusCRC.crc16 MobiusCRC.sampleTable
          [0xDE, 0x17, 0x02, 0x00, 0x00, 0x00, 0x04, 0x00, 0x91, 0x01, 0x00, 0x01] 12
          = some 0xB67A
      ∧ 0x8000 ≤ 0xB67A :=
  ⟨MobiusCRC.sampleTable_length, by decide,
    buildRequest_checksum MobiusCRC.sampleTable MobiusCRC.sampleTable_length 2
      [0x91, 0x01, 0x00, 0x01] 0x17 0 (by decide),
    by set_option maxRecDepth 100000 in decide,
    by set_option maxRecDepth 100000 in decide,
    by decide⟩

/-- C5 (amended) at the payload `91 01 00 01`. -/
theorem buildRequest_size_witness :
    MobiusCRC.sampleTable.length = 256
      ∧ ([0x91, 0x01, 0x00, 0x01] : List Nat).length ≤ 65524
      ∧ (buildRequest MobiusCRC.sampleTable 2 [0x91, 0x01, 0x00, 0x01] 4 0x17 0).requestSize
          = 15 :=
  ⟨MobiusCRC.sampleTable_length, by decide,
    (buildRequest_size MobiusCRC.sampleTable MobiusCRC.sampleTable_length 2
      [0x91, 0x01, 0x00, 0x01] 0x17 0 (by decide)).1⟩

end MobiusDevice
namespace MobiusDevice

/-- C6 at a device whose connection attempt finds no service, for the third
frame built afterwards. -/
theorem messageId_after_connect_witness :
    MobiusCRC.sampleTable.length = 256
      ∧ ∃ r self1,
        (connect { hasService := false, hasRequestChar := false, hasResponseChar1 := false,
                   hasResponseChar2 := false }
            { messageId := 0, connected := false }).val = some (r, self1)
        ∧ self1.messageId = 2
        ∧ ∃ b frame,
          (buildRequests MobiusCRC.sampleTable self1.messageId
            [{ data := [0x91, 0x01, 0x00, 0x01], length := 4, opCode := 0x17, reserved := 0 },
             { data := [0x91, 0x01, 0x00, 0x01], length := 4, opCode := 0x17, reserved := 0 },
             { data := [0x68, 0x00, 0x00, 0x01, 0x01, 0x03], length := 6, opCode := 0x18,
               reserved := 0x0800 }])[2]? = some b
          ∧ b.request = some frame
          ∧ frame[3]? = some (((2 + 2) % 65536) % 256)
          ∧ frame[4]? = some (((2 + 2) % 65536) / 256)
          ∧ b.messageId = ((2 + 2) % 65536 + 1) % 65536 :=
  ⟨MobiusCRC.sampleTable_length,
    messageId_after_connect MobiusCRC.sampleTable MobiusCRC.sampleTable_length
      { hasService := false, hasRequestChar := false, hasResponseChar1 := false,
        hasResponseChar2 := false }
      { messageId := 0, connected := false }
      [{ data := [0x91, 0x01, 0x00, 0x01], length := 4, opCode := 0x17, reserved := 0 },
       { data := [0x91, 0x01, 0x00, 0x01], length := 4, opCode := 0x17, reserved := 0 },
       { data := [0x68, 0x00, 0x00, 0x01, 0x01, 0x03], length := 6, opCode := 0x18,
         reserved := 0x0800 }]
      2
      { data := [0x68, 0x00, 0x00, 0x01, 0x01, 0x03], length := 6, opCode := 0x18,
        reserved := 0x0800 }
      rfl rfl (by decide)⟩

/-- C7 at a 13-byte response declaring a 2-byte payload. -/
theorem parseResponseData_payload_witness :
    ([0x02, 0xDF, 0x17, 0x02, 0x00, 0x00, 0x00, 0x02, 0x00, 0xAA, 0xBB, 0x12, 0x34]
        : List Nat).length = 13
      ∧ 13 > 11 ∧ 13 < 65536 ∧ 9 + (2 + 256 * 0) ≤ 13
      ∧ ∃ data,
        (parseResponseData
          [0x02, 0xDF, 0x17, 0x02, 0x00, 0x00, 0x00, 0x02, 0x00, 0xAA, 0xBB, 0x12, 0x34]
          13).val = some (data, 2 + 256 * 0)
        ∧ data.length = 2 + 256 * 0
        ∧ ∀ i, i < 2 + 256 * 0 → data[i]?
            = ([0x02, 0xDF, 0x17, 0x02, 0x00, 0x00, 0x00, 0x02, 0x00, 0xAA, 0xBB, 0x12, 0x34]
                : List Nat)[9 + i]? :=
  ⟨rfl, by decide, by decide, by decide,
    parseResponseData_payload
      [0x02, 0xDF, 0x17, 0x02, 0x00, 0x00, 0x00, 0x02, 0x00, 0xAA, 0xBB, 0x12, 0x34]
      13 2 0 rfl (by decide) (by decide) (by decide) (by decide) (by decide) (by decide)
      (by decide)⟩

/-- C8 at a 12-byte buffer whose group byte is the request group `0xDE`. -/
theorem parseResponseData_rejects_witness :
    ([0x02, 0xDE, 0x17, 0x02, 0x00, 0x00, 0x00, 0x01, 0x00, 0xAA, 0x12, 0x34]
        : List Nat).length = 12
      ∧ ([0x02, 0xDE, 0x17, 0x02, 0x00, 0x00, 0x00, 0x01, 0x00, 0xAA, 0x12, 0x34]
        : List Nat)[1]? ≠ some 0xDF
      ∧ (parseResponseData
          [0x02, 0xDE, 0x17, 0x02, 0x00, 0x00, 0x00, 0x01, 0x00, 0xAA, 0x12, 0x34] 12).val
        = some ([], 0) :=
  ⟨rfl, by decide,
    (parseResponseData_rejects
      [0x02, 0xDE, 0x17, 0x02, 0x00, 0x00, 0x00, 0x01, 0x00, 0xAA, 0x12, 0x34] 12 rfl
      (Or.inr (Or.inr (by decide)))).1⟩

end MobiusDevice

namespace MobiusDevice

/-- C10 (amended) at a "get" during which nothing is deposited in the slot:
`getData` returns a zero-length payload. -/
theorem getData_empty_on_failure_witness :
    MobiusCRC.sampleTable.length = 256
      ∧ ([0x91, 0x01, 0x00, 0x01] : List Nat).length ≤ 65524
      ∧ silent { writeOk := true,
                 duringWrite := [],
                 polls := [[], [{ uuid := BLEUUID.RESPONSE_CHARACTERISTIC_1,
                                  pData := [0x01, 0x02] }], []] } = true
      ∧ ((getData MobiusCRC.sampleTable
            { writeOk := true,
              duringWrite := [],
              polls := [[], [{ uuid := BLEUUID.RESPONSE_CHARACTERISTIC_1,
                               pData := [0x01, 0x02] }], []] }
            { messageId := 2, connected := true }
            { responseData := [0x02, 0xDF, 0x17, 0x01, 0x00, 0x00, 0x00, 0x01, 0x00, 0xAA,
                0x12, 0x34],
              responseDataSize := 12, responseUnread := true }
            [0x91, 0x01, 0x00, 0x01] 4).val.map (fun res => (res.data, res.dataSize)))
          = some ([], 0) := by
  have h := getData_empty_on_failure MobiusCRC.sampleTable
      { writeOk := true,
        duringWrite := [],
        polls := [[], [{ uuid := BLEUUID.RESPONSE_CHARACTERISTIC_1,
                         pData := [0x01, 0x02] }], []] }
      { messageId := 2, connected := true }
      { responseData := [0x02, 0xDF, 0x17, 0x01, 0x00, 0x00, 0x00, 0x01, 0x00, 0xAA,
          0x12, 0x34],
        responseDataSize := 12, responseUnread := true }
      [0x91, 0x01, 0x00, 0x01] 4
  obtain ⟨req, hreq⟩ := h.2 MobiusCRC.sampleTable_length rfl (by decide)
  obtain ⟨sent, _, himp⟩ := h.1 req hreq
  obtain ⟨res, hres, hd, hs⟩ := himp (Or.inr (Or.inl (by decide)))
  refine ⟨MobiusCRC.sampleTable_length, by decide, by decide, ?_⟩
  rw [hres, Option.map_some', hd, hs]

end MobiusDevice

/-! ## The run monad: traces -/

namespace Ran

theorem trace_bind {α β : Type} (x : Ran α) (f : α → Ran β) :
    (x >>= f).trace = x.trace ++ (match x.val with
      | none => []
      | some a => (f a).trace) := by
  show (andThen x f).trace = _
  unfold andThen
  cases h : x.val <;> simp

@[simp] theorem steps_bind {α β : Type} (x : Ran α) (f : α → Ran β) :
    (x >>= f).steps = x.steps ++ (match x.val with
      | none => []
      | some a => (f a).steps) := by
  unfold steps
  rw [trace_bind]
  cases h : x.val <;> simp

@[simp] theorem events_bind {α β : Type} (x : Ran α) (f : α → Ran β) :
    (x >>= f).events = x.events ++ (match x.val with
      | none => []
      | some a => (f a).events) := by
  unfold events
  rw [trace_bind]
  cases h : x.val <;> simp

@[simp] theorem steps_pure {α : Type} (a : α) : (pure a : Ran α).steps = [] := rfl
@[simp] theorem events_pure {α : Type} (a : α) : (pure a : Ran α).events = [] := rfl
@[simp] theorem steps_ret {α : Type} (a : α) : (ret a).steps = [] := rfl
@[simp] theorem events_ret {α : Type} (a : α) : (ret a).events = [] := rfl
@[simp] theorem steps_emit (e : MobiusDeviceEvent) : (emit e).steps = [] := rfl
@[simp] theorem events_emit (e : MobiusDeviceEvent) : (emit e).events = [e] := rfl
@[simp] theorem steps_ofOption {α : Type} (o : Option α) : (ofOption o).steps = [] := rfl
@[simp] theorem events_ofOption {α : Type} (o : Option α) : (ofOption o).events = [] := rfl
@[simp] theorem steps_readAt (buf : Buf) (mem : List Nat) (i : Nat) :
    (readAt buf mem i).steps = [] := rfl
@[simp] theorem events_readAt (buf : Buf) (mem : List Nat) (i : Nat) :
    (readAt buf mem i).events = [] := rfl

@[simp] theorem steps_memcpy (buf : Buf) (mem : List Nat) (offset n : Nat) :
    (memcpy buf mem offset n).steps = [] := by
  simp [steps, memcpy, List.filter_eq_nil_iff, isStep]

@[simp] theorem events_memcpy (buf : Buf) (mem : List Nat) (offset n : Nat) :
    (memcpy buf mem offset n).events = [] := by
  simp [events, memcpy, List.filterMap_eq_nil_iff]

theorem steps_act (a : Effect) : (act a).steps = if isStep a then [a] else [] := by
  simp [steps, act, List.filter_cons]

@[simp] theorem steps_ite {α : Type} (c : Prop) [Decidable c] (x y : Ran α) :
    (if c then x else y).steps = if c then x.steps else y.steps := by
  split <;> rfl

@[simp] theorem events_ite {α : Type} (c : Prop) [Decidable c] (x y : Ran α) :
    (if c then x else y).events = if c then x.events else y.events := by
  split <;> rfl

@[simp] theorem steps_andAlso (b : Bool) (rhs : Ran Bool) :
    (andAlso b rhs).steps = if b then rhs.steps else [] := by
  cases b <;> rfl

@[simp] theorem events_andAlso (b : Bool) (rhs : Ran Bool) :
    (andAlso b rhs).events = if b then rhs.events else [] := by
  cases b <;> rfl

end Ran

namespace Ran

theorem steps_bind_nil {α β : Type} (x : Ran α) (f : α → Ran β) (hx : x.steps = [])
    (hf : ∀ a, (f a).steps = []) : (x >>= f).steps = [] := by
  rw [steps_bind, hx]
  cases x.val <;> simp [hf]

theorem events_bind_nil {α β : Type} (x : Ran α) (f : α → Ran β) (hx : x.events = [])
    (hf : ∀ a, (f a).events = []) : (x >>= f).events = [] := by
  rw [events_bind, hx]
  cases x.val <;> simp [hf]

end Ran

namespace MobiusDevice

theorem parseResponseData_steps (response : List Nat) (length : Nat) :
    (parseResponseData response length).steps = [] := by
  unfold parseResponseData
  repeat (first
    | rfl
    | apply Ran.steps_bind_nil
    | intro _
    | simp only [Ran.steps_andAlso, Ran.steps_ite, Ran.steps_pure, Ran.steps_readAt,
        Ran.steps_memcpy, ite_self]
    | split)

end MobiusDevice

namespace MobiusDevice

theorem parseResponseData_events (response : List Nat) (length : Nat) :
    (parseResponseData response length).events = [] := by
  unfold parseResponseData
  repeat (first
    | rfl
    | apply Ran.events_bind_nil
    | intro _
    | simp only [Ran.events_andAlso, Ran.events_ite, Ran.events_pure, Ran.events_readAt,
        Ran.events_memcpy, ite_self]
    | split)

theorem successLoop_steps (response : List Nat) :
    ∀ (n i : Nat) (b : Bool), (successLoop response n i b).steps = [] := by
  intro n
  induction n with
  | zero => intro i b; rfl
  | succ n ih =>
    intro i b
    unfold successLoop
    repeat (first
      | rfl
      | exact ih _ _
      | apply Ran.steps_bind_nil
      | intro _
      | simp only [Ran.steps_andAlso, Ran.steps_ite, Ran.steps_pure, Ran.steps_readAt,
          Ran.steps_ofOption, ite_self]
      | split)

theorem responseSuccessful_steps (request : List Nat) (reqSize : Nat) (response : List Nat)
    (resSize : Nat) : (responseSuccessful request reqSize response resSize).steps = [] := by
  unfold responseSuccessful
  repeat (first
    | rfl
    | exact successLoop_steps _ _ _ _
    | apply Ran.steps_bind_nil
    | intro _
    | simp only [Ran.steps_andAlso, Ran.steps_ite, Ran.steps_pure, Ran.steps_readAt,
        Ran.steps_emit, ite_self]
    | split)

end MobiusDevice

/-! ## Notification intake and the wait loop: traces -/

namespace MobiusDevice

theorem deposit_append (a b : List Notification) :
    ∀ slot : Slot, deposit (a ++ b) slot = deposit b (deposit a slot) := by
  induction a with
  | nil => intro slot; rfl
  | cons n rest ih =>
    intro slot
    rw [List.cons_append]
    simp only [deposit]
    exact ih _

theorem deliver_deposit (ns : List Notification) :
    ∀ slot : Slot, (deliver ns slot).val = some (deposit ns slot) := by
  induction ns with
  | nil => intro slot; rfl
  | cons n rest ih =>
    intro slot
    simp only [deliver, Ran.val_bind, notifyCallback_val, Option.some_bind, deposit]
    exact ih _

theorem notifyCallback_steps (uuid : BLEUUID) (pData : List Nat) (length : Nat) (slot : Slot) :
    (notifyCallback uuid pData length slot).steps = [] := by
  unfold notifyCallback
  repeat (first
    | rfl
    | apply Ran.steps_bind_nil
    | intro _
    | simp only [Ran.steps_ite, Ran.steps_pure, Ran.steps_memcpy, Ran.steps_emit, ite_self]
    | split)

theorem notifyCallback_events (uuid : BLEUUID) (pData : List Nat) (length : Nat)
    (slot : Slot) :
    (notifyCallback uuid pData length slot).events
      = [MobiusDeviceEvent.notification_received] := by
  unfold notifyCallback
  rw [Ran.events_bind]
  simp only [Ran.events_emit, Ran.val_emit]
  have h : (if uuid = BLEUUID.RESPONSE_CHARACTERISTIC_2 then
        (Ran.memcpy Buf.pData pData 0 length >>= fun copied =>
          (pure { responseData := copied, responseDataSize := length, responseUnread := true }
            : Ran Slot))
      else pure slot).events = [] := by
    repeat (first
      | rfl
      | apply Ran.events_bind_nil
      | intro _
      | simp only [Ran.events_ite, Ran.events_pure, Ran.events_memcpy, ite_self]
      | split)
  simpa using h

theorem deliver_steps (ns : List Notification) :
    ∀ slot : Slot, (deliver ns slot).steps = [] := by
  induction ns with
  | nil => intro slot; rfl
  | cons n rest ih =>
    intro slot
    unfold deliver
    exact Ran.steps_bind_nil _ _ (notifyCallback_steps _ _ _ _) (fun _ => ih _)

theorem deliver_events (ns : List Notification) :
    ∀ slot : Slot, (deliver ns slot).events
      = List.replicate ns.length MobiusDeviceEvent.notification_received := by
  induction ns with
  | nil => intro slot; rfl
  | cons n rest ih =>
    intro slot
    unfold deliver
    rw [Ran.events_bind, notifyCallback_events, notifyCallback_val]
    simp only [ih, List.length_cons, List.replicate_succ, List.singleton_append]

theorem deposit_consistent (ns : List Notification) :
    ∀ slot : Slot, (slot.responseUnread = true → slot.responseData.length = slot.responseDataSize) →
      (deposit ns slot).responseUnread = true →
      (deposit ns slot).responseData.length = (deposit ns slot).responseDataSize := by
  induction ns with
  | nil => intro slot h; exact h
  | cons n rest ih =>
    intro slot h
    simp only [deposit]
    apply ih
    split
    · intro _; rfl
    · exact h

end MobiusDevice

namespace MobiusDevice

theorem waitLoop_steps (polls : List (List Notification)) :
    ∀ slot : Slot, ∃ j, j ≤ polls.length
      ∧ (waitLoop polls slot).steps = List.replicate j Effect.poll := by
  induction polls with
  | nil => intro slot; exact ⟨0, Nat.le_refl _, rfl⟩
  | cons arrivals rest ih =>
    intro slot
    unfold waitLoop
    simp only [Ran.steps_bind, deliver_steps, deliver_deposit, List.nil_append, Ran.val_act,
      Ran.steps_act, Ran.isStep, if_true, Ran.steps_ite, Ran.steps_memcpy, Ran.steps_pure]
    by_cases hu : (deposit arrivals slot).responseUnread = true
    · refine ⟨1, by simp, ?_⟩
      simp only [hu, if_true]
      cases (Ran.memcpy Buf.responseData (deposit arrivals slot).responseData 0
        ((deposit arrivals slot).responseDataSize % 65536)).val <;> rfl
    · obtain ⟨j, hj, hs⟩ := ih (deposit arrivals slot)
      refine ⟨j + 1, by simp; omega, ?_⟩
      simp only [hu, if_false, hs]
      rfl

theorem waitLoop_first (arrivals : List Notification) (after : List (List Notification))
    (before : List (List Notification)) :
    ∀ slot : Slot,
      (slot.responseUnread = true → slot.responseData.length = slot.responseDataSize) →
      (∀ i, i < before.length →
        (deposit (before.take (i + 1)).flatten slot).responseUnread = false) →
      (deposit (before ++ [arrivals]).flatten slot).responseUnread = true →
      (waitLoop (before ++ arrivals :: after) slot).val
          = some
            { response := (deposit (before ++ [arrivals]).flatten slot).responseData.take
                ((deposit (before ++ [arrivals]).flatten slot).responseDataSize % 65536),
              responseSize := (deposit (before ++ [arrivals]).flatten slot).responseDataSize
                % 65536,
              slot := { deposit (before ++ [arrivals]).flatten slot with
                responseUnread := false } }
        ∧ (waitLoop (before ++ arrivals :: after) slot).steps
          = List.replicate (before.length + 1) Effect.poll := by
  induction before with
  | nil =>
    intro slot hc _ hu
    simp only [List.nil_append, List.flatten_cons, List.flatten_nil, List.append_nil] at hu ⊢
    have hlen := deposit_consistent arrivals slot hc hu
    have hle : (deposit arrivals slot).responseDataSize % 65536
        ≤ (deposit arrivals slot).responseData.length := by
      rw [hlen]
      exact Nat.mod_le _ _
    have hm : (Ran.memcpy Buf.responseData (deposit arrivals slot).responseData 0
        ((deposit arrivals slot).responseDataSize % 65536)).val
          = some ((deposit arrivals slot).responseData.take
              ((deposit arrivals slot).responseDataSize % 65536)) := by
      simp [hle]
    constructor
    · simp only [waitLoop, Ran.val_bind, deliver_deposit, Option.some_bind, Ran.val_act, hu,
        if_true, hm, Ran.val_pure]
    · simp only [waitLoop, Ran.steps_bind, deliver_steps, deliver_deposit, List.nil_append,
        Ran.val_act, Ran.steps_act, Ran.isStep, if_true, hu, Ran.steps_memcpy, hm,
        Ran.steps_pure, List.length_nil]
      rfl
  | cons b bs ih =>
    intro slot hc hfirst hu
    have h0 : (deposit b slot).responseUnread = false := by
      have := hfirst 0 (by simp)
      simpa using this
    have hc1 : (deposit b slot).responseUnread = true →
        (deposit b slot).responseData.length = (deposit b slot).responseDataSize := by
      intro h; rw [h0] at h; cases h
    have hfirst1 : ∀ i, i < bs.length →
        (deposit (bs.take (i + 1)).flatten (deposit b slot)).responseUnread = false := by
      intro i hi
      have := hfirst (i + 1) (by simp; omega)
      simpa [deposit_append] using this
    have hu1 : (deposit (bs ++ [arrivals]).flatten (deposit b slot)).responseUnread = true := by
      simpa [deposit_append] using hu
    obtain ⟨hv, hs⟩ := ih (deposit b slot) hc1 hfirst1 hu1
    have hdep : deposit ((b :: bs) ++ [arrivals]).flatten slot
        = deposit (bs ++ [arrivals]).flatten (deposit b slot) := by
      simp [deposit_append]
    rw [hdep]
    constructor
    · simp only [List.cons_append, waitLoop, Ran.val_bind, deliver_deposit, Option.some_bind,
        Ran.val_act, h0, Bool.false_eq_true, if_false]
      exact hv
    · simp only [List.cons_append, waitLoop, Ran.steps_bind, deliver_steps, deliver_deposit,
        List.nil_append, Ran.val_act, Ran.steps_act, Ran.isStep, if_true, h0,
        Bool.false_eq_true, if_false, List.length_cons]
      rw [List.replicate_succ]
      exact congrArg (List.cons Effect.poll) hs

end MobiusDevice

/-! ## `sendRequest`: the paths of one exchange -/

namespace MobiusDevice

theorem memcpy_whole (buf : Buf) (mem : List Nat) :
    (Ran.memcpy buf mem 0 mem.length).val = some mem := by
  simp

theorem sendRequest_writeFails (env : Transport) (slot : Slot) (request : List Nat)
    (length : Nat) (hlen : request.length = length) (hw : env.writeOk = false) :
    (sendRequest env slot request length).val
        = some { response := [], responseSize := 0,
                 slot := deposit env.duringWrite { slot with responseUnread := false } }
      ∧ (sendRequest env slot request length).steps = [Effect.writeValue request]
      ∧ (sendRequest env slot request length).events
        = List.replicate env.duringWrite.length MobiusDeviceEvent.notification_received
            ++ [MobiusDeviceEvent.request_failure] := by
  subst hlen
  refine ⟨?_, ?_, ?_⟩
  · simp only [sendRequest, Ran.val_bind, memcpy_whole, Option.some_bind, deliver_deposit,
      Ran.val_act, hw, Bool.false_eq_true, if_false, Ran.val_emit, Ran.val_pure, Ran.val_ite]
  · simp only [sendRequest, Ran.steps_bind, Ran.steps_memcpy, memcpy_whole, deliver_steps,
      deliver_deposit, Ran.val_act, Ran.steps_act, Ran.isStep, if_true, hw, Bool.false_eq_true,
      if_false, Ran.steps_ite, Ran.steps_emit, Ran.val_emit, Ran.steps_pure, List.nil_append,
      List.append_nil]
  · simp only [sendRequest, Ran.events_bind, Ran.events_memcpy, memcpy_whole, deliver_events,
      deliver_deposit, Ran.val_act, hw, Bool.false_eq_true, if_false, Ran.events_ite,
      Ran.events_emit, Ran.val_emit, Ran.events_pure, List.nil_append, List.append_nil]
    rfl

theorem sendRequest_steps (env : Transport) (slot : Slot) (request : List Nat) (length : Nat)
    (hlen : request.length = length) :
    ∃ j, j ≤ env.polls.length
      ∧ (sendRequest env slot request length).steps
        = Effect.writeValue request :: List.replicate j Effect.poll := by
  cases hw : env.writeOk
  · exact ⟨0, Nat.zero_le _, (sendRequest_writeFails env slot request length hlen hw).2.1⟩
  · subst hlen
    obtain ⟨j, hj, hs⟩ := waitLoop_steps env.polls
      (deposit env.duringWrite { slot with responseUnread := false })
    refine ⟨j, hj, ?_⟩
    simp only [sendRequest, Ran.steps_bind, Ran.steps_memcpy, memcpy_whole, deliver_steps,
      deliver_deposit, Ran.val_act, Ran.steps_act, Ran.isStep, if_true, hw, Ran.steps_ite,
      Ran.steps_emit, Ran.val_emit, List.nil_append, hs]
    rfl

theorem sendRequest_firstUnread (env : Transport) (slot : Slot) (request : List Nat)
    (length k : Nat) (hlen : request.length = length) (hw : env.writeOk = true)
    (hk : k < env.polls.length)
    (hfirst : ∀ i, i < k → (slotAtPoll env slot i).responseUnread = false)
    (hu : (slotAtPoll env slot k).responseUnread = true) :
    (sendRequest env slot request length).val
        = some
          { response := (slotAtPoll env slot k).responseData.take
              ((slotAtPoll env slot k).responseDataSize % 65536),
            responseSize := (slotAtPoll env slot k).responseDataSize % 65536,
            slot := { slotAtPoll env slot k with responseUnread := false } }
      ∧ (sendRequest env slot request length).steps
        = Effect.writeValue request :: List.replicate (k + 1) Effect.poll
      ∧ (slotAtPoll env slot k).responseData.length = (slotAtPoll env slot k).responseDataSize := by
  subst hlen
  have hsplit : env.polls = env.polls.take k ++ env.polls[k] :: env.polls.drop (k + 1) := by
    rw [← List.drop_eq_getElem_cons hk, List.take_append_drop]
  have htk : (env.polls.take k).length = k := by
    rw [List.length_take]; omega
  have hat : ∀ i, i ≤ k → slotAtPoll env slot i
      = deposit ((env.polls.take k ++ [env.polls[k]]).take (i + 1)).flatten
          (deposit env.duringWrite { slot with responseUnread := false }) := by
    intro i hi
    unfold slotAtPoll
    rw [deposit_append]
    congr 2
    conv_lhs => rw [hsplit]
    rw [show env.polls.take k ++ env.polls[k] :: env.polls.drop (k + 1)
        = (env.polls.take k ++ [env.polls[k]]) ++ env.polls.drop (k + 1) by simp]
    rw [List.take_append_of_le_length (by simp [htk]; omega)]
  have hc0 : (deposit env.duringWrite { slot with responseUnread := false }).responseUnread = true →
      (deposit env.duringWrite { slot with responseUnread := false }).responseData.length
        = (deposit env.duringWrite { slot with responseUnread := false }).responseDataSize :=
    deposit_consistent env.duringWrite _ (by intro h; simp at h)
  have hfirst1 : ∀ i, i < (env.polls.take k).length →
      (deposit ((env.polls.take k).take (i + 1)).flatten
        (deposit env.duringWrite { slot with responseUnread := false })).responseUnread
          = false := by
    intro i hi
    rw [htk] at hi
    have h := hfirst i hi
    rw [hat i (by omega)] at h
    rw [List.take_append_of_le_length (by rw [htk]; omega)] at h
    exact h
  have hk1 : slotAtPoll env slot k
      = deposit (env.polls.take k ++ [env.polls[k]]).flatten
          (deposit env.duringWrite { slot with responseUnread := false }) := by
    rw [hat k (Nat.le_refl _)]
    rw [List.take_of_length_le (by simp [htk])]
  rw [hk1] at hu ⊢
  obtain ⟨hv, hs⟩ := waitLoop_first env.polls[k] (env.polls.drop (k + 1)) (env.polls.take k)
    _ hc0 hfirst1 hu
  rw [← hsplit] at hv hs
  rw [htk] at hs
  refine ⟨?_, ?_, deposit_consistent _ _ hc0 hu⟩
  · simp only [sendRequest, Ran.val_bind, memcpy_whole, Option.some_bind, deliver_deposit,
      Ran.val_act, hw, if_true, Ran.val_emit, Ran.val_ite]
    exact hv
  · simp only [sendRequest, Ran.steps_bind, Ran.steps_memcpy, memcpy_whole, deliver_steps,
      deliver_deposit, Ran.val_act, Ran.steps_act, Ran.isStep, if_true, hw, Ran.steps_ite,
      Ran.steps_emit, Ran.val_emit, List.nil_append, hs]
    rfl

end MobiusDevice

namespace Ran

theorem events_act_step (a : Effect) (h : isStep a = true) : (act a).events = [] := by
  cases a <;> simp_all [events, act, isStep]

theorem not_mem_trace_of_steps {α : Type} (x : Ran α) (a : Effect) (h : isStep a = true)
    (hs : a ∉ x.steps) : a ∉ x.trace := by
  intro hmem
  exact hs (List.mem_filter.mpr ⟨hmem, h⟩)

end Ran

namespace MobiusDevice

theorem deposit_last (ns : List Notification) :
    ∀ slot : Slot,
      ((∀ x ∈ ns, x.uuid ≠ BLEUUID.RESPONSE_CHARACTERISTIC_2) ∧ deposit ns slot = slot)
      ∨ ∃ pre n post, ns = pre ++ n :: post ∧ n.uuid = BLEUUID.RESPONSE_CHARACTERISTIC_2
          ∧ (∀ x ∈ post, x.uuid ≠ BLEUUID.RESPONSE_CHARACTERISTIC_2)
          ∧ deposit ns slot
            = { responseData := n.pData, responseDataSize := n.pData.length,
                responseUnread := true } := by
  induction ns with
  | nil => intro slot; exact Or.inl ⟨by simp, rfl⟩
  | cons n rest ih =>
    intro slot
    simp only [deposit]
    rcases ih (if n.uuid = BLEUUID.RESPONSE_CHARACTERISTIC_2 then
        { responseData := n.pData, responseDataSize := n.pData.length, responseUnread := true }
      else slot) with ⟨hnone, heq⟩ | ⟨pre, m, post, hsplit, hm, hpost, heq⟩
    · by_cases hn : n.uuid = BLEUUID.RESPONSE_CHARACTERISTIC_2
      · right
        refine ⟨[], n, rest, rfl, hn, hnone, ?_⟩
        rw [heq, if_pos hn]
      · left
        refine ⟨?_, ?_⟩
        · intro x hx
          rcases List.mem_cons.mp hx with rfl | hx
          · exact hn
          · exact hnone x hx
        · rw [heq, if_neg hn]
    · right
      exact ⟨n :: pre, m, post, by rw [hsplit]; rfl, hm, hpost, heq⟩

theorem sendRequest_silent (env : Transport) (slot : Slot) (request : List Nat) (length : Nat)
    (hlen : request.length = length) (hs : silent env = true) :
    (sendRequest env slot request length).val
      = some { response := [], responseSize := 0,
               slot := { slot with responseUnread := false } } := by
  subst hlen
  simp only [silent, Bool.and_eq_true] at hs
  cases hw : env.writeOk
  · simp only [sendRequest, Ran.val_bind, memcpy_whole, Option.some_bind,
      deliver_silent env.duringWrite hs.1, Ran.val_act, hw, Bool.false_eq_true, if_false,
      Ran.val_emit, Ran.val_pure, Ran.val_ite]
  · simp only [sendRequest, Ran.val_bind, memcpy_whole, Option.some_bind,
      deliver_silent env.duringWrite hs.1, Ran.val_act, hw, if_true,
      Ran.val_emit, Ran.val_ite]
    exact waitLoop_silent env.polls hs.2 _ rfl

end MobiusDevice

/-! ## `setData` and `getData`: the steps of an exchange -/

namespace Ran

end Ran

namespace MobiusDevice

theorem setData_run (table : List Nat) (env : Transport) (self : MobiusDevice) (slot : Slot)
    (data : List Nat) (length : Nat) (doVerification : Bool) (req : List Nat)
    (hb : (buildRequest table self.messageId data length Mobius.OP_CODE_SET 0x0800).request
      = some req) :
    ∃ sent verified j,
      (sendRequest env slot req
        (buildRequest table self.messageId data length Mobius.OP_CODE_SET 0x0800).requestSize).val
          = some sent
      ∧ sent.response.length = sent.responseSize
      ∧ (if decide (0 < sent.responseSize) && doVerification then
          responseSuccessful req
            (buildRequest table self.messageId data length Mobius.OP_CODE_SET
              0x0800).requestSize sent.response sent.responseSize
        else (pure false : Ran Bool)).val = some verified
      ∧ (setData table env self slot data length doVerification).val
        = some { result := verified || !doVerification,
                 self := { self with messageId := (self.messageId + 1) % 65536 },
                 slot := sent.slot }
      ∧ j ≤ env.polls.length
      ∧ (sendRequest env slot req
        (buildRequest table self.messageId data length Mobius.OP_CODE_SET
          0x0800).requestSize).steps = Effect.writeValue req :: List.replicate j Effect.poll
      ∧ (setData table env self slot data length doVerification).steps
        = [Effect.buildRequest self.messageId, Effect.callMutexLock, Effect.writeValue req]
            ++ List.replicate j Effect.poll ++ [Effect.callMutexUnlock] := by
  have hrl := buildRequest_length table self.messageId data length Mobius.OP_CODE_SET 0x0800
    req hb
  obtain ⟨sent, hs, hl, _, _⟩ := sendRequest_val env slot req _ hrl
  obtain ⟨j, hj, hst⟩ := sendRequest_steps env slot req _ hrl
  obtain ⟨ok, hok, _⟩ := responseSuccessful_spec req sent.response _ sent.responseSize hrl hl
  by_cases hc : (decide (0 < sent.responseSize) && doVerification) = true
  · refine ⟨sent, ok, j, hs, hl, by simp only [hc, if_true, hok], ?_, hj, hst, ?_⟩
    · simp only [setData, hb, Ran.val_bind, Ran.val_act, Ran.val_ofOption, Option.some_bind, hs,
        hc, if_true, hok, Ran.val_pure, buildRequest_messageId]
    · simp only [setData, hb, Ran.steps_bind, Ran.val_act, Ran.val_ofOption,
        Ran.steps_ofOption, Ran.steps_act, Ran.isStep, if_true, hs, hst, hc, hok,
        responseSuccessful_steps, Ran.steps_pure, List.nil_append, List.append_nil,
        List.cons_append, List.singleton_append]
  · refine ⟨sent, false, j, hs, hl, by simp only [hc, if_false]; rfl, ?_, hj, hst, ?_⟩
    · simp only [setData, hb, Ran.val_bind, Ran.val_act, Ran.val_ofOption, Option.some_bind, hs,
        hc, Bool.false_eq_true, if_false, Ran.val_pure, buildRequest_messageId]
    · simp only [setData, hb, Ran.steps_bind, Ran.val_act, Ran.val_ofOption,
        Ran.steps_ofOption, Ran.steps_act, Ran.isStep, if_true, hs, hst, hc,
        Bool.false_eq_true, if_false, Ran.val_pure, Ran.steps_pure, List.nil_append, List.append_nil,
        List.cons_append, List.singleton_append]

end MobiusDevice

namespace MobiusDevice

theorem getData_run (table : List Nat) (env : Transport) (self : MobiusDevice) (slot : Slot)
    (data : List Nat) (length : Nat) (req : List Nat)
    (hb : (buildRequest table self.messageId data length Mobius.OP_CODE_GET 0x0000).request
      = some req) :
    ∃ sent j,
      (sendRequest env slot req
        (buildRequest table self.messageId data length Mobius.OP_CODE_GET 0x0000).requestSize).val
          = some sent
      ∧ sent.response.length = sent.responseSize
      ∧ j ≤ env.polls.length
      ∧ (sendRequest env slot req
        (buildRequest table self.messageId data length Mobius.OP_CODE_GET
          0x0000).requestSize).steps = Effect.writeValue req :: List.replicate j Effect.poll
      ∧ (∀ parsed, (parseResponseData sent.response sent.responseSize).val = some parsed →
          (getData table env self slot data length).val
            = some { data := parsed.1, dataSize := parsed.2,
                     self := { self with messageId := (self.messageId + 1) % 65536 },
                     slot := sent.slot }
          ∧ (getData table env self slot data length).steps
            = [Effect.buildRequest self.messageId, Effect.callMutexLock, Effect.writeValue req]
                ++ List.replicate j Effect.poll ++ [Effect.callMutexUnlock])
      ∧ ((parseResponseData sent.response sent.responseSize).val = none →
          (getData table env self slot data length).val = none) := by
  have hrl := buildRequest_length table self.messageId data length Mobius.OP_CODE_GET 0x0000
    req hb
  obtain ⟨sent, hs, hl, _, _⟩ := sendRequest_val env slot req _ hrl
  obtain ⟨j, hj, hst⟩ := sendRequest_steps env slot req _ hrl
  refine ⟨sent, j, hs, hl, hj, hst, ?_, ?_⟩
  · intro parsed hp
    constructor
    · simp only [getData, hb, Ran.val_bind, Ran.val_act, Ran.val_ofOption, Option.some_bind, hs,
        hp, Ran.val_pure, buildRequest_messageId]
    · simp only [getData, hb, Ran.steps_bind, Ran.val_act, Ran.val_ofOption,
        Ran.steps_ofOption, Ran.steps_act, Ran.isStep, if_true, hs, hst, hp,
        parseResponseData_steps, Ran.steps_pure, List.nil_append, List.append_nil,
        List.cons_append, List.singleton_append]
  · intro hp
    simp only [getData, hb, Ran.val_bind, Ran.val_act, Ran.val_ofOption, Option.some_bind, hs,
      hp, Option.none_bind]

end MobiusDevice

/-! ## Scene operations: proofs -/

namespace MobiusDevice

end MobiusDevice

namespace MobiusDevice

end MobiusDevice

namespace MobiusDevice

theorem parseResponseData_cases (response : List Nat) (length : Nat) (p : List Nat × Nat)
    (h : (parseResponseData response length).val = some p) :
    p = ([], 0)
      ∨ ∃ r7 r8, length > 11 ∧ response[0]? = some 0x02 ∧ response[1]? = some 0xDF
          ∧ response[8]? = some r8 ∧ response[7]? = some r7
          ∧ (((r8 <<< 8) + r7) % 65536 = 0 ∨ 9 + ((r8 <<< 8) + r7) % 65536 ≤ response.length)
          ∧ p = ((response.drop 9).take (((r8 <<< 8) + r7) % 65536),
                  ((r8 <<< 8) + r7) % 65536) := by
  by_cases hl : length > 11
  swap
  · left
    simp [parseResponseData, hl] at h
    exact h.symm
  cases h0 : response[0]? with
  | none => simp [parseResponseData, hl, h0] at h
  | some r0 =>
    by_cases e0 : 2 = r0
    swap
    · left
      simp [parseResponseData, hl, h0, e0] at h
      exact h.symm
    subst e0
    cases h1 : response[1]? with
    | none => simp [parseResponseData, hl, h0, h1] at h
    | some r1 =>
      by_cases e1 : Mobius.OP_GROUP_CONFIRM = r1
      swap
      · left
        simp [parseResponseData, hl, h0, h1, e1] at h
        exact h.symm
      subst e1
      cases h8 : response[8]? with
      | none => simp [parseResponseData, hl, h0, h1, h8] at h
      | some r8 =>
        cases h7 : response[7]? with
        | none => simp [parseResponseData, hl, h0, h1, h8, h7] at h
        | some r7 =>
          right
          simp only [parseResponseData, hl, decide_True, Ran.val_bind, Ran.val_andAlso, if_true,
            Ran.val_readAt, h0, h1, h8, h7, Option.some_bind, Ran.val_pure, beq_self_eq_true,
            Ran.val_ite, Ran.val_memcpy] at h
          by_cases hfit : ((r8 <<< 8) + r7) % 65536 = 0
              ∨ 9 + ((r8 <<< 8) + r7) % 65536 ≤ response.length
          · rw [if_pos hfit] at h
            simp only [Option.some_bind, Option.some.injEq] at h
            exact ⟨r7, r8, hl, rfl, rfl, rfl, rfl, hfit, h.symm⟩
          · rw [if_neg hfit] at h
            simp at h

theorem parseResponseData_length (response : List Nat) (length : Nat) (p : List Nat × Nat)
    (h : (parseResponseData response length).val = some p) : p.1.length = p.2 := by
  rcases parseResponseData_cases response length p h with rfl | ⟨r7, r8, _, _, _, _, _, hfit, rfl⟩
  · rfl
  · simp only [List.length_take, List.length_drop]
    omega

end MobiusDevice

namespace MobiusDevice

theorem getCurrentScene_run (table : List Nat) (env : Transport) (self : MobiusDevice)
    (slot : Slot) (got : GetResult)
    (hg : (getData table env self slot Mobius.ATTRIBUTE_CURRENT_SCENE 4).val = some got) :
    (got.dataSize = 0 → (getCurrentScene table env self slot).val
        = some { scene := 65535, self := got.self, slot := got.slot })
      ∧ (0 < got.dataSize → ∀ b6 b7, got.data[6]? = some b6 → got.data[7]? = some b7 →
          (getCurrentScene table env self slot).val
            = some { scene := (((b7 % 65536) <<< 8) + b6) % 65536, self := got.self,
                     slot := got.slot })
      ∧ (0 < got.dataSize → (got.data[6]? = none ∨ got.data[7]? = none) →
          (getCurrentScene table env self slot).val = none) := by
  have hg4 : (getData table env self slot Mobius.ATTRIBUTE_CURRENT_SCENE
      Mobius.ATTRIBUTE_CURRENT_SCENE.length).val = some got := hg
  refine ⟨fun h0 => ?_, fun hpos b6 b7 h6 h7 => ?_, fun hpos hnone => ?_⟩
  · have hn : ¬ 0 < got.dataSize := by omega
    simp only [getCurrentScene, Ran.val_bind, hg4, Option.some_bind, hn, if_false,
      Ran.val_pure, Ran.val_ite]
  · simp only [getCurrentScene, Ran.val_bind, hg4, Option.some_bind, hpos, if_true,
      Ran.val_readAt, h6, h7, Ran.val_pure, Ran.val_ite]
  · rcases hnone with h | h
    · cases h7 : got.data[7]? <;>
        simp only [getCurrentScene, Ran.val_bind, hg4, Option.some_bind, hpos, if_true,
          Ran.val_readAt, h, h7, Option.none_bind, Ran.val_ite]
    · simp only [getCurrentScene, Ran.val_bind, hg4, Option.some_bind, hpos, if_true,
        Ran.val_readAt, h, Option.none_bind, Ran.val_ite]

/-- C12. Once the request frame for the current-scene attribute (payload
`91 01 00 01`, opcode `0x17`, reserved `0x0000`) is built, `getCurrentScene`
returns 65535 whenever the "get" exchange yields a zero-length parsed payload
(in particular after a failed write, a silent wait, or a response that
`parseResponseData` rejects), and for a parsed payload of at least 8 bytes it
returns `payload[6] + 256 * payload[7]`. The frame is built whenever the
checksum table has 256 entries. -/
theorem getCurrentScene_result (table : List Nat) (env : Transport) (self : MobiusDevice)
    (slot : Slot) :
    (∀ req,
      (buildRequest table self.messageId Mobius.ATTRIBUTE_CURRENT_SCENE 4 Mobius.OP_CODE_GET
          0x0000).request = some req →
      ∃ sent,
        (sendRequest env slot req 15).val = some sent
        ∧ (∀ p, (parseResponseData sent.response sent.responseSize).val = some p → p.2 = 0 →
            ∃ res, (getCurrentScene table env self slot).val = some res ∧ res.scene = 65535)
        ∧ ((env.writeOk = false ∨ silent env = true ∨ sent.responseSize < 12
              ∨ sent.response[0]? ≠ some 0x02 ∨ sent.response[1]? ≠ some 0xDF) →
            ∃ res, (getCurrentScene table env self slot).val = some res ∧ res.scene = 65535)
        ∧ (∀ p, (parseResponseData sent.response sent.responseSize).val = some p → 8 ≤ p.2 →
            ∃ b6 b7, p.1[6]? = some b6 ∧ p.1[7]? = some b7
              ∧ (b6 < 256 → b7 < 256 →
                  ∃ res, (getCurrentScene table env self slot).val = some res
                    ∧ res.scene = b6 + 256 * b7)))
      ∧ (table.length = 256 →
          ∃ req,
            (buildRequest table self.messageId Mobius.ATTRIBUTE_CURRENT_SCENE 4
              Mobius.OP_CODE_GET 0x0000).request = some req) := by
  constructor
  swap
  · intro hlen
    obtain ⟨c, _, _, hb⟩ := buildRequest_closed table hlen self.messageId
      Mobius.ATTRIBUTE_CURRENT_SCENE 4 Mobius.OP_CODE_GET 0x0000 rfl (by norm_num)
    exact ⟨_, hb⟩
  intro req hb
  obtain ⟨sent, j, hs, hl, _, _, hparsed, _⟩ :=
    getData_run table env self slot Mobius.ATTRIBUTE_CURRENT_SCENE 4 req hb
  have hsz : (buildRequest table self.messageId Mobius.ATTRIBUTE_CURRENT_SCENE 4
      Mobius.OP_CODE_GET 0x0000).requestSize = 15 := rfl
  rw [hsz] at hs
  have hzero : ∀ p, (parseResponseData sent.response sent.responseSize).val = some p →
      p.2 = 0 →
      ∃ res, (getCurrentScene table env self slot).val = some res ∧ res.scene = 65535 := by
    intro p hp h0
    have hrun := getCurrentScene_run table env self slot _ (hparsed p hp).1
    exact ⟨_, hrun.1 h0, rfl⟩
  refine ⟨sent, hs, hzero, fun hfail => ?_, fun p hp h8 => ?_⟩
  · have hbad : sent.responseSize < 12 ∨ sent.response[0]? ≠ some 0x02
        ∨ sent.response[1]? ≠ some 0xDF := by
      obtain ⟨sent1, hs1, _, hw, hq⟩ := sendRequest_val env slot req 15
        (by rw [buildRequest_length _ _ _ _ _ _ req hb]; rfl)
      rw [hs] at hs1
      simp only [Option.some.injEq] at hs1
      subst hs1
      rcases hfail with h | h | h | h | h
      · left; rw [hw h]; norm_num
      · left; rw [hq h]; norm_num
      · exact Or.inl h
      · exact Or.inr (Or.inl h)
      · exact Or.inr (Or.inr h)
    exact hzero _ (parseResponseData_invalid sent.response sent.responseSize hl hbad) rfl
  · have hrun := getCurrentScene_run table env self slot _ (hparsed p hp).1
    have hlen := parseResponseData_length _ _ p hp
    obtain ⟨b6, h6⟩ : ∃ v, p.1[6]? = some v := ⟨_, List.getElem?_eq_getElem (by omega)⟩
    obtain ⟨b7, h7⟩ : ∃ v, p.1[7]? = some v := ⟨_, List.getElem?_eq_getElem (by omega)⟩
    refine ⟨b6, b7, h6, h7, fun hb6 hb7 => ⟨_, hrun.2.1 (by show 0 < p.2; omega) b6 b7 h6 h7, ?_⟩⟩
    show (((b7 % 65536) <<< 8) + b6) % 65536 = b6 + 256 * b7
    rw [Nat.shiftLeft_eq]
    omega

end MobiusDevice

/-! ## Discovery scanner: proofs -/

namespace MobiusDevice

theorem scanStart_spec (ads : List BLEAdvertisedDevice) :
    ∀ (N f : Nat), f < N → N ≤ 255 →
      (∃ rest, ads = (scanStart ads { expectedDevices := N, foundDevices := f }).1 ++ rest)
      ∧ (scanStart ads { expectedDevices := N, foundDevices := f }).1.filter isMobius
          = (ads.filter isMobius).take (N - f)
      ∧ (N - f ≤ (ads.filter isMobius).length →
          ∃ a, (scanStart ads { expectedDevices := N, foundDevices := f }).1.getLast? = some a
            ∧ isMobius a = true)
      ∧ ((ads.filter isMobius).length < N - f →
          (scanStart ads { expectedDevices := N, foundDevices := f }).1 = ads) := by
  induction ads with
  | nil =>
    intro N f hf _
    refine ⟨⟨[], rfl⟩, by simp [scanStart], ?_, fun _ => rfl⟩
    intro h
    simp at h
    omega
  | cons a rest ih =>
    intro N f hf hN
    by_cases hm : isMobius a = true
    · have hfound : (f + 1) % 256 = f + 1 := Nat.mod_eq_of_lt (by omega)
      by_cases hstop : f + 1 ≥ N
      · have hone : N - f = 1 := by omega
        have hs : scanStart (a :: rest) { expectedDevices := N, foundDevices := f }
            = ([a], { expectedDevices := N, foundDevices := f + 1 }) := by
          simp [scanStart, onResult, hm, hfound, hstop]
        rw [hs, hone]
        refine ⟨⟨rest, rfl⟩, by simp [hm], fun _ => ⟨a, rfl, hm⟩, fun h => ?_⟩
        simp [hm] at h
      · have hs : scanStart (a :: rest) { expectedDevices := N, foundDevices := f }
            = (a :: (scanStart rest { expectedDevices := N, foundDevices := f + 1 }).1,
                (scanStart rest { expectedDevices := N, foundDevices := f + 1 }).2) := by
          simp [scanStart, onResult, hm, hfound, hstop]
        obtain ⟨⟨r, hr⟩, hfil, hlast, hall⟩ := ih N (f + 1) (by omega) hN
        rw [hs]
        have hsub : N - f = (N - (f + 1)) + 1 := by omega
        refine ⟨⟨r, by rw [List.cons_append, ← hr]⟩, ?_, fun h => ?_, fun h => ?_⟩
        · simp only [List.filter_cons, hm, if_true, hfil, hsub, List.take_succ_cons]
        · simp only [List.filter_cons, hm, if_true, List.length_cons] at h
          obtain ⟨b, hb, hbm⟩ := hlast (by omega)
          refine ⟨b, ?_, hbm⟩
          cases hsc : (scanStart rest { expectedDevices := N, foundDevices := f + 1 }).1 with
          | nil => rw [hsc] at hb; simp at hb
          | cons x xs => rw [hsc] at hb; simpa [List.getLast?_cons_cons] using hb
        · simp only [List.filter_cons, hm, if_true, List.length_cons] at h
          rw [hall (by omega)]
    · have hs : scanStart (a :: rest) { expectedDevices := N, foundDevices := f }
          = (a :: (scanStart rest { expectedDevices := N, foundDevices := f }).1,
              (scanStart rest { expectedDevices := N, foundDevices := f }).2) := by
        simp [scanStart, onResult, hm]
      obtain ⟨⟨r, hr⟩, hfil, hlast, hall⟩ := ih N f hf hN
      rw [hs]
      refine ⟨⟨r, by rw [List.cons_append, ← hr]⟩, ?_, fun h => ?_, fun h => ?_⟩
      · simp only [List.filter_cons, hm, Bool.false_eq_true, if_false, hfil]
      · simp only [List.filter_cons, hm, Bool.false_eq_true, if_false] at h
        obtain ⟨b, hb, hbm⟩ := hlast h
        refine ⟨b, ?_, hbm⟩
        cases hsc : (scanStart rest { expectedDevices := N, foundDevices := f }).1 with
        | nil => rw [hsc] at hb; simp at hb
        | cons x xs => rw [hsc] at hb; simpa [List.getLast?_cons_cons] using hb
      · simp only [List.filter_cons, hm, Bool.false_eq_true, if_false] at h
        rw [hall h]

theorem collectDevices_spec (results : List BLEAdvertisedDevice) :
    ∀ (deviceBuffer : List BLEAdvertisedDevice) (count : Nat),
      deviceBuffer.length = count → count + (results.filter isMobius).length ≤ 255 →
      collectDevices results deviceBuffer count
        = (deviceBuffer ++ results.filter isMobius, count + (results.filter isMobius).length) := by
  induction results with
  | nil => intro b c _ _; simp [collectDevices]
  | cons a rest ih =>
    intro b c hb hc
    by_cases hm : isMobius a = true
    · simp only [List.filter_cons, hm, if_true, List.length_cons] at hc ⊢
      have hput : putDevice b c a = b ++ [a] := by
        simp [putDevice, hb]
      have hcnt : (c + 1) % 256 = c + 1 := Nat.mod_eq_of_lt (by omega)
      simp only [collectDevices, hm, if_true, hput, hcnt]
      rw [ih (b ++ [a]) (c + 1) (by simp [hb]) (by omega)]
      simp
      omega
    · simp only [List.filter_cons, hm, Bool.false_eq_true, if_false] at hc ⊢
      simp only [collectDevices, hm, Bool.false_eq_true, if_false]
      exact ih b c hb hc

end MobiusDevice

namespace MobiusDevice

theorem scanForMobiusDevices_val (advertisements : List BLEAdvertisedDevice)
    (expectedCount : Nat) :
    (scanForMobiusDevices advertisements expectedCount).val
      = some
        { count := (collectDevices
            (scanStart advertisements
              { expectedDevices := expectedCount, foundDevices := 0 }).1 [] 0).2,
          deviceBuffer := (collectDevices
            (scanStart advertisements
              { expectedDevices := expectedCount, foundDevices := 0 }).1 [] 0).1,
          results := (scanStart advertisements
              { expectedDevices := expectedCount, foundDevices := 0 }).1,
          callbacks := (scanStart advertisements
              { expectedDevices := expectedCount, foundDevices := 0 }).2 } := by
  simp only [scanForMobiusDevices, Ran.val_bind, Ran.val_emit, Option.some_bind, Ran.val_pure]

/-- C13 (counterexample). With `expectedCount = 0` and a single advertisement
of the target service, the sequence contains at least 0 matching
advertisements, yet `scanForMobiusDevices` returns 1 device, not 0: the test
`_foundDevices >= _expectedDevices` is made only after a match was counted. -/
theorem scanForMobiusDevices_zero_expected :
    0 ≤ ([{ address := 1, haveServiceUUID := true, isAdvertisingGeneralService := true }]
          : List BLEAdvertisedDevice).length
      ∧ ((scanForMobiusDevices
            [{ address := 1, haveServiceUUID := true, isAdvertisingGeneralService := true }]
            0).val.map (fun res => (res.count, res.deviceBuffer)))
          = some (1, [{ address := 1, haveServiceUUID := true,
                        isAdvertisingGeneralService := true }]) := by
  constructor
  · decide
  · decide

/-- C13 (amended). With the advertisements delivered in order until the scan is
stopped or they are exhausted: for `expectedCount = N` in `1..255` and a
sequence with at least `N` advertisements of the target service,
`scanForMobiusDevices` returns exactly `N`, the first `N` matching
advertisements, having gone through the sequence only up to the `N`-th match;
for `N` in `0..255` and a sequence with fewer than `N` matching advertisements
it goes through the whole sequence and returns all the matching ones. -/
theorem scanForMobiusDevices_count (advertisements : List BLEAdvertisedDevice) (N : Nat)
    (hN : N ≤ 255) :
    ∃ res, (scanForMobiusDevices advertisements N).val = some res
      ∧ (1 ≤ N → N ≤ (advertisements.filter isMobius).length →
          res.count = N
          ∧ res.deviceBuffer = (advertisements.filter isMobius).take N
          ∧ (∃ rest, advertisements = res.results ++ rest)
          ∧ (res.results.filter isMobius).length = N
          ∧ ∃ a, res.results.getLast? = some a ∧ isMobius a = true)
      ∧ ((advertisements.filter isMobius).length < N →
          res.count = (advertisements.filter isMobius).length
          ∧ res.deviceBuffer = advertisements.filter isMobius
          ∧ res.results = advertisements) := by
  refine ⟨_, scanForMobiusDevices_val advertisements N, ?_, ?_⟩
  · intro h1 hge
    obtain ⟨hpre, hfil, hlast, _⟩ := scanStart_spec advertisements N 0 (by omega) hN
    have hlenf : ((scanStart advertisements
        { expectedDevices := N, foundDevices := 0 }).1.filter isMobius).length = N := by
      rw [hfil, List.length_take]
      omega
    have hcol := collectDevices_spec
      (scanStart advertisements { expectedDevices := N, foundDevices := 0 }).1 [] 0 rfl
      (by rw [hlenf]; omega)
    simp only [hcol, List.nil_append, Nat.zero_add]
    exact ⟨hlenf, hfil, hpre, hlenf, hlast (by omega)⟩
  · intro hlt
    obtain ⟨_, hfil, _, hall⟩ := scanStart_spec advertisements N 0 (by omega) hN
    have hres := hall (by omega)
    have hcol := collectDevices_spec
      (scanStart advertisements { expectedDevices := N, foundDevices := 0 }).1 [] 0 rfl
      (by rw [hres]; omega)
    rw [hres] at hcol
    simp only [hres, hcol, List.nil_append, Nat.zero_add]
    exact ⟨trivial, trivial, trivial⟩

end MobiusDevice

/-! ## Notification intake and exchange paths: the claims -/

namespace MobiusDevice

/-- C14 (counterexample). `connectToCharacteristics` registers `notifyCallback`
on `RESPONSE_CHARACTERISTIC_1` as well; a notification arriving there leaves
the slot as it was (previous payload kept, unread flag still false). -/
theorem notifyCallback_ignores_characteristic_1 :
    BLEUUID.RESPONSE_CHARACTERISTIC_1
        ∈ registeredFor { hasService := true, hasRequestChar := true, hasResponseChar1 := true,
                          hasResponseChar2 := true }
      ∧ (notifyCallback BLEUUID.RESPONSE_CHARACTERISTIC_1 [0xAA, 0xBB] 2
          { responseData := [0x01, 0x02, 0x03], responseDataSize := 3,
            responseUnread := false }).val
        = some { responseData := [0x01, 0x02, 0x03], responseDataSize := 3,
                 responseUnread := false } := by
  constructor
  · decide
  · decide

/-- C14 (amended). For every state of the slot and every payload, a
notification handled by `notifyCallback` on `RESPONSE_CHARACTERISTIC_2`
overwrites the slot: afterwards it holds exactly the new payload and its
length and the unread flag is true. A notification on any other
characteristic leaves the slot unchanged. Either way the listener gets one
`notification_received`. -/
theorem notifyCallback_overwrites (pData : List Nat) (slot : Slot) :
    (notifyCallback BLEUUID.RESPONSE_CHARACTERISTIC_2 pData pData.length slot).val
        = some { responseData := pData, responseDataSize := pData.length,
                 responseUnread := true }
      ∧ (∀ uuid, uuid ≠ BLEUUID.RESPONSE_CHARACTERISTIC_2 →
          (notifyCallback uuid pData pData.length slot).val = some slot)
      ∧ ∀ uuid, (notifyCallback uuid pData pData.length slot).events
          = [MobiusDeviceEvent.notification_received] := by
  refine ⟨?_, fun uuid h => ?_, fun uuid => notifyCallback_events _ _ _ _⟩
  · rw [notifyCallback_val, if_pos rfl]
  · rw [notifyCallback_val, if_neg h]

theorem setData_writeFails (table : List Nat) (env : Transport) (self : MobiusDevice)
    (slot : Slot) (data : List Nat) (length : Nat) (req : List Nat)
    (hw : env.writeOk = false)
    (hb : (buildRequest table self.messageId data length Mobius.OP_CODE_SET 0x0800).request
      = some req) :
    (setData table env self slot data length true).val
        = some { result := false,
                 self := { self with messageId := (self.messageId + 1) % 65536 },
                 slot := deposit env.duringWrite { slot with responseUnread := false } }
      ∧ (setData table env self slot data length true).events
        = List.replicate env.duringWrite.length MobiusDeviceEvent.notification_received
            ++ [MobiusDeviceEvent.request_failure] := by
  have hrl := buildRequest_length table self.messageId data length Mobius.OP_CODE_SET 0x0800
    req hb
  obtain ⟨hv, _, he⟩ := sendRequest_writeFails env slot req _ hrl hw
  have e1 : (Ran.act (Effect.buildRequest self.messageId)).events = [] := rfl
  have e2 : (Ran.act Effect.callMutexLock).events = [] := rfl
  have e3 : (Ran.act Effect.callMutexUnlock).events = [] := rfl
  constructor
  · simp only [setData, hb, Ran.val_bind, Ran.val_act, Ran.val_ofOption, Option.some_bind, hv,
      Nat.lt_irrefl, decide_False, Bool.false_and, Bool.false_eq_true, if_false, Ran.val_pure,
      buildRequest_messageId, Bool.not_true, Bool.or_false]
  · simp only [setData, hb, Ran.events_bind, Ran.val_act, Ran.val_ofOption,
      Ran.events_ofOption, e1, e2, e3, hv, he, Nat.lt_irrefl, decide_False,
      Bool.false_and, Bool.false_eq_true, if_false, Ran.val_pure, Ran.events_pure,
      List.nil_append, List.append_nil]

end MobiusDevice

namespace MobiusDevice

theorem waitLoop_silent_steps (polls : List (List Notification))
    (hs : polls.all (fun arrivals =>
        arrivals.all (fun n => decide (n.uuid ≠ BLEUUID.RESPONSE_CHARACTERISTIC_2))) = true) :
    ∀ slot : Slot, slot.responseUnread = false →
      (waitLoop polls slot).steps = List.replicate polls.length Effect.poll := by
  induction polls with
  | nil => intro slot _; rfl
  | cons arrivals rest ih =>
    intro slot hu
    simp only [List.all_cons, Bool.and_eq_true] at hs
    have hd : deposit arrivals slot = slot := by
      have h1 := deliver_deposit arrivals slot
      rw [deliver_silent arrivals hs.1 slot] at h1
      simp only [Option.some.injEq] at h1
      exact h1.symm
    simp only [waitLoop, Ran.steps_bind, deliver_steps, deliver_deposit, hd, List.nil_append,
      Ran.val_act, Ran.steps_act, Ran.isStep, if_true, hu, Bool.false_eq_true, if_false,
      List.length_cons]
    rw [List.replicate_succ]
    exact congrArg (List.cons Effect.poll) (ih hs.2 slot hu)

theorem events_writeFails_filter (n : Nat) :
    (List.replicate n MobiusDeviceEvent.notification_received
        ++ [MobiusDeviceEvent.request_failure]).filter
      (fun e => decide (e ≠ MobiusDeviceEvent.notification_received))
      = [MobiusDeviceEvent.request_failure] := by
  induction n with
  | zero => rfl
  | succ n ih =>
    rw [List.replicate_succ, List.cons_append, List.filter_cons]
    simp [ih]

theorem mem_events_writeFails (n : Nat) (e : MobiusDeviceEvent)
    (h : e ∈ List.replicate n MobiusDeviceEvent.notification_received
        ++ [MobiusDeviceEvent.request_failure]) :
    e = MobiusDeviceEvent.notification_received ∨ e = MobiusDeviceEvent.request_failure := by
  rcases List.mem_append.mp h with h | h
  · exact Or.inl (List.eq_of_mem_replicate h)
  · exact Or.inr (List.mem_singleton.mp h)

/-- C15. When `writeValue` returns false, `sendRequest` produces, besides one
`notification_received` per notification the callback handled during the
write, exactly one event, `request_failure` (so no `request_successful`),
tests the shared slot not once, and returns a zero-length response;
consequently a "set" with verification requested returns false and the
listener gets neither `response_successful` nor `response_failure`. -/
theorem sendRequest_write_failure (table : List Nat) (env : Transport) (self : MobiusDevice)
    (slot : Slot) (data : List Nat) (length : Nat) (request : List Nat) (requestLength : Nat)
    (hlen : request.length = requestLength) (hw : env.writeOk = false) :
    (sendRequest env slot request requestLength).events
        = List.replicate env.duringWrite.length MobiusDeviceEvent.notification_received
            ++ [MobiusDeviceEvent.request_failure]
      ∧ (sendRequest env slot request requestLength).events.filter
          (fun e => decide (e ≠ MobiusDeviceEvent.notification_received))
        = [MobiusDeviceEvent.request_failure]
      ∧ MobiusDeviceEvent.request_successful
          ∉ (sendRequest env slot request requestLength).events
      ∧ Effect.poll ∉ (sendRequest env slot request requestLength).trace
      ∧ (∃ sent, (sendRequest env slot request requestLength).val = some sent
          ∧ sent.response = [] ∧ sent.responseSize = 0)
      ∧ (∀ req,
          (buildRequest table self.messageId data length Mobius.OP_CODE_SET 0x0800).request
            = some req →
          ∃ res, (setData table env self slot data length true).val = some res
            ∧ res.result = false
            ∧ MobiusDeviceEvent.response_successful
                ∉ (setData table env self slot data length true).events
            ∧ MobiusDeviceEvent.response_failure
                ∉ (setData table env self slot data length true).events) := by
  obtain ⟨hv, hst, he⟩ := sendRequest_writeFails env slot request requestLength hlen hw
  refine ⟨he, ?_, ?_, ?_, ⟨_, hv, rfl, rfl⟩, ?_⟩
  · rw [he]
    exact events_writeFails_filter _
  · rw [he]
    intro h
    rcases mem_events_writeFails _ _ h with h | h <;> cases h
  · apply Ran.not_mem_trace_of_steps _ Effect.poll rfl
    rw [hst]
    simp
  · intro req hb
    obtain ⟨hval, hev⟩ := setData_writeFails table env self slot data length req hw hb
    refine ⟨_, hval, rfl, ?_, ?_⟩
    · rw [hev]
      intro h
      rcases mem_events_writeFails _ _ h with h | h <;> cases h
    · rw [hev]
      intro h
      rcases mem_events_writeFails _ _ h with h | h <;> cases h

end MobiusDevice

namespace MobiusDevice

theorem sendRequest_silent_steps (env : Transport) (slot : Slot) (request : List Nat)
    (length : Nat) (hlen : request.length = length) (hw : env.writeOk = true)
    (hs : silent env = true) :
    (sendRequest env slot request length).steps
      = Effect.writeValue request :: List.replicate env.polls.length Effect.poll := by
  subst hlen
  simp only [silent, Bool.and_eq_true] at hs
  have hd : deposit env.duringWrite { slot with responseUnread := false }
      = { slot with responseUnread := false } := by
    have h1 := deliver_deposit env.duringWrite { slot with responseUnread := false }
    rw [deliver_silent env.duringWrite hs.1] at h1
    simp only [Option.some.injEq] at h1
    exact h1.symm
  simp only [sendRequest, Ran.steps_bind, Ran.steps_memcpy, memcpy_whole, deliver_steps,
    deliver_deposit, hd, Ran.val_act, Ran.steps_act, Ran.isStep, if_true, hw, Ran.steps_ite,
    Ran.steps_emit, Ran.val_emit, List.nil_append]
  rw [waitLoop_silent_steps env.polls hs.2 { slot with responseUnread := false } rfl]
  rfl

/-- C17. For every initial state of the shared slot, also one holding a stale
payload with the unread flag set: if `writeValue` succeeds and nothing is
deposited between the clearing of the flag and the end of the wait,
`sendRequest` makes every poll the clock allows and returns a zero-length
response, leaving the slot's payload as it was with the unread flag false;
hence a "get" yields an empty payload and a verified "set" yields false. -/
theorem sendRequest_timeout (table : List Nat) (env : Transport) (self : MobiusDevice)
    (slot : Slot) (data : List Nat) (length : Nat) (request : List Nat) (requestLength : Nat)
    (hlen : request.length = requestLength) (hw : env.writeOk = true)
    (hs : silent env = true) :
    (sendRequest env slot request requestLength).val
        = some { response := [], responseSize := 0,
                 slot := { slot with responseUnread := false } }
      ∧ (sendRequest env slot request requestLength).steps
        = Effect.writeValue request :: List.replicate env.polls.length Effect.poll
      ∧ (∀ req,
          (buildRequest table self.messageId data length Mobius.OP_CODE_GET 0x0000).request
            = some req →
          ∃ res, (getData table env self slot data length).val = some res
            ∧ res.data = [] ∧ res.dataSize = 0 ∧ res.slot = { slot with responseUnread := false })
      ∧ (∀ req,
          (buildRequest table self.messageId data length Mobius.OP_CODE_SET 0x0800).request
            = some req →
          ∃ res, (setData table env self slot data length true).val = some res
            ∧ res.result = false ∧ res.slot = { slot with responseUnread := false }) := by
  refine ⟨sendRequest_silent env slot request requestLength hlen hs,
    sendRequest_silent_steps env slot request requestLength hlen hw hs, ?_, ?_⟩
  · intro req hb
    obtain ⟨sent, j, hsent, _, _, _, hparsed, _⟩ :=
      getData_run table env self slot data length req hb
    have hrl := buildRequest_length table self.messageId data length Mobius.OP_CODE_GET 0x0000
      req hb
    rw [sendRequest_silent env slot req _ hrl hs] at hsent
    simp only [Option.some.injEq] at hsent
    subst hsent
    have hp : (parseResponseData [] 0).val = some ([], 0) :=
      parseResponseData_invalid [] 0 rfl (Or.inl (by norm_num))
    exact ⟨_, (hparsed _ hp).1, rfl, rfl, rfl⟩
  · intro req hb
    obtain ⟨sent, verified, j, hsent, _, hv, hval, _, _, _⟩ :=
      setData_run table env self slot data length true req hb
    have hrl := buildRequest_length table self.messageId data length Mobius.OP_CODE_SET 0x0800
      req hb
    rw [sendRequest_silent env slot req _ hrl hs] at hsent
    simp only [Option.some.injEq] at hsent
    subst hsent
    simp only [Nat.lt_irrefl, decide_False, Bool.false_and, Bool.false_eq_true, if_false,
      Ran.val_pure, Option.some.injEq] at hv
    subst hv
    exact ⟨_, hval, rfl, rfl⟩

/-- C18 (amended). When `writeValue` succeeds and the `k`-th poll (counting from
0) is the first to find the unread flag set, `sendRequest` returns the size
the slot holds at that poll reduced modulo 65536 (it is a `uint16_t`) and that
many leading bytes of the slot's payload: exactly the bytes and the size of
the slot for a payload below 65536 bytes. The slot holds the payload of the
last notification deposited so far; `sendRequest` sets the unread flag to
false, leaves the slot's payload and size unchanged, and makes exactly `k + 1`
polls. -/
theorem sendRequest_first_unread (env : Transport) (slot : Slot) (request : List Nat)
    (length k : Nat) (hlen : request.length = length) (hw : env.writeOk = true)
    (hk : k < env.polls.length)
    (hfirst : ∀ i, i < k → (slotAtPoll env slot i).responseUnread = false)
    (hu : (slotAtPoll env slot k).responseUnread = true) :
    ∃ sent, (sendRequest env slot request length).val = some sent
      ∧ sent.responseSize = (slotAtPoll env slot k).responseDataSize % 65536
      ∧ sent.response = (slotAtPoll env slot k).responseData.take sent.responseSize
      ∧ ((slotAtPoll env slot k).responseDataSize < 65536 →
          sent.response = (slotAtPoll env slot k).responseData
          ∧ sent.responseSize = (slotAtPoll env slot k).responseDataSize)
      ∧ sent.slot.responseUnread = false
      ∧ sent.slot.responseData = (slotAtPoll env slot k).responseData
      ∧ sent.slot.responseDataSize = (slotAtPoll env slot k).responseDataSize
      ∧ (sendRequest env slot request length).steps
        = Effect.writeValue request :: List.replicate (k + 1) Effect.poll
      ∧ ∃ pre n post,
          env.duringWrite ++ (env.polls.take (k + 1)).flatten = pre ++ n :: post
          ∧ n.uuid = BLEUUID.RESPONSE_CHARACTERISTIC_2
          ∧ (∀ x ∈ post, x.uuid ≠ BLEUUID.RESPONSE_CHARACTERISTIC_2)
          ∧ (slotAtPoll env slot k).responseData = n.pData
          ∧ (slotAtPoll env slot k).responseDataSize = n.pData.length := by
  obtain ⟨hv, hst, hcons⟩ :=
    sendRequest_firstUnread env slot request length k hlen hw hk hfirst hu
  refine ⟨_, hv, rfl, rfl, fun hsmall => ?_, rfl, rfl, rfl, hst, ?_⟩
  · constructor
    · show (slotAtPoll env slot k).responseData.take
          ((slotAtPoll env slot k).responseDataSize % 65536) = _
      rw [Nat.mod_eq_of_lt hsmall, ← hcons, List.take_length]
    · exact Nat.mod_eq_of_lt hsmall
  · rcases deposit_last (env.duringWrite ++ (env.polls.take (k + 1)).flatten)
      { slot with responseUnread := false } with ⟨_, heq⟩ | ⟨pre, n, post, hsplit, hn, hpost, heq⟩
    · exfalso
      unfold slotAtPoll at hu
      rw [heq] at hu
      simp at hu
    · refine ⟨pre, n, post, hsplit, hn, hpost, ?_, ?_⟩
      · unfold slotAtPoll
        rw [heq]
      · unfold slotAtPoll
        rw [heq]

end MobiusDevice

namespace MobiusDevice

/-- C19 (counterexample). In a "set" whose write fails, the steps are: build the
frame (consuming message id 2), then lock the exchange mutex, transmit,
unlock. The frame is built, and the counter incremented, before the lock is
taken, not while it is held. -/
theorem setData_builds_before_lock :
    (setData MobiusCRC.sampleTable { writeOk := false, duringWrite := [], polls := [] }
        { messageId := 2, connected := true }
        { responseData := [], responseDataSize := 0, responseUnread := false }
        [0x68, 0x00, 0x00, 0x01, 0x01, 0x03] 6 true).steps
      = [Effect.buildRequest 2, Effect.callMutexLock,
         Effect.writeValue [0x02, 0xDE, 0x18, 0x02, 0x00, 0x08, 0x00, 0x06, 0x00, 0x68, 0x00,
           0x00, 0x01, 0x01, 0x03, 0xCA, 0x87],
         Effect.callMutexUnlock] := by
  set_option maxRecDepth 100000 in decide

/-- C19 (amended). In every execution of `setData` and of `getData`, on every
path (write failure, timeout, response received), the steps are in this
order: build the frame (consuming the message id, which leaves the counter one
higher modulo 65536), acquire the exchange lock, transmit, poll (as often as
the wait lasts), release. The lock is taken once, after the frame is built,
and released exactly once, as the last step. `setData` returns whenever the
frame is built; `getData` returns whenever the frame is built and
`parseResponseData` returns on the response, as it does on every response
shorter than 12 bytes (the empty one of a write failure or a timeout
included) or without the markers `02 DF`. -/
theorem exchange_step_order (table : List Nat) (env : Transport) (self : MobiusDevice)
    (slot : Slot) (data : List Nat) (length : Nat) (doVerification : Bool) :
    (∀ req,
      (buildRequest table self.messageId data length Mobius.OP_CODE_SET 0x0800).request
        = some req →
      ∃ j res, j ≤ env.polls.length
        ∧ (setData table env self slot data length doVerification).val = some res
        ∧ (setData table env self slot data length doVerification).steps
          = [Effect.buildRequest self.messageId, Effect.callMutexLock, Effect.writeValue req]
              ++ List.replicate j Effect.poll ++ [Effect.callMutexUnlock]
        ∧ res.self.messageId = (self.messageId + 1) % 65536)
      ∧ (∀ req,
          (buildRequest table self.messageId data length Mobius.OP_CODE_GET 0x0000).request
            = some req →
          ∃ sent j,
            (sendRequest env slot req
              (buildRequest table self.messageId data length Mobius.OP_CODE_GET
                0x0000).requestSize).val = some sent
            ∧ j ≤ env.polls.length
            ∧ ((sent.responseSize < 12 ∨ sent.response[0]? ≠ some 0x02
                  ∨ sent.response[1]? ≠ some 0xDF
                  ∨ ∃ parsed, (parseResponseData sent.response sent.responseSize).val
                      = some parsed) →
                ∃ res, (getData table env self slot data length).val = some res
                  ∧ (getData table env self slot data length).steps
                    = [Effect.buildRequest self.messageId, Effect.callMutexLock,
                        Effect.writeValue req]
                        ++ List.replicate j Effect.poll ++ [Effect.callMutexUnlock]
                  ∧ res.self.messageId = (self.messageId + 1) % 65536)) := by
  constructor
  · intro req hb
    obtain ⟨sent, verified, j, _, _, _, hval, hj, _, hsteps⟩ :=
      setData_run table env self slot data length doVerification req hb
    exact ⟨j, _, hj, hval, hsteps, rfl⟩
  · intro req hb
    obtain ⟨sent, j, hs, hl, hj, _, hparsed, _⟩ :=
      getData_run table env self slot data length req hb
    refine ⟨sent, j, hs, hj, fun h => ?_⟩
    have hp : ∃ parsed, (parseResponseData sent.response sent.responseSize).val
        = some parsed := by
      rcases h with h | h | h | h
      · exact ⟨_, parseResponseData_invalid _ _ hl (Or.inl h)⟩
      · exact ⟨_, parseResponseData_invalid _ _ hl (Or.inr (Or.inl h))⟩
      · exact ⟨_, parseResponseData_invalid _ _ hl (Or.inr (Or.inr h))⟩
      · exact h
    obtain ⟨parsed, hp⟩ := hp
    obtain ⟨hval, hsteps⟩ := hparsed parsed hp
    exact ⟨_, hval, hsteps, rfl⟩

/-- C20 (the code at the failing input). On the 12-byte response
`02 DF 17 02 00 00 00 09 00 AA BB CC`, which declares a 9-byte payload,
`parseResponseData` passes its validity test and reads indices 9 to 17 of the
response, six of them at or beyond its size 12; `9 + 9 <= 12` does not hold. -/
theorem parseResponseData_reads_past_end :
    ([0x02, 0xDF, 0x17, 0x02, 0x00, 0x00, 0x00, 0x09, 0x00, 0xAA, 0xBB, 0xCC] : List Nat).length
        = 12
      ∧ (parseResponseData
          [0x02, 0xDF, 0x17, 0x02, 0x00, 0x00, 0x00, 0x09, 0x00, 0xAA, 0xBB, 0xCC] 12).reads
          Buf.response
        = [0, 1, 8, 7, 9, 10, 11, 12, 13, 14, 15, 16, 17]
      ∧ (parseResponseData
          [0x02, 0xDF, 0x17, 0x02, 0x00, 0x00, 0x00, 0x09, 0x00, 0xAA, 0xBB, 0xCC] 12).val
        = none
      ∧ ¬ (9 + (0x09 + 256 * 0x00) ≤ 12) := by
  refine ⟨rfl, ?_, ?_, ?_⟩
  · decide
  · decide
  · decide

end MobiusDevice

/-! ## The later theorems at concrete inputs -/

namespace MobiusDevice

end MobiusDevice

namespace MobiusDevice

/-- C12 at message id 2: a response whose parsed payload is
`00 01 02 03 04 05 07 01` gives scene `7 + 256 * 1`, and a failed write gives
65535. -/
theorem getCurrentScene_result_witness :
    MobiusCRC.sampleTable.length = 256
      ∧ (∃ res, (getCurrentScene MobiusCRC.sampleTable
            { writeOk := true, duringWrite := [], polls := [[], [{ uuid := BLEUUID.RESPONSE_CHARACTERISTIC_2, pData := [0x02, 0xDF, 0x17, 0x02, 0x00, 0x00, 0x00, 0x08, 0x00, 0, 1, 2, 3, 4, 5, 7, 1, 0xAA, 0xBB] }]] }
            { messageId := 2, connected := true } { responseData := [], responseDataSize := 0, responseUnread := false }).val = some res
          ∧ res.scene = 7 + 256 * 1)
      ∧ (∃ res, (getCurrentScene MobiusCRC.sampleTable
            { writeOk := false, duringWrite := [{ uuid := BLEUUID.RESPONSE_CHARACTERISTIC_2, pData := [1] }], polls := [[]] }
            { messageId := 2, connected := true } { responseData := [9, 9, 9], responseDataSize := 3, responseUnread := true }).val = some res
          ∧ res.scene = 65535) := by
  refine ⟨MobiusCRC.sampleTable_length, ?_, ?_⟩
  · obtain ⟨h1, _⟩ := getCurrentScene_result MobiusCRC.sampleTable
      { writeOk := true, duringWrite := [], polls := [[], [{ uuid := BLEUUID.RESPONSE_CHARACTERISTIC_2, pData := [0x02, 0xDF, 0x17, 0x02, 0x00, 0x00, 0x00, 0x08, 0x00, 0, 1, 2, 3, 4, 5, 7, 1, 0xAA, 0xBB] }]] }
      { messageId := 2, connected := true } { responseData := [], responseDataSize := 0, responseUnread := false }
    obtain ⟨sent, hs, _, _, h4⟩ := h1
      [0x02, 0xDE, 0x17, 0x02, 0x00, 0x00, 0x00, 0x04, 0x00, 0x91, 0x01, 0x00, 0x01, 0x7A, 0xB6]
      (by set_option maxRecDepth 100000 in decide)
    have hs2 : (sendRequest
        { writeOk := true, duringWrite := [], polls := [[], [{ uuid := BLEUUID.RESPONSE_CHARACTERISTIC_2, pData := [0x02, 0xDF, 0x17, 0x02, 0x00, 0x00, 0x00, 0x08, 0x00, 0, 1, 2, 3, 4, 5, 7, 1, 0xAA, 0xBB] }]] }
        { responseData := [], responseDataSize := 0, responseUnread := false }
        [0x02, 0xDE, 0x17, 0x02, 0x00, 0x00, 0x00, 0x04, 0x00, 0x91, 0x01, 0x00, 0x01, 0x7A, 0xB6] 15).val
        = some { response := [0x02, 0xDF, 0x17, 0x02, 0x00, 0x00, 0x00, 0x08, 0x00, 0, 1, 2, 3, 4, 5, 7, 1, 0xAA, 0xBB], responseSize := 19, slot := { responseData := [0x02, 0xDF, 0x17, 0x02, 0x00, 0x00, 0x00, 0x08, 0x00, 0, 1, 2, 3, 4, 5, 7, 1, 0xAA, 0xBB], responseDataSize := 19, responseUnread := false } } := by
      set_option maxRecDepth 100000 in decide
    rw [hs2] at hs
    simp only [Option.some.injEq] at hs
    subst hs
    obtain ⟨b6, b7, h6, h7, h⟩ := h4 ([0, 1, 2, 3, 4, 5, 7, 1], 8) (by decide) (by decide)
    simp only [List.getElem?_cons_succ, List.getElem?_cons_zero, Option.some.injEq] at h6 h7
    subst h6 h7
    exact h (by decide) (by decide)
  · obtain ⟨h1, h2⟩ := getCurrentScene_result MobiusCRC.sampleTable
      { writeOk := false, duringWrite := [{ uuid := BLEUUID.RESPONSE_CHARACTERISTIC_2, pData := [1] }], polls := [[]] }
      { messageId := 2, connected := true } { responseData := [9, 9, 9], responseDataSize := 3, responseUnread := true }
    obtain ⟨req, hreq⟩ := h2 MobiusCRC.sampleTable_length
    obtain ⟨sent, _, _, h3, _⟩ := h1 req hreq
    exact h3 (Or.inl rfl)

/-- C13 with `expectedCount = 2` on five advertisements of which the second,
fourth and fifth match: the scan returns the second and the fourth. -/
theorem scanForMobiusDevices_count_witness :
    2 ≤ 255
      ∧ ∃ res, (scanForMobiusDevices
            [{ address := 1, haveServiceUUID := false, isAdvertisingGeneralService := false }, { address := 2, haveServiceUUID := true, isAdvertisingGeneralService := true }, { address := 3, haveServiceUUID := true, isAdvertisingGeneralService := false }, { address := 4, haveServiceUUID := true, isAdvertisingGeneralService := true }, { address := 5, haveServiceUUID := true, isAdvertisingGeneralService := true }]
            2).val = some res
          ∧ res.count = 2
          ∧ res.deviceBuffer = [{ address := 2, haveServiceUUID := true, isAdvertisingGeneralService := true }, { address := 4, haveServiceUUID := true, isAdvertisingGeneralService := true }]
          ∧ (res.results.filter isMobius).length = 2 := by
  obtain ⟨res, hv, h1, _⟩ := scanForMobiusDevices_count
    [{ address := 1, haveServiceUUID := false, isAdvertisingGeneralService := false }, { address := 2, haveServiceUUID := true, isAdvertisingGeneralService := true }, { address := 3, haveServiceUUID := true, isAdvertisingGeneralService := false }, { address := 4, haveServiceUUID := true, isAdvertisingGeneralService := true }, { address := 5, haveServiceUUID := true, isAdvertisingGeneralService := true }]
    2 (by decide)
  obtain ⟨hc, hb, _, hf, _⟩ := h1 (by decide) (by decide)
  exact ⟨by decide, res, hv, hc, hb, hf⟩

/-- C14 on a slot holding a stale payload: a notification on
`RESPONSE_CHARACTERISTIC_2` replaces it, one on `RESPONSE_CHARACTERISTIC_1`
leaves it. -/
theorem notifyCallback_overwrites_witness :
    BLEUUID.RESPONSE_CHARACTERISTIC_1 ≠ BLEUUID.RESPONSE_CHARACTERISTIC_2
      ∧ (notifyCallback BLEUUID.RESPONSE_CHARACTERISTIC_2 [1, 2] 2
          { responseData := [9, 9, 9], responseDataSize := 3, responseUnread := true }).val
        = some { responseData := [1, 2], responseDataSize := 2, responseUnread := true }
      ∧ (notifyCallback BLEUUID.RESPONSE_CHARACTERISTIC_1 [1, 2] 2
          { responseData := [9, 9, 9], responseDataSize := 3, responseUnread := true }).val
        = some { responseData := [9, 9, 9], responseDataSize := 3, responseUnread := true } :=
  ⟨by decide,
    (notifyCallback_overwrites [1, 2]
      { responseData := [9, 9, 9], responseDataSize := 3, responseUnread := true }).1,
    (notifyCallback_overwrites [1, 2]
      { responseData := [9, 9, 9], responseDataSize := 3, responseUnread := true }).2.1
      BLEUUID.RESPONSE_CHARACTERISTIC_1 (by decide)⟩

/-- C15 for the operation-state request with message id 2, a stale unread
payload in the slot and one notification handled during the write. -/
theorem sendRequest_write_failure_witness :
    ([0x02, 0xDE, 0x18, 0x02, 0x00, 0x08, 0x00, 0x06, 0x00, 0x68, 0x00, 0x00, 0x01, 0x01, 0x03, 0xCA, 0x87] : List Nat).length = 17
      ∧ ({ writeOk := false, duringWrite := [{ uuid := BLEUUID.RESPONSE_CHARACTERISTIC_2, pData := [1] }], polls := [[]] } : Transport).writeOk = false
      ∧ (sendRequest
          { writeOk := false, duringWrite := [{ uuid := BLEUUID.RESPONSE_CHARACTERISTIC_2, pData := [1] }], polls := [[]] }
          { responseData := [9, 9, 9], responseDataSize := 3, responseUnread := true }
          [0x02, 0xDE, 0x18, 0x02, 0x00, 0x08, 0x00, 0x06, 0x00, 0x68, 0x00, 0x00, 0x01, 0x01, 0x03, 0xCA, 0x87] 17).events
        = [MobiusDeviceEvent.notification_received, MobiusDeviceEvent.request_failure]
      ∧ Effect.poll ∉ (sendRequest
          { writeOk := false, duringWrite := [{ uuid := BLEUUID.RESPONSE_CHARACTERISTIC_2, pData := [1] }], polls := [[]] }
          { responseData := [9, 9, 9], responseDataSize := 3, responseUnread := true }
          [0x02, 0xDE, 0x18, 0x02, 0x00, 0x08, 0x00, 0x06, 0x00, 0x68, 0x00, 0x00, 0x01, 0x01, 0x03, 0xCA, 0x87] 17).trace
      ∧ ∃ res, (setData MobiusCRC.sampleTable
            { writeOk := false, duringWrite := [{ uuid := BLEUUID.RESPONSE_CHARACTERISTIC_2, pData := [1] }], polls := [[]] }
            { messageId := 2, connected := true } { responseData := [9, 9, 9], responseDataSize := 3, responseUnread := true }
            [0x68, 0x00, 0x00, 0x01, 0x01, 0x03] 6 true).val = some res
          ∧ res.result = false := by
  obtain ⟨he, _, _, hp, _, hset⟩ := sendRequest_write_failure MobiusCRC.sampleTable
    { writeOk := false, duringWrite := [{ uuid := BLEUUID.RESPONSE_CHARACTERISTIC_2, pData := [1] }], polls := [[]] }
    { messageId := 2, connected := true } { responseData := [9, 9, 9], responseDataSize := 3, responseUnread := true }
    [0x68, 0x00, 0x00, 0x01, 0x01, 0x03] 6
    [0x02, 0xDE, 0x18, 0x02, 0x00, 0x08, 0x00, 0x06, 0x00, 0x68, 0x00, 0x00, 0x01, 0x01, 0x03, 0xCA, 0x87] 17 rfl rfl
  obtain ⟨res, hv, hr, _, _⟩ := hset
    [0x02, 0xDE, 0x18, 0x02, 0x00, 0x08, 0x00, 0x06, 0x00, 0x68, 0x00, 0x00, 0x01, 0x01, 0x03, 0xCA, 0x87]
    (by set_option maxRecDepth 100000 in decide)
  exact ⟨rfl, rfl, he, hp, res, hv, hr⟩

end MobiusDevice

namespace MobiusDevice

/-- C17 with a stale unread payload `09 09 09` in the slot and a wait of three
polls in which only `RESPONSE_CHARACTERISTIC_1` notifies. -/
theorem sendRequest_timeout_witness :
    ([0x02, 0xDE, 0x18, 0x02, 0x00, 0x08, 0x00, 0x06, 0x00, 0x68, 0x00, 0x00, 0x01, 0x01, 0x03, 0xCA, 0x87] : List Nat).length = 17
      ∧ ({ writeOk := true, duringWrite := [], polls := [[], [{ uuid := BLEUUID.RESPONSE_CHARACTERISTIC_1, pData := [1] }], []] } : Transport).writeOk = true
      ∧ silent { writeOk := true, duringWrite := [], polls := [[], [{ uuid := BLEUUID.RESPONSE_CHARACTERISTIC_1, pData := [1] }], []] } = true
      ∧ (sendRequest
          { writeOk := true, duringWrite := [], polls := [[], [{ uuid := BLEUUID.RESPONSE_CHARACTERISTIC_1, pData := [1] }], []] }
          { responseData := [9, 9, 9], responseDataSize := 3, responseUnread := true }
          [0x02, 0xDE, 0x18, 0x02, 0x00, 0x08, 0x00, 0x06, 0x00, 0x68, 0x00, 0x00, 0x01, 0x01, 0x03, 0xCA, 0x87] 17).val
        = some { response := [], responseSize := 0, slot := { responseData := [9, 9, 9], responseDataSize := 3, responseUnread := false } }
      ∧ (∃ res, (getData MobiusCRC.sampleTable
            { writeOk := true, duringWrite := [], polls := [[], [{ uuid := BLEUUID.RESPONSE_CHARACTERISTIC_1, pData := [1] }], []] }
            { messageId := 2, connected := true } { responseData := [9, 9, 9], responseDataSize := 3, responseUnread := true }
            [0x68, 0x00, 0x00, 0x01, 0x01, 0x03] 6).val = some res
          ∧ res.data = [] ∧ res.dataSize = 0)
      ∧ ∃ res, (setData MobiusCRC.sampleTable
            { writeOk := true, duringWrite := [], polls := [[], [{ uuid := BLEUUID.RESPONSE_CHARACTERISTIC_1, pData := [1] }], []] }
            { messageId := 2, connected := true } { responseData := [9, 9, 9], responseDataSize := 3, responseUnread := true }
            [0x68, 0x00, 0x00, 0x01, 0x01, 0x03] 6 true).val = some res
          ∧ res.result = false := by
  obtain ⟨hv, _, hget, hset⟩ := sendRequest_timeout MobiusCRC.sampleTable
    { writeOk := true, duringWrite := [], polls := [[], [{ uuid := BLEUUID.RESPONSE_CHARACTERISTIC_1, pData := [1] }], []] }
    { messageId := 2, connected := true } { responseData := [9, 9, 9], responseDataSize := 3, responseUnread := true }
    [0x68, 0x00, 0x00, 0x01, 0x01, 0x03] 6
    [0x02, 0xDE, 0x18, 0x02, 0x00, 0x08, 0x00, 0x06, 0x00, 0x68, 0x00, 0x00, 0x01, 0x01, 0x03, 0xCA, 0x87] 17 rfl rfl (by decide)
  obtain ⟨g, hg, hg1, hg2, _⟩ := hget
    [0x02, 0xDE, 0x17, 0x02, 0x00, 0x00, 0x00, 0x06, 0x00, 0x68, 0x00, 0x00, 0x01, 0x01, 0x03, 0xCD, 0x80]
    (by set_option maxRecDepth 100000 in decide)
  obtain ⟨s, hs, hs1, _⟩ := hset
    [0x02, 0xDE, 0x18, 0x02, 0x00, 0x08, 0x00, 0x06, 0x00, 0x68, 0x00, 0x00, 0x01, 0x01, 0x03, 0xCA, 0x87]
    (by set_option maxRecDepth 100000 in decide)
  exact ⟨rfl, rfl, by decide, hv, ⟨g, hg, hg1, hg2⟩, s, hs, hs1⟩

/-- C18 (amended) with a stale unread payload in the slot: the polls 0 and 1 find the flag
clear, poll 2 finds it set after two deposits, and the response is the second
of them, `04 05 06`; the later notification `08` is not waited for. -/
theorem sendRequest_first_unread_witness :
    ([0x02, 0xDE, 0x18, 0x02, 0x00, 0x08, 0x00, 0x06, 0x00, 0x68, 0x00, 0x00, 0x01, 0x01, 0x03, 0xCA, 0x87] : List Nat).length = 17
      ∧ (∀ i, i < 2 → (slotAtPoll
          { writeOk := true, duringWrite := [{ uuid := BLEUUID.RESPONSE_CHARACTERISTIC_1, pData := [7] }], polls := [[], [{ uuid := BLEUUID.RESPONSE_CHARACTERISTIC_1, pData := [1] }], [{ uuid := BLEUUID.RESPONSE_CHARACTERISTIC_2, pData := [2, 3] }, { uuid := BLEUUID.RESPONSE_CHARACTERISTIC_2, pData := [4, 5, 6] }], [{ uuid := BLEUUID.RESPONSE_CHARACTERISTIC_2, pData := [8] }]] }
          { responseData := [9, 9, 9], responseDataSize := 3, responseUnread := true } i).responseUnread = false)
      ∧ (slotAtPoll
          { writeOk := true, duringWrite := [{ uuid := BLEUUID.RESPONSE_CHARACTERISTIC_1, pData := [7] }], polls := [[], [{ uuid := BLEUUID.RESPONSE_CHARACTERISTIC_1, pData := [1] }], [{ uuid := BLEUUID.RESPONSE_CHARACTERISTIC_2, pData := [2, 3] }, { uuid := BLEUUID.RESPONSE_CHARACTERISTIC_2, pData := [4, 5, 6] }], [{ uuid := BLEUUID.RESPONSE_CHARACTERISTIC_2, pData := [8] }]] }
          { responseData := [9, 9, 9], responseDataSize := 3, responseUnread := true } 2).responseUnread = true
      ∧ ∃ sent, (sendRequest
            { writeOk := true, duringWrite := [{ uuid := BLEUUID.RESPONSE_CHARACTERISTIC_1, pData := [7] }], polls := [[], [{ uuid := BLEUUID.RESPONSE_CHARACTERISTIC_1, pData := [1] }], [{ uuid := BLEUUID.RESPONSE_CHARACTERISTIC_2, pData := [2, 3] }, { uuid := BLEUUID.RESPONSE_CHARACTERISTIC_2, pData := [4, 5, 6] }], [{ uuid := BLEUUID.RESPONSE_CHARACTERISTIC_2, pData := [8] }]] }
            { responseData := [9, 9, 9], responseDataSize := 3, responseUnread := true }
            [0x02, 0xDE, 0x18, 0x02, 0x00, 0x08, 0x00, 0x06, 0x00, 0x68, 0x00, 0x00, 0x01, 0x01, 0x03, 0xCA, 0x87] 17).val = some sent
          ∧ sent.response = [4, 5, 6]
          ∧ sent.responseSize = 3
          ∧ sent.slot.responseUnread = false
          ∧ (sendRequest
            { writeOk := true, duringWrite := [{ uuid := BLEUUID.RESPONSE_CHARACTERISTIC_1, pData := [7] }], polls := [[], [{ uuid := BLEUUID.RESPONSE_CHARACTERISTIC_1, pData := [1] }], [{ uuid := BLEUUID.RESPONSE_CHARACTERISTIC_2, pData := [2, 3] }, { uuid := BLEUUID.RESPONSE_CHARACTERISTIC_2, pData := [4, 5, 6] }], [{ uuid := BLEUUID.RESPONSE_CHARACTERISTIC_2, pData := [8] }]] }
            { responseData := [9, 9, 9], responseDataSize := 3, responseUnread := true }
            [0x02, 0xDE, 0x18, 0x02, 0x00, 0x08, 0x00, 0x06, 0x00, 0x68, 0x00, 0x00, 0x01, 0x01, 0x03, 0xCA, 0x87] 17).steps
            = [Effect.writeValue [0x02, 0xDE, 0x18, 0x02, 0x00, 0x08, 0x00, 0x06, 0x00, 0x68, 0x00, 0x00, 0x01, 0x01, 0x03, 0xCA, 0x87],
               Effect.poll, Effect.poll, Effect.poll] := by
  obtain ⟨sent, hv, _, _, hexact, hun, _, _, hsteps, _⟩ := sendRequest_first_unread
    { writeOk := true, duringWrite := [{ uuid := BLEUUID.RESPONSE_CHARACTERISTIC_1, pData := [7] }], polls := [[], [{ uuid := BLEUUID.RESPONSE_CHARACTERISTIC_1, pData := [1] }], [{ uuid := BLEUUID.RESPONSE_CHARACTERISTIC_2, pData := [2, 3] }, { uuid := BLEUUID.RESPONSE_CHARACTERISTIC_2, pData := [4, 5, 6] }], [{ uuid := BLEUUID.RESPONSE_CHARACTERISTIC_2, pData := [8] }]] }
    { responseData := [9, 9, 9], responseDataSize := 3, responseUnread := true }
    [0x02, 0xDE, 0x18, 0x02, 0x00, 0x08, 0x00, 0x06, 0x00, 0x68, 0x00, 0x00, 0x01, 0x01, 0x03, 0xCA, 0x87] 17 2 rfl rfl
    (by decide) (by decide) (by decide)
  obtain ⟨hr, hsz⟩ := hexact (by decide)
  exact ⟨rfl, by decide, by decide, sent, hv, hr, hsz, hun, hsteps⟩

/-- C19 for the operation-state request with message id 2 and the success
response arriving before the second poll: the frame for message id 2 is built
first, the lock taken next, and released last, in the "set" and in the "get". -/
theorem exchange_step_order_witness :
    (buildRequest MobiusCRC.sampleTable 2 [0x68, 0x00, 0x00, 0x01, 0x01, 0x03] 6 Mobius.OP_CODE_SET 0x0800).request
        = some [0x02, 0xDE, 0x18, 0x02, 0x00, 0x08, 0x00, 0x06, 0x00, 0x68, 0x00, 0x00, 0x01, 0x01, 0x03, 0xCA, 0x87]
      ∧ (∃ j res, j ≤ 2
          ∧ (setData MobiusCRC.sampleTable
              { writeOk := true, duringWrite := [], polls := [[], [{ uuid := BLEUUID.RESPONSE_CHARACTERISTIC_2, pData := [0x02, 0xDF, 0x18, 0x02, 0x00, 0x00, 0x00, 0x03, 0x00, 0x00, 0xFF, 0xFF, 0x12, 0x34] }]] }
              { messageId := 2, connected := true } { responseData := [], responseDataSize := 0, responseUnread := false }
              [0x68, 0x00, 0x00, 0x01, 0x01, 0x03] 6 true).val = some res
          ∧ (setData MobiusCRC.sampleTable
              { writeOk := true, duringWrite := [], polls := [[], [{ uuid := BLEUUID.RESPONSE_CHARACTERISTIC_2, pData := [0x02, 0xDF, 0x18, 0x02, 0x00, 0x00, 0x00, 0x03, 0x00, 0x00, 0xFF, 0xFF, 0x12, 0x34] }]] }
              { messageId := 2, connected := true } { responseData := [], responseDataSize := 0, responseUnread := false }
              [0x68, 0x00, 0x00, 0x01, 0x01, 0x03] 6 true).steps
            = [Effect.buildRequest 2, Effect.callMutexLock,
                Effect.writeValue [0x02, 0xDE, 0x18, 0x02, 0x00, 0x08, 0x00, 0x06, 0x00, 0x68, 0x00, 0x00, 0x01, 0x01, 0x03, 0xCA, 0x87]]
                ++ List.replicate j Effect.poll ++ [Effect.callMutexUnlock]
          ∧ res.self.messageId = 3)
      ∧ ∃ j res, j ≤ 2
          ∧ (getData MobiusCRC.sampleTable
              { writeOk := true, duringWrite := [], polls := [[], [{ uuid := BLEUUID.RESPONSE_CHARACTERISTIC_2, pData := [0x02, 0xDF, 0x18, 0x02, 0x00, 0x00, 0x00, 0x03, 0x00, 0x00, 0xFF, 0xFF, 0x12, 0x34] }]] }
              { messageId := 2, connected := true } { responseData := [], responseDataSize := 0, responseUnread := false }
              [0x68, 0x00, 0x00, 0x01, 0x01, 0x03] 6).val = some res
          ∧ (getData MobiusCRC.sampleTable
              { writeOk := true, duringWrite := [], polls := [[], [{ uuid := BLEUUID.RESPONSE_CHARACTERISTIC_2, pData := [0x02, 0xDF, 0x18, 0x02, 0x00, 0x00, 0x00, 0x03, 0x00, 0x00, 0xFF, 0xFF, 0x12, 0x34] }]] }
              { messageId := 2, connected := true } { responseData := [], responseDataSize := 0, responseUnread := false }
              [0x68, 0x00, 0x00, 0x01, 0x01, 0x03] 6).steps
            = [Effect.buildRequest 2, Effect.callMutexLock,
                Effect.writeValue [0x02, 0xDE, 0x17, 0x02, 0x00, 0x00, 0x00, 0x06, 0x00, 0x68, 0x00, 0x00, 0x01, 0x01, 0x03, 0xCD, 0x80]]
                ++ List.replicate j Effect.poll ++ [Effect.callMutexUnlock]
          ∧ res.self.messageId = 3 := by
  have hset : (buildRequest MobiusCRC.sampleTable 2 [0x68, 0x00, 0x00, 0x01, 0x01, 0x03] 6 Mobius.OP_CODE_SET 0x0800).request
      = some [0x02, 0xDE, 0x18, 0x02, 0x00, 0x08, 0x00, 0x06, 0x00, 0x68, 0x00, 0x00, 0x01, 0x01, 0x03, 0xCA, 0x87] := by
    set_option maxRecDepth 100000 in decide
  obtain ⟨h1, h2⟩ := exchange_step_order MobiusCRC.sampleTable
    { writeOk := true, duringWrite := [], polls := [[], [{ uuid := BLEUUID.RESPONSE_CHARACTERISTIC_2, pData := [0x02, 0xDF, 0x18, 0x02, 0x00, 0x00, 0x00, 0x03, 0x00, 0x00, 0xFF, 0xFF, 0x12, 0x34] }]] }
    { messageId := 2, connected := true } { responseData := [], responseDataSize := 0, responseUnread := false }
    [0x68, 0x00, 0x00, 0x01, 0x01, 0x03] 6 true
  obtain ⟨sent, j, hs, hj, hg⟩ := h2
    [0x02, 0xDE, 0x17, 0x02, 0x00, 0x00, 0x00, 0x06, 0x00, 0x68, 0x00, 0x00, 0x01, 0x01, 0x03, 0xCD, 0x80]
    (by set_option maxRecDepth 100000 in decide)
  have hs2 : (sendRequest
      { writeOk := true, duringWrite := [], polls := [[], [{ uuid := BLEUUID.RESPONSE_CHARACTERISTIC_2, pData := [0x02, 0xDF, 0x18, 0x02, 0x00, 0x00, 0x00, 0x03, 0x00, 0x00, 0xFF, 0xFF, 0x12, 0x34] }]] }
      { responseData := [], responseDataSize := 0, responseUnread := false }
      [0x02, 0xDE, 0x17, 0x02, 0x00, 0x00, 0x00, 0x06, 0x00, 0x68, 0x00, 0x00, 0x01, 0x01, 0x03, 0xCD, 0x80]
      (buildRequest MobiusCRC.sampleTable 2 [0x68, 0x00, 0x00, 0x01, 0x01, 0x03] 6 Mobius.OP_CODE_GET 0x0000).requestSize).val
      = some { response := [0x02, 0xDF, 0x18, 0x02, 0x00, 0x00, 0x00, 0x03, 0x00, 0x00, 0xFF, 0xFF, 0x12, 0x34], responseSize := 14, slot := { responseData := [0x02, 0xDF, 0x18, 0x02, 0x00, 0x00, 0x00, 0x03, 0x00, 0x00, 0xFF, 0xFF, 0x12, 0x34], responseDataSize := 14, responseUnread := false } } := by
    set_option maxRecDepth 100000 in decide
  rw [hs2] at hs
  simp only [Option.some.injEq] at hs
  subst hs
  obtain ⟨res, hv, hst, hm⟩ :=
    hg (Or.inr (Or.inr (Or.inr ⟨([0, 0xFF, 0xFF], 3), by decide⟩)))
  exact ⟨hset, h1 _ hset, j, res, hj, hv, hst, hm⟩

end MobiusDevice

/-! ## Scene query on a short payload, and the builder-parser round trip -/

namespace MobiusDevice

/-- C21 (the code at the failing input). When the transport delivers the
12-byte response `02 DF 17 02 00 00 00 01 00 AA BB CC`, which declares a
1-byte payload inside the response, `getData` returns the payload `AA` of
size 1, and `getCurrentScene`, finding the size positive, reads index 7 of
that 1-byte payload: a read outside it, although `8 <= 1` does not hold. -/
theorem getCurrentScene_reads_outside_payload :
    (getData MobiusCRC.sampleTable
        { writeOk := true, duringWrite := [], polls := [[{ uuid := BLEUUID.RESPONSE_CHARACTERISTIC_2, pData := [0x02, 0xDF, 0x17, 0x02, 0x00, 0x00, 0x00, 0x01, 0x00, 0xAA, 0xBB, 0xCC] }]] }
        { messageId := 2, connected := true }
        { responseData := [], responseDataSize := 0, responseUnread := false }
        Mobius.ATTRIBUTE_CURRENT_SCENE 4).val.map (fun got => (got.data, got.dataSize))
        = some ([0xAA], 1)
      ∧ (getCurrentScene MobiusCRC.sampleTable
          { writeOk := true, duringWrite := [], polls := [[{ uuid := BLEUUID.RESPONSE_CHARACTERISTIC_2, pData := [0x02, 0xDF, 0x17, 0x02, 0x00, 0x00, 0x00, 0x01, 0x00, 0xAA, 0xBB, 0xCC] }]] }
          { messageId := 2, connected := true }
          { responseData := [], responseDataSize := 0, responseUnread := false }).reads Buf.body
        = [7]
      ∧ (getCurrentScene MobiusCRC.sampleTable
          { writeOk := true, duringWrite := [], polls := [[{ uuid := BLEUUID.RESPONSE_CHARACTERISTIC_2, pData := [0x02, 0xDF, 0x17, 0x02, 0x00, 0x00, 0x00, 0x01, 0x00, 0xAA, 0xBB, 0xCC] }]] }
          { messageId := 2, connected := true }
          { responseData := [], responseDataSize := 0, responseUnread := false }).reads Buf.response
        = [0, 1, 8, 7, 9]
      ∧ (getCurrentScene MobiusCRC.sampleTable
          { writeOk := true, duringWrite := [], polls := [[{ uuid := BLEUUID.RESPONSE_CHARACTERISTIC_2, pData := [0x02, 0xDF, 0x17, 0x02, 0x00, 0x00, 0x00, 0x01, 0x00, 0xAA, 0xBB, 0xCC] }]] }
          { messageId := 2, connected := true }
          { responseData := [], responseDataSize := 0, responseUnread := false }).val
        = none
      ∧ ¬ (8 ≤ ([0xAA] : List Nat).length) := by
  refine ⟨?_, ?_, ?_, ?_, ?_⟩
  · set_option maxRecDepth 100000 in decide
  · set_option maxRecDepth 100000 in decide
  · set_option maxRecDepth 100000 in decide
  · set_option maxRecDepth 100000 in decide
  · decide

theorem set_group_confirm (a b : Nat) (l : List Nat) :
    (a :: b :: l).set 1 Mobius.OP_GROUP_CONFIRM = a :: Mobius.OP_GROUP_CONFIRM :: l := rfl

/-- C22. For every payload `p` of at most 65524 bytes and every opCode,
reserved value and message id, `buildRequest` returns a frame of
`p.length + 11` bytes, and `parseResponseData`, given that frame with only
its byte at index 1 replaced by the confirm group `0xDF` and the size
`buildRequest` reported, returns exactly `p` and its length. -/
theorem buildRequest_parseResponseData_round_trip (table : List Nat)
    (hlen : table.length = 256) (messageId opCode reserved : Nat) (p : List Nat)
    (hp : p.length ≤ 65524) :
    ∃ frame, (buildRequest table messageId p p.length opCode reserved).request = some frame
      ∧ frame.length = p.length + 11
      ∧ (parseResponseData (frame.set 1 0xDF)
          (buildRequest table messageId p p.length opCode reserved).requestSize).val
        = some (p, p.length) := by
  obtain ⟨c, _, _, hb⟩ :=
    buildRequest_closed table hlen messageId p p.length opCode reserved rfl hp
  have hsize : (buildRequest table messageId p p.length opCode reserved).requestSize
      = p.length + 11 := by
    rw [buildRequest_requestSize]
    exact Nat.mod_eq_of_lt (by omega)
  refine ⟨_, hb, by simp, ?_⟩
  rw [hsize]
  simp only [List.cons_append, List.nil_append]
  rw [show (0xDF : Nat) = Mobius.OP_GROUP_CONFIRM from rfl, set_group_confirm]
  by_cases h0 : p.length = 0
  · have hnil : p = [] := List.eq_nil_of_length_eq_zero h0
    subst hnil
    exact parseResponseData_invalid _ _ rfl (Or.inl (by decide))
  · have hlow := lowByte_eq p.length
    have hhigh := highByte_eq p.length (by omega)
    have hn : lowByte p.length + 256 * highByte p.length = p.length := by
      rw [hlow, hhigh]
      omega
    have h := parseResponseData_valid
      (0x02 :: Mobius.OP_GROUP_CONFIRM :: opCode :: lowByte messageId :: highByte messageId
        :: highByte reserved :: lowByte reserved :: lowByte p.length :: highByte p.length
        :: (p ++ [c % 256, c / 256]))
      (p.length + 11) (lowByte p.length) (highByte p.length) (by omega) (by simp)
      (by simp [Mobius.OP_GROUP_CONFIRM]) (by simp) (by simp)
      (by
        rw [hn]
        simp only [List.length_cons, List.length_append, List.length_nil]
        omega)
      (by
        rw [hn]
        omega)
    rw [hn] at h
    rw [h]
    simp

/-- C22 for the 3-byte payload `0A 0B 0C` with opcode `0x17`, reserved `0` and
message id 2. -/
theorem buildRequest_parseResponseData_round_trip_witness :
    MobiusCRC.sampleTable.length = 256
      ∧ ([0x0A, 0x0B, 0x0C] : List Nat).length ≤ 65524
      ∧ (∃ frame, (buildRequest MobiusCRC.sampleTable 2 [0x0A, 0x0B, 0x0C] 3 0x17 0).request
            = some frame
          ∧ frame.length = 3 + 11
          ∧ (parseResponseData (frame.set 1 0xDF)
              (buildRequest MobiusCRC.sampleTable 2 [0x0A, 0x0B, 0x0C] 3 0x17 0).requestSize).val
            = some ([0x0A, 0x0B, 0x0C], 3))
      ∧ (buildRequest MobiusCRC.sampleTable 2 [0x0A, 0x0B, 0x0C] 3 0x17 0).requestSize = 14 :=
  ⟨MobiusCRC.sampleTable_length, by decide,
    buildRequest_parseResponseData_round_trip MobiusCRC.sampleTable
      MobiusCRC.sampleTable_length 2 0x17 0 [0x0A, 0x0B, 0x0C] (by decide),
    rfl⟩

end MobiusDevice

/-! ## Result of a "set" over every outcome of the transport -/

namespace MobiusDevice

theorem waitLoop_noUnread (polls : List (List Notification)) :
    ∀ slot : Slot,
      (∀ i, i < polls.length →
        (deposit (polls.take (i + 1)).flatten slot).responseUnread = false) →
      (waitLoop polls slot).val
        = some { response := [], responseSize := 0, slot := deposit polls.flatten slot } := by
  induction polls with
  | nil =>
    intro slot _
    rfl
  | cons arrivals rest ih =>
    intro slot h
    have h0 := h 0 (by simp)
    simp only [List.take_succ_cons, List.take_zero, List.flatten_cons, List.flatten_nil,
      List.append_nil] at h0
    have hrest := ih (deposit arrivals slot) (fun i hi => by
      have h1 := h (i + 1) (by simp only [List.length_cons]; omega)
      simp only [List.take_succ_cons, List.flatten_cons] at h1
      rw [deposit_append] at h1
      exact h1)
    simp only [waitLoop, Ran.val_bind, deliver_deposit, Option.some_bind, Ran.val_act, h0,
      Bool.false_eq_true, if_false, Ran.val_ite]
    rw [List.flatten_cons, deposit_append]
    exact hrest

theorem sendRequest_noUnread (env : Transport) (slot : Slot) (request : List Nat)
    (length : Nat) (hlen : request.length = length) (hw : env.writeOk = true)
    (hno : ∀ i, i < env.polls.length → (slotAtPoll env slot i).responseUnread = false) :
    (sendRequest env slot request length).val
      = some { response := [], responseSize := 0,
               slot := deposit env.polls.flatten
                 (deposit env.duringWrite { slot with responseUnread := false }) } := by
  subst hlen
  have h := waitLoop_noUnread env.polls
    (deposit env.duringWrite { slot with responseUnread := false }) (fun i hi => by
      have h1 := hno i hi
      unfold slotAtPoll at h1
      rw [deposit_append] at h1
      exact h1)
  simp only [sendRequest, Ran.val_bind, memcpy_whole, Option.some_bind, deliver_deposit,
    Ran.val_act, hw, if_true, Ran.val_emit, Ran.val_ite]
  exact h

theorem first_unread_cases (env : Transport) (slot : Slot) :
    (∀ i, i < env.polls.length → (slotAtPoll env slot i).responseUnread = false)
      ∨ ∃ k, k < env.polls.length
          ∧ (∀ i, i < k → (slotAtPoll env slot i).responseUnread = false)
          ∧ (slotAtPoll env slot k).responseUnread = true := by
  by_cases h : ∃ k, k < env.polls.length ∧ (slotAtPoll env slot k).responseUnread = true
  · right
    refine ⟨Nat.find h, (Nat.find_spec h).1, fun i hi => ?_, (Nat.find_spec h).2⟩
    have hmin := Nat.find_min h hi
    have hlt : i < env.polls.length := Nat.lt_trans hi (Nat.find_spec h).1
    cases hu : (slotAtPoll env slot i).responseUnread
    · rfl
    · exact absurd ⟨hlt, hu⟩ hmin
  · left
    intro i hi
    cases hu : (slotAtPoll env slot i).responseUnread
    · rfl
    · exact absurd ⟨i, hi, hu⟩ h

/-- C9. For every payload, verification flag and behaviour of the transport:
once the request frame is built, `setData` returns a value, and it returns true
exactly when verification was skipped or the response `sendRequest` returned is
non-empty and `responseSuccessful(request, response)` is true. The response is
tied to the transport: it is empty after a failed write and after a wait in
which no poll finds the unread flag set (in particular a silent one), and
after a successful write it is what the slot holds at the first poll that
finds the flag set (size as a `uint16_t`; for a payload below 65536 bytes the
delivered bytes and size themselves, so that the result is true exactly when
verification was skipped or `responseSuccessful(request, delivered)` is true).
These three outcomes are all there are. With verification requested an empty
response gives false. The frame is built for every payload of at most 65524
bytes (with a 256-entry checksum table). -/
theorem setData_result (table : List Nat) (env : Transport) (self : MobiusDevice)
    (slot : Slot) (data : List Nat) (length : Nat) (doVerification : Bool) :
    (∀ req,
      (buildRequest table self.messageId data length Mobius.OP_CODE_SET 0x0800).request
          = some req →
      ∃ sent ok res,
        (sendRequest env slot req
          (buildRequest table self.messageId data length Mobius.OP_CODE_SET
            0x0800).requestSize).val = some sent
        ∧ (responseSuccessful req
            (buildRequest table self.messageId data length Mobius.OP_CODE_SET
              0x0800).requestSize sent.response sent.responseSize).val = some ok
        ∧ (setData table env self slot data length doVerification).val = some res
        ∧ (res.result = true ↔ (doVerification = false ∨ (0 < sent.responseSize ∧ ok = true)))
        ∧ (env.writeOk = false → sent.responseSize = 0)
        ∧ (silent env = true → sent.responseSize = 0)
        ∧ (doVerification = true → sent.responseSize = 0 → res.result = false)
        ∧ (env.writeOk = true →
            (∀ i, i < env.polls.length → (slotAtPoll env slot i).responseUnread = false) →
            sent.response = [] ∧ sent.responseSize = 0)
        ∧ (env.writeOk = true → ∀ k, k < env.polls.length →
            (∀ i, i < k → (slotAtPoll env slot i).responseUnread = false) →
            (slotAtPoll env slot k).responseUnread = true →
            sent.responseSize = (slotAtPoll env slot k).responseDataSize % 65536
            ∧ sent.response = (slotAtPoll env slot k).responseData.take sent.responseSize
            ∧ ((slotAtPoll env slot k).responseDataSize < 65536 →
                sent.response = (slotAtPoll env slot k).responseData
                ∧ sent.responseSize = (slotAtPoll env slot k).responseDataSize
                ∧ (res.result = true ↔
                    (doVerification = false
                      ∨ (0 < (slotAtPoll env slot k).responseDataSize
                          ∧ (responseSuccessful req
                              (buildRequest table self.messageId data length Mobius.OP_CODE_SET
                                0x0800).requestSize
                              (slotAtPoll env slot k).responseData
                              (slotAtPoll env slot k).responseDataSize).val = some true)))))
        ∧ (env.writeOk = false
            ∨ (env.writeOk = true
                ∧ ∀ i, i < env.polls.length → (slotAtPoll env slot i).responseUnread = false)
            ∨ (env.writeOk = true
                ∧ ∃ k, k < env.polls.length
                  ∧ (∀ i, i < k → (slotAtPoll env slot i).responseUnread = false)
                  ∧ (slotAtPoll env slot k).responseUnread = true)))
      ∧ (table.length = 256 → data.length = length → length ≤ 65524 →
          ∃ req,
            (buildRequest table self.messageId data length Mobius.OP_CODE_SET 0x0800).request
              = some req) := by
  constructor
  swap
  · intro hlen hdata hmax
    obtain ⟨c, _, _, hb⟩ := buildRequest_closed table hlen self.messageId data length
      Mobius.OP_CODE_SET 0x0800 hdata hmax
    exact ⟨_, hb⟩
  intro req hb
  have hrl := buildRequest_length table self.messageId data length Mobius.OP_CODE_SET 0x0800
    req hb
  obtain ⟨sent, hs, hl, hw, hq⟩ := sendRequest_val env slot req _ hrl
  obtain ⟨ok, hok, _⟩ := responseSuccessful_spec req sent.response _ sent.responseSize hrl hl
  have hcases : env.writeOk = false
      ∨ (env.writeOk = true
          ∧ ∀ i, i < env.polls.length → (slotAtPoll env slot i).responseUnread = false)
      ∨ (env.writeOk = true
          ∧ ∃ k, k < env.polls.length
            ∧ (∀ i, i < k → (slotAtPoll env slot i).responseUnread = false)
            ∧ (slotAtPoll env slot k).responseUnread = true) := by
    cases hwo : env.writeOk
    · exact Or.inl rfl
    · rcases first_unread_cases env slot with h | h
      · exact Or.inr (Or.inl ⟨rfl, h⟩)
      · exact Or.inr (Or.inr ⟨rfl, h⟩)
  have hnone : env.writeOk = true →
      (∀ i, i < env.polls.length → (slotAtPoll env slot i).responseUnread = false) →
      sent.response = [] ∧ sent.responseSize = 0 := by
    intro hwo hno
    have h := sendRequest_noUnread env slot req _ hrl hwo hno
    rw [hs] at h
    simp only [Option.some.injEq] at h
    subst h
    exact ⟨rfl, rfl⟩
  have hfirst : ∀ res : SetResult,
      (res.result = true ↔ (doVerification = false ∨ (0 < sent.responseSize ∧ ok = true))) →
      env.writeOk = true → ∀ k, k < env.polls.length →
      (∀ i, i < k → (slotAtPoll env slot i).responseUnread = false) →
      (slotAtPoll env slot k).responseUnread = true →
      sent.responseSize = (slotAtPoll env slot k).responseDataSize % 65536
      ∧ sent.response = (slotAtPoll env slot k).responseData.take sent.responseSize
      ∧ ((slotAtPoll env slot k).responseDataSize < 65536 →
          sent.response = (slotAtPoll env slot k).responseData
          ∧ sent.responseSize = (slotAtPoll env slot k).responseDataSize
          ∧ (res.result = true ↔
              (doVerification = false
                ∨ (0 < (slotAtPoll env slot k).responseDataSize
                    ∧ (responseSuccessful req
                        (buildRequest table self.messageId data length Mobius.OP_CODE_SET
                          0x0800).requestSize
                        (slotAtPoll env slot k).responseData
                        (slotAtPoll env slot k).responseDataSize).val = some true)))) := by
    intro res hiff hwo k hk hbefore hu
    obtain ⟨hv, _, hcons⟩ := sendRequest_firstUnread env slot req _ k hrl hwo hk hbefore hu
    rw [hs] at hv
    simp only [Option.some.injEq] at hv
    have hsz : sent.responseSize = (slotAtPoll env slot k).responseDataSize % 65536 := by
      rw [hv]
    have hresp : sent.response
        = (slotAtPoll env slot k).responseData.take sent.responseSize := by
      rw [hsz, hv]
    refine ⟨hsz, hresp, fun hlt => ?_⟩
    have hsz2 : sent.responseSize = (slotAtPoll env slot k).responseDataSize := by
      rw [hsz]
      exact Nat.mod_eq_of_lt hlt
    have hresp2 : sent.response = (slotAtPoll env slot k).responseData := by
      rw [hresp, hsz2, ← hcons, List.take_length]
    refine ⟨hresp2, hsz2, ?_⟩
    rw [← hresp2, ← hsz2, hok, hiff]
    simp only [Option.some.injEq]
  by_cases hv : (decide (0 < sent.responseSize) && doVerification) = true
  · have hiff : (ok || !doVerification) = true
        ↔ (doVerification = false ∨ (0 < sent.responseSize ∧ ok = true)) := by
      simp only [Bool.and_eq_true, decide_eq_true_eq] at hv
      simp [hv.1, hv.2]
    refine ⟨sent, ok, ⟨ok || !doVerification,
      { self with messageId := (self.messageId + 1) % 65536 }, sent.slot⟩, hs, hok, ?_, hiff,
      hw, hq, ?_, hnone, hfirst _ hiff, hcases⟩
    · simp only [setData, hb, Ran.val_bind, Ran.val_act, Ran.val_ofOption,
        Option.some_bind, hs, hv, if_true, hok, Ran.val_pure, buildRequest_messageId]
    · intro _ h0
      simp only [Bool.and_eq_true, decide_eq_true_eq] at hv
      omega
  · have hiff : (false || !doVerification) = true
        ↔ (doVerification = false ∨ (0 < sent.responseSize ∧ ok = true)) := by
      cases doVerification
      · simp
      · simp only [Bool.and_true, decide_eq_true_eq, Nat.not_lt, Nat.le_zero] at hv
        simp [hv]
    refine ⟨sent, ok, ⟨false || !doVerification,
      { self with messageId := (self.messageId + 1) % 65536 }, sent.slot⟩, hs, hok, ?_, hiff,
      hw, hq, ?_, hnone, hfirst _ hiff, hcases⟩
    · simp only [setData, hb, Ran.val_bind, Ran.val_act, Ran.val_ofOption,
        Option.some_bind, hs, hv, Ran.val_pure, buildRequest_messageId]
      simp
    · intro hd _
      simp [hd]

end MobiusDevice

namespace MobiusDevice

/-- C9 at a verified "set" of the operation state with message id 2 over a slot
holding a stale unread payload: a success response `.. 03 00 00 FF FF ..`
delivered before the second poll gives true, a delivered response
`.. 03 00 00 00 00 ..` gives false, and a failed write gives false. -/
theorem setData_result_witness :
    MobiusCRC.sampleTable.length = 256
      ∧ ([0x68, 0x00, 0x00, 0x01, 0x01, 0x03] : List Nat).length ≤ 65524
      ∧ ((setData MobiusCRC.sampleTable
            { writeOk := true, duringWrite := [], polls := [[], [{ uuid := BLEUUID.RESPONSE_CHARACTERISTIC_2, pData := [0x02, 0xDF, 0x18, 0x02, 0x00, 0x00, 0x00, 0x03, 0x00, 0x00, 0xFF, 0xFF, 0x12, 0x34] }]] }
            { messageId := 2, connected := true } { responseData := [9, 9, 9], responseDataSize := 3, responseUnread := true }
            [0x68, 0x00, 0x00, 0x01, 0x01, 0x03] 6 true).val.map (fun res => res.result))
          = some true
      ∧ ((setData MobiusCRC.sampleTable
            { writeOk := true, duringWrite := [], polls := [[], [{ uuid := BLEUUID.RESPONSE_CHARACTERISTIC_2, pData := [0x02, 0xDF, 0x18, 0x02, 0x00, 0x00, 0x00, 0x03, 0x00, 0x00, 0x00, 0x00, 0x12, 0x34] }]] }
            { messageId := 2, connected := true } { responseData := [9, 9, 9], responseDataSize := 3, responseUnread := true }
            [0x68, 0x00, 0x00, 0x01, 0x01, 0x03] 6 true).val.map (fun res => res.result))
          = some false
      ∧ ((setData MobiusCRC.sampleTable
            { writeOk := false, duringWrite := [], polls := [] }
            { messageId := 2, connected := true } { responseData := [9, 9, 9], responseDataSize := 3, responseUnread := true }
            [0x68, 0x00, 0x00, 0x01, 0x01, 0x03] 6 true).val.map (fun res => res.result))
          = some false := by
  refine ⟨MobiusCRC.sampleTable_length, by decide, ?_, ?_, ?_⟩
  · have h := setData_result MobiusCRC.sampleTable
      { writeOk := true, duringWrite := [], polls := [[], [{ uuid := BLEUUID.RESPONSE_CHARACTERISTIC_2, pData := [0x02, 0xDF, 0x18, 0x02, 0x00, 0x00, 0x00, 0x03, 0x00, 0x00, 0xFF, 0xFF, 0x12, 0x34] }]] }
      { messageId := 2, connected := true } { responseData := [9, 9, 9], responseDataSize := 3, responseUnread := true }
      [0x68, 0x00, 0x00, 0x01, 0x01, 0x03] 6 true
    obtain ⟨sent, ok, res, _, _, hres, _, _, _, _, _, hdel, _⟩ := h.1
      [0x02, 0xDE, 0x18, 0x02, 0x00, 0x08, 0x00, 0x06, 0x00, 0x68, 0x00, 0x00, 0x01, 0x01, 0x03, 0xCA, 0x87]
      (by set_option maxRecDepth 100000 in decide)
    obtain ⟨_, _, hex⟩ := hdel rfl 1 (by decide) (by decide) (by decide)
    obtain ⟨_, _, hiff⟩ := hex (by decide)
    have hr : res.result = true :=
      hiff.2 (Or.inr ⟨by decide, by set_option maxRecDepth 100000 in decide⟩)
    rw [hres, Option.map_some', hr]
  · have h := setData_result MobiusCRC.sampleTable
      { writeOk := true, duringWrite := [], polls := [[], [{ uuid := BLEUUID.RESPONSE_CHARACTERISTIC_2, pData := [0x02, 0xDF, 0x18, 0x02, 0x00, 0x00, 0x00, 0x03, 0x00, 0x00, 0x00, 0x00, 0x12, 0x34] }]] }
      { messageId := 2, connected := true } { responseData := [9, 9, 9], responseDataSize := 3, responseUnread := true }
      [0x68, 0x00, 0x00, 0x01, 0x01, 0x03] 6 true
    obtain ⟨sent, ok, res, _, _, hres, _, _, _, _, _, hdel, _⟩ := h.1
      [0x02, 0xDE, 0x18, 0x02, 0x00, 0x08, 0x00, 0x06, 0x00, 0x68, 0x00, 0x00, 0x01, 0x01, 0x03, 0xCA, 0x87]
      (by set_option maxRecDepth 100000 in decide)
    obtain ⟨_, _, hex⟩ := hdel rfl 1 (by decide) (by decide) (by decide)
    obtain ⟨_, _, hiff⟩ := hex (by decide)
    have hr : res.result = false := by
      cases hres2 : res.result
      · rfl
      · rcases hiff.1 hres2 with hd | ⟨_, hd⟩
        · exact absurd hd (by decide)
        · exact absurd hd (by set_option maxRecDepth 100000 in decide)
    rw [hres, Option.map_some', hr]
  · have h := setData_result MobiusCRC.sampleTable
      { writeOk := false, duringWrite := [], polls := [] }
      { messageId := 2, connected := true } { responseData := [9, 9, 9], responseDataSize := 3, responseUnread := true }
      [0x68, 0x00, 0x00, 0x01, 0x01, 0x03] 6 true
    obtain ⟨req, hreq⟩ := h.2 MobiusCRC.sampleTable_length rfl (by decide)
    obtain ⟨sent, ok, res, _, _, hres, _, hw, _, hfalse, _⟩ := h.1 req hreq
    have hr : res.result = false := hfalse rfl (hw rfl)
    rw [hres, Option.map_some', hr]

end MobiusDevice

namespace MobiusDevice

/-- C18 (counterexample). With a successful write and one notification of 65539
bytes on `RESPONSE_CHARACTERISTIC_2` before the first poll, that poll finds
the unread flag set with 65539 bytes in the slot, and `sendRequest` returns 3
bytes with size 3: not the bytes and size the slot holds. -/
theorem sendRequest_truncates_long_payload :
    (slotAtPoll
        { writeOk := true, duringWrite := [], polls := [[{ uuid := BLEUUID.RESPONSE_CHARACTERISTIC_2, pData := List.replicate 65539 0xAB }]] }
        { responseData := [], responseDataSize := 0, responseUnread := false } 0).responseUnread
        = true
      ∧ (slotAtPoll
          { writeOk := true, duringWrite := [], polls := [[{ uuid := BLEUUID.RESPONSE_CHARACTERISTIC_2, pData := List.replicate 65539 0xAB }]] }
          { responseData := [], responseDataSize := 0, responseUnread := false } 0).responseDataSize
        = 65539
      ∧ (slotAtPoll
          { writeOk := true, duringWrite := [], polls := [[{ uuid := BLEUUID.RESPONSE_CHARACTERISTIC_2, pData := List.replicate 65539 0xAB }]] }
          { responseData := [], responseDataSize := 0, responseUnread := false } 0).responseData
        = List.replicate 65539 0xAB
      ∧ ((sendRequest
          { writeOk := true, duringWrite := [], polls := [[{ uuid := BLEUUID.RESPONSE_CHARACTERISTIC_2, pData := List.replicate 65539 0xAB }]] }
          { responseData := [], responseDataSize := 0, responseUnread := false }
          [0x02, 0xDE, 0x18, 0x02, 0x00, 0x08, 0x00, 0x06, 0x00, 0x68, 0x00, 0x00, 0x01, 0x01, 0x03, 0xCA, 0x87]
          17).val.map (fun sent => (sent.response, sent.responseSize)))
        = some ([0xAB, 0xAB, 0xAB], 3) := by
  have hslot0 : slotAtPoll
      { writeOk := true, duringWrite := [], polls := [[{ uuid := BLEUUID.RESPONSE_CHARACTERISTIC_2, pData := List.replicate 65539 0xAB }]] }
      { responseData := [], responseDataSize := 0, responseUnread := false } 0
      = { responseData := List.replicate 65539 0xAB,
          responseDataSize := (List.replicate 65539 0xAB).length,
          responseUnread := true } := rfl
  have hslot : slotAtPoll
      { writeOk := true, duringWrite := [], polls := [[{ uuid := BLEUUID.RESPONSE_CHARACTERISTIC_2, pData := List.replicate 65539 0xAB }]] }
      { responseData := [], responseDataSize := 0, responseUnread := false } 0
      = { responseData := List.replicate 65539 0xAB, responseDataSize := 65539,
          responseUnread := true } := by
    rw [hslot0, List.length_replicate]
  obtain ⟨hv, _, _⟩ := sendRequest_firstUnread
    { writeOk := true, duringWrite := [], polls := [[{ uuid := BLEUUID.RESPONSE_CHARACTERISTIC_2, pData := List.replicate 65539 0xAB }]] }
    { responseData := [], responseDataSize := 0, responseUnread := false }
    [0x02, 0xDE, 0x18, 0x02, 0x00, 0x08, 0x00, 0x06, 0x00, 0x68, 0x00, 0x00, 0x01, 0x01, 0x03, 0xCA, 0x87]
    17 0 rfl rfl (by decide) (fun i hi => absurd hi (Nat.not_lt_zero i))
    (by rw [hslot])
  refine ⟨by rw [hslot], by rw [hslot], by rw [hslot], ?_⟩
  rw [hv, hslot, Option.map_some']
  show some (List.take (65539 % 65536) (List.replicate 65539 0xAB), 65539 % 65536)
    = some ([0xAB, 0xAB, 0xAB], 3)
  rfl

end MobiusDevice
